import Mathlib

/-!
# sleepd: suspend/resume state machine (`src/pwrevents/suspend.c`, `src/pwrevents/machine.c`)

A shallow embedding of the power-event state machine.  The globals of the two
C files are the fields of `World`; every state function is a pure function
`Responses → World → PowerState × World × List Effect` that returns the next
state, the updated globals and the calls it made to its collaborators, in
program order.  What the collaborators answer (clock, client votes, wait
objects, activity registry, alarm queue, nyx) is read from a `Responses`
record, one record per invocation of a state function.  The idle evaluator
`IdleCheck`, the two message decoders `DisplayStatusCb` and `ChargerStatus` and
`MachineGetName` are embedded the same way, each over the inputs it reads.
-/

namespace Sleepd

/-! ## Data model -/

/-- Power states, `suspend.c` lines 72-84.  `kPowerStateLast` is the sentinel. -/
inductive PowerState
  | kPowerStateOn
  | kPowerStateOnIdle
  | kPowerStateSuspendRequest
  | kPowerStatePrepareSuspend
  | kPowerStateSleep
  | kPowerStateKernelResume
  | kPowerStateActivityResume
  | kPowerStateAbortSuspend
  | kPowerStateLast
  deriving DecidableEq, Repr

/-- Resume kinds, `suspend.c` lines 86-91. -/
inductive ResumeType
  | kResumeTypeKernel
  | kResumeTypeActivity
  | kResumeAbortSuspend
  deriving DecidableEq, Repr

/-- The integer value of a resume kind (position in the C enum). -/
def ResumeType.toNat : ResumeType → Nat
  | .kResumeTypeKernel => 0
  | .kResumeTypeActivity => 1
  | .kResumeAbortSuspend => 2

/-- The table `resume_type_descriptions`, `suspend.c` lines 93-99. -/
def resume_type_descriptions : List String :=
  ["kernel", "pwrevent_activity", "pwrevent_non_idle", "abort_suspend"]

/-- Modelled from the spec: the type `PowerEvent` is declared in `suspend.h`, which is
not among the sources.  The constructors are the eight inputs of spec section 3; the
three that `suspend.c` mentions keep the names it uses (`kPowerEventNone`,
`kPowerEventIdleEvent` for IdleDetected, `kPowerEventForceSuspend`). -/
inductive PowerEvent
  | kPowerEventNone
  | kPowerEventIdleEvent
  | kPowerEventForceSuspend
  | kPowerEventVoteChanged
  | kPowerEventPhaseTimeout
  | kPowerEventDisplayChanged
  | kPowerEventChargerChanged
  | kPowerEventResumedByKernel
  deriving DecidableEq, Repr

/-- The C `struct timespec`. -/
structure timespec where
  tv_sec : Int
  tv_nsec : Int
  deriving DecidableEq, Repr

/-- Modelled from the spec: a client vote (spec section 3); `client.h` is not among the
sources. -/
inductive Vote
  | Unset
  | Ack
  | Nack
  deriving DecidableEq, Repr

/-- Modelled from the spec: a subscribed client (spec section 3); `client.c` is not
among the sources. -/
structure Client where
  id : String
  suspend_request_vote : Vote
  prepare_suspend_vote : Vote
  last_nack_reason : String
  deriving DecidableEq, Repr

/-- Modelled from the spec: the configuration snapshot `gSleepConfig` (declared in
`config.h`, not among the sources), with the options of spec section 3. -/
structure SleepConfig where
  wait_idle_ms : Int
  wait_idle_granularity_ms : Int
  wait_suspend_response_ms : Int
  wait_prepare_suspend_ms : Int
  after_resume_idle_ms : Int
  wait_alarms_s : Int
  suspend_with_charger : Bool
  fasthalt : Bool
  deriving DecidableEq, Repr

/-- The idle timer source: the interval last set by `g_timer_source_set_interval`
and its `fromPoll` argument. -/
structure GTimerSource where
  interval_ms : Int
  granularity_ms : Int
  from_poll : Bool
  deriving DecidableEq, Repr

/-- The two wait objects a phase can block on. -/
inductive WaitObj
  | gWaitSuspendResponse
  | gWaitPrepareSuspend
  deriving DecidableEq, Repr

/-- Log levels passed to `PwrEventClientTablePrint`. -/
inductive LogLevel
  | G_LOG_LEVEL_DEBUG
  | G_LOG_LEVEL_WARNING
  deriving DecidableEq, Repr

/-- Calls to collaborators, recorded in program order.  `StateChange a b` records the
assignment `gCurrentStateNode = kStateMachine[b]` made by `SuspendStateUpdate` while
the current state was `a`. -/
inductive Effect
  | PwrEventVoteInit
  | SendSuspendRequest (message : String)
  | SendPrepareSuspend (message : String)
  | SendSuspended (message : String)
  | SendResume (resumetype : ResumeType) (message : String)
  | WaitObjectWait (obj : WaitObj) (ms : Int)
  | PwrEventClientTablePrint (level : LogLevel)
  | PwrEventGetSuspendRequestNORSPList
  | PwrEventGetPrepareSuspendNORSPList
  | PwrEventGetClientTable
  | timeout_get_next_wakeup
  | PwrEventClientPrintNACKRateLimited
  | sawmill_logger_record_sleep
  | sawmill_logger_record_wake
  | timesaver_save
  | PwrEventActivityCheckActivitiesActive (now : timespec)
  | PwrEventFreezeActivities (now : timespec)
  | PwrEventThawActivities
  | PwrEventActivityPrintFrom (start : timespec)
  | queue_next_wakeup
  | nyx_system_suspend_async
  | nyx_system_resume
  | ScheduleIdleCheck (interval_ms : Int) (fromPoll : Bool)
  | StateChange (src dst : PowerState)
  | PwrEventActivityCanSleep (now : timespec)
  | PwrEventActivityCount (start : timespec)
  | PwrEventActivityRemoveExpired (now : timespec)
  | PwrEventActivityGetMaxDuration (now : timespec)
  | access_suspend_active
  | TriggerSuspend (reason : String) (event : PowerEvent)
  deriving DecidableEq, Repr

/-- The globals and function-local statics of `suspend.c` and `machine.c`, the client
table and the frozen mark of the activity registry.  `ticks` is a ghost counter of
the state functions invoked so far; it selects the `Responses` record. -/
structure World where
  gCurrentStateNode : PowerState
  gSuspendEvent : PowerEvent
  idle_scheduler : Option GTimerSource
  sTimeOnStartSuspend : timespec
  sTimeOnSuspended : timespec
  sTimeOnWake : timespec
  sSuspendRTC : timespec
  sWakeRTC : timespec
  gDisplayIsOn : Bool
  gSleepConfig : SleepConfig
  chargerIsConnected : Bool
  usbconn : Bool
  dockconn : Bool
  machineSupportsWakelocks : Bool
  wakelocks_initialized : Bool
  request_successive_ons : Int
  request_log_count : Int
  prepare_successive_ons : Int
  prepare_log_count : Int
  isDNAST : Bool
  clients : List Client
  activities_frozen : Bool
  ticks : Nat
  deriving DecidableEq, Repr

/-- What the collaborators answer during one invocation of a state function. -/
structure Responses where
  /-- value stored by `ClockGetTime` -/
  clock : timespec
  /-- value stored by `get_time_now` -/
  rtc : timespec
  /-- votes that reach the client table between the phase broadcast and the first poll -/
  votes_on_broadcast : List Client → List Client
  /-- return value of `WaitObjectWait` (non-zero: timed out) -/
  wait_result : Int
  /-- votes that reach the client table while the phase waits -/
  votes_during_wait : List Client → List Client
  /-- whether the activity registry has no active activity at the time asked -/
  activities_idle : Bool
  /-- return value of `queue_next_wakeup` -/
  queue_next_wakeup : Bool
  /-- return value of `nyx_system_suspend_async` (0 is `NYX_ERROR_NONE`) -/
  nyx_error : Int
  /-- value left in `success` by `nyx_system_suspend_async` -/
  nyx_success : Bool
  /-- result of the `g_file_test` on `/sys/power/wake_lock` -/
  wake_lock_file : Bool

/-- A state function: next state, updated globals, calls made. -/
abbrev PowerStateProc := Responses → World → PowerState × World × List Effect

/-- Two's-complement wrap of a C `int`. -/
def wrapInt32 (x : Int) : Int := (x + 2147483648) % 4294967296 - 2147483648

def START_LOG_COUNT : Int := 8

def MAX_LOG_COUNT_INCREASE_RATE : Int := 512

/-! ## Collaborators modelled from the spec -/

/-- Modelled from the spec: `PwrEventVoteInit` (`client.c`, not among the sources) is the
`reset_votes()` of spec section 4.3: votes are reset at the start of each suspend
cycle. -/
def PwrEventVoteInit (cs : List Client) : List Client :=
  cs.map fun c => { c with suspend_request_vote := Vote.Unset, prepare_suspend_vote := Vote.Unset }

/-- Modelled from the spec: `PwrEventClientsApproveSuspendRequest` (`client.c`, not among
the sources) is `all_approved(phase 1)`: true iff every known client's vote for
that phase is `Ack`. -/
def PwrEventClientsApproveSuspendRequest (cs : List Client) : Bool :=
  cs.all fun c => decide (c.suspend_request_vote = Vote.Ack)

/-- Modelled from the spec: `PwrEventClientsApprovePrepareSuspend` (`client.c`, not among
the sources) is `all_approved(phase 2)`. -/
def PwrEventClientsApprovePrepareSuspend (cs : List Client) : Bool :=
  cs.all fun c => decide (c.prepare_suspend_vote = Vote.Ack)

/-! ## `machine.c` -/

/-- `MachineSupportsWakelocks`, `machine.c` lines 120-131: the file test is made on the
first call only and its result cached. -/
def MachineSupportsWakelocks (r : Responses) (w : World) : Bool × World :=
  if !w.wakelocks_initialized then
    (r.wake_lock_file,
      { w with machineSupportsWakelocks := r.wake_lock_file, wakelocks_initialized := true })
  else
    (w.machineSupportsWakelocks, w)

/-- `MachineCanSleep`, `machine.c` lines 133-137. -/
def MachineCanSleep (w : World) : Bool :=
  !w.chargerIsConnected || w.gSleepConfig.suspend_with_charger

/-- `MachineSleep`, `machine.c` lines 149-162: the value returned once
`nyx_system_suspend_async` has answered. -/
def MachineSleep (r : Responses) : Bool :=
  if r.nyx_error ≠ 0 then false else r.nyx_success

/-- `MachineWakeup`, `machine.c` lines 164-169: the calls it makes. -/
def MachineWakeup : List Effect := [Effect.nyx_system_resume]

/-! ## `suspend.c` -/

/-- `ScheduleIdleCheck`, `suspend.c` lines 250-263. -/
def ScheduleIdleCheck (interval_ms : Int) (fromPoll : Bool) (w : World) : World :=
  match w.idle_scheduler with
  | some t => { w with idle_scheduler := some { t with interval_ms := interval_ms, from_poll := fromPoll } }
  | none => w

/-- `StateOn`, `suspend.c` lines 464-488. -/
def StateOn : PowerStateProc := fun _ w =>
  let next_state :=
    match w.gSuspendEvent with
    | .kPowerEventForceSuspend => PowerState.kPowerStateSuspendRequest
    | .kPowerEventIdleEvent => PowerState.kPowerStateOnIdle
    | _ => PowerState.kPowerStateLast
  (next_state, { w with gSuspendEvent := PowerEvent.kPowerEventNone }, [])

/-- `StateOnIdle`, `suspend.c` lines 499-509. -/
def StateOnIdle : PowerStateProc := fun _ w =>
  if !MachineCanSleep w then
    (PowerState.kPowerStateOn, w, [])
  else
    (PowerState.kPowerStateSuspendRequest, w, [])

/-- `StateSuspendRequest`, `suspend.c` lines 524-604.  The client table is written by the IPC
thread: votes reach it after the broadcast (`votes_on_broadcast`) and while the state
function waits (`votes_during_wait`); `timeout` keeps its initial 0 when no wait is made.
`successive_ons` and `log_count` are the function's statics. -/
def StateSuspendRequest : PowerStateProc := fun r w =>
  let w := { w with sTimeOnStartSuspend := r.clock }
  let w := { w with clients := PwrEventVoteInit w.clients }
  let w := { w with clients := r.votes_on_broadcast w.clients }
  let waited := !PwrEventClientsApproveSuspendRequest w.clients
  let timeout : Int := if waited then r.wait_result else 0
  let w := if waited then { w with clients := r.votes_during_wait w.clients } else w
  let effs :=
    [Effect.PwrEventVoteInit, Effect.SendSuspendRequest ""]
      ++ (if waited then
            [Effect.WaitObjectWait WaitObj.gWaitSuspendResponse w.gSleepConfig.wait_suspend_response_ms]
          else [])
      ++ [Effect.PwrEventClientTablePrint LogLevel.G_LOG_LEVEL_DEBUG]
      ++ (if timeout ≠ 0 then [Effect.PwrEventGetSuspendRequestNORSPList] else [])
  let ret :=
    if timeout ≠ 0 then PowerState.kPowerStatePrepareSuspend
    else if PwrEventClientsApproveSuspendRequest w.clients then PowerState.kPowerStatePrepareSuspend
    else PowerState.kPowerStateOn
  if ret = PowerState.kPowerStateOn then
    let successive_ons := wrapInt32 (w.request_successive_ons + 1)
    if successive_ons ≥ w.request_log_count then
      let log_count :=
        if w.request_log_count ≥ MAX_LOG_COUNT_INCREASE_RATE then
          wrapInt32 (w.request_log_count + MAX_LOG_COUNT_INCREASE_RATE)
        else wrapInt32 (w.request_log_count * 2)
      (ret, { w with request_successive_ons := successive_ons, request_log_count := log_count },
        effs ++ [Effect.PwrEventClientTablePrint LogLevel.G_LOG_LEVEL_WARNING])
    else
      (ret, { w with request_successive_ons := successive_ons }, effs)
  else
    (ret, { w with request_successive_ons := 0, request_log_count := START_LOG_COUNT }, effs)

/-- `StatePrepareSuspend`, `suspend.c` lines 614-691.  Votes are not reset here; they reach the
table as in `StateSuspendRequest`. -/
def StatePrepareSuspend : PowerStateProc := fun r w =>
  let w := { w with clients := r.votes_on_broadcast w.clients }
  let waited := !PwrEventClientsApprovePrepareSuspend w.clients
  let timeout : Int := if waited then r.wait_result else 0
  let w := if waited then { w with clients := r.votes_during_wait w.clients } else w
  let effs :=
    [Effect.SendPrepareSuspend ""]
      ++ (if waited then
            [Effect.WaitObjectWait WaitObj.gWaitPrepareSuspend w.gSleepConfig.wait_prepare_suspend_ms]
          else [])
      ++ [Effect.PwrEventClientTablePrint LogLevel.G_LOG_LEVEL_DEBUG]
  if timeout ≠ 0 then
    (PowerState.kPowerStateSleep,
      { w with prepare_successive_ons := 0, prepare_log_count := START_LOG_COUNT },
      effs ++ [Effect.PwrEventGetPrepareSuspendNORSPList, Effect.PwrEventGetClientTable])
  else if PwrEventClientsApprovePrepareSuspend w.clients then
    (PowerState.kPowerStateSleep,
      { w with prepare_successive_ons := 0, prepare_log_count := START_LOG_COUNT }, effs)
  else
    let successive_ons := wrapInt32 (w.prepare_successive_ons + 1)
    if successive_ons ≥ w.prepare_log_count then
      let log_count :=
        if w.prepare_log_count ≥ MAX_LOG_COUNT_INCREASE_RATE then
          wrapInt32 (w.prepare_log_count + MAX_LOG_COUNT_INCREASE_RATE)
        else wrapInt32 (w.prepare_log_count * 2)
      (PowerState.kPowerStateAbortSuspend,
        { w with prepare_successive_ons := successive_ons, prepare_log_count := log_count },
        effs ++ [Effect.PwrEventClientTablePrint LogLevel.G_LOG_LEVEL_WARNING])
    else
      (PowerState.kPowerStateAbortSuspend, { w with prepare_successive_ons := successive_ons }, effs)

/-- `InstrumentOnSleep`, `suspend.c` lines 696-724. -/
def InstrumentOnSleep (r : Responses) (w : World) : World × List Effect :=
  ({ w with sTimeOnSuspended := r.clock, sSuspendRTC := r.rtc },
    [Effect.PwrEventClientPrintNACKRateLimited, Effect.sawmill_logger_record_sleep])

/-- `InstrumentOnWake`, `suspend.c` lines 729-762. -/
def InstrumentOnWake ( _resumeType : ResumeType) (r : Responses) (w : World) : World × List Effect :=
  ({ w with sTimeOnWake := r.clock, sWakeRTC := r.rtc }, [Effect.sawmill_logger_record_wake])

/-- `CheckActivitiesActive`, `suspend.c` lines 765-772.  Modelled from the spec: the two
registry calls (`activity.c`, not among the sources) follow spec section 4.2: both
return true iff no activity is active, and `PwrEventFreezeActivities` marks the
registry frozen exactly when it returns true. -/
def CheckActivitiesActive (now : timespec) (r : Responses) (w : World) : Bool × World × List Effect :=
  let m := MachineSupportsWakelocks r w
  if m.1 then
    (r.activities_idle, m.2, [Effect.PwrEventActivityCheckActivitiesActive now])
  else
    (r.activities_idle, { m.2 with activities_frozen := r.activities_idle },
      [Effect.PwrEventFreezeActivities now])

/-- `StateSleep`, `suspend.c` lines 782-844.  The activity check is the right operand
of `&&`: it runs only when the pending event is not `kPowerEventForceSuspend`. -/
def StateSleep : PowerStateProc := fun r w =>
  let effs := [Effect.SendSuspended "attempting to suspend (We are trying to sleep)",
    Effect.timeout_get_next_wakeup]
  let i := InstrumentOnSleep r w
  let effs := effs ++ i.2 ++ [Effect.timesaver_save]
  let c : Bool × World × List Effect :=
    if i.1.gSuspendEvent ≠ PowerEvent.kPowerEventForceSuspend then
      CheckActivitiesActive i.1.sTimeOnSuspended r i.1
    else (true, i.1, [])
  let w := c.2.1
  let effs := effs ++ c.2.2
  if !c.1 then
    (PowerState.kPowerStateActivityResume, w,
      effs ++ [Effect.PwrEventActivityPrintFrom w.sTimeOnSuspended])
  else if MachineCanSleep w then
    if !r.queue_next_wakeup then
      (PowerState.kPowerStateAbortSuspend, w, effs ++ [Effect.queue_next_wakeup])
    else if !MachineSleep r then
      (PowerState.kPowerStateAbortSuspend, w,
        effs ++ [Effect.queue_next_wakeup, Effect.nyx_system_suspend_async])
    else
      (PowerState.kPowerStateKernelResume, w,
        effs ++ [Effect.queue_next_wakeup, Effect.nyx_system_suspend_async])
  else
    (PowerState.kPowerStateAbortSuspend, w, effs)

/-- `StateAbortSuspend`, `suspend.c` lines 852-863.  Modelled from the spec:
`PwrEventThawActivities` (`activity.c`, not among the sources) unfreezes the registry. -/
def StateAbortSuspend : PowerStateProc := fun r w =>
  let m := MachineSupportsWakelocks r w
  let t : World × List Effect :=
    if !m.1 then ({ m.2 with activities_frozen := false }, [Effect.PwrEventThawActivities])
    else (m.2, [])
  (PowerState.kPowerStateOn, t.1,
    t.2 ++ [Effect.SendResume ResumeType.kResumeAbortSuspend "resume (suspend aborted)"])

/-- `_stateResume`, `suspend.c` lines 872-897 (built without `ASSERT_ON_BUG`). -/
def _stateResume (resumeType : ResumeType) : PowerStateProc := fun r w =>
  let effs := MachineWakeup
  let m := MachineSupportsWakelocks r w
  let t : World × List Effect :=
    if !m.1 then ({ m.2 with activities_frozen := false }, [Effect.PwrEventThawActivities])
    else (m.2, [])
  let resumeDesc := "resume (" ++ resume_type_descriptions.getD resumeType.toNat "" ++ ")"
  let effs := effs ++ t.2 ++ [Effect.SendResume resumeType resumeDesc]
  let i := InstrumentOnWake resumeType r t.1
  let effs := effs ++ i.2 ++ [Effect.ScheduleIdleCheck i.1.gSleepConfig.after_resume_idle_ms false]
  (PowerState.kPowerStateOn, ScheduleIdleCheck i.1.gSleepConfig.after_resume_idle_ms false i.1, effs)

/-- `StateKernelResume`, `suspend.c` lines 906-910. -/
def StateKernelResume : PowerStateProc := _stateResume ResumeType.kResumeTypeKernel

/-- `StateActivityResume`, `suspend.c` lines 920-924. -/
def StateActivityResume : PowerStateProc := _stateResume ResumeType.kResumeTypeActivity

/-- `kStateMachine`, `suspend.c` lines 169-180: the handler of each state.  The table has
no entry for the sentinel `kPowerStateLast`. -/
def kStateMachine : PowerState → Option PowerStateProc
  | .kPowerStateOn => some StateOn
  | .kPowerStateOnIdle => some StateOnIdle
  | .kPowerStateSuspendRequest => some StateSuspendRequest
  | .kPowerStatePrepareSuspend => some StatePrepareSuspend
  | .kPowerStateSleep => some StateSleep
  | .kPowerStateKernelResume => some StateKernelResume
  | .kPowerStateActivityResume => some StateActivityResume
  | .kPowerStateAbortSuspend => some StateAbortSuspend
  | .kPowerStateLast => none

/-- The `do ... while` loop of `SuspendStateUpdate`, `suspend.c` lines 402-418, with a
bound on the number of iterations; `none` when the bound is exhausted or the
current node is not an entry of `kStateMachine`. -/
def SuspendStateLoop : Nat → (Nat → Responses) → World → Option (World × List Effect)
  | 0, _, _ => none
  | fuel + 1, o, w =>
    match kStateMachine w.gCurrentStateNode with
    | none => none
    | some function =>
      let p := function (o w.ticks) w
      let next_state := p.1
      let w1 := { p.2.1 with ticks := p.2.1.ticks + 1 }
      if next_state = PowerState.kPowerStateLast then
        some (w1, p.2.2)
      else
        let w2 := { w1 with gCurrentStateNode := next_state }
        let effs := p.2.2 ++ [Effect.StateChange w.gCurrentStateNode next_state]
        if next_state = PowerState.kPowerStateKernelResume then
          some (w2, effs)
        else
          (SuspendStateLoop fuel o w2).map fun q => (q.1, effs ++ q.2)

/-- `SuspendStateUpdate`, `suspend.c` lines 394-421.  Twelve iterations are enough from
every state (`SuspendStateUpdate_spec`). -/
def SuspendStateUpdate (o : Nat → Responses) (power_event : PowerEvent) (w : World) :
    Option (World × List Effect) :=
  SuspendStateLoop 12 o { w with gSuspendEvent := power_event }

/-- The suspend loop dispatching a queue of posted events (`TriggerSuspend`,
`TriggerResume`, `suspend.c` lines 1032-1059): one `SuspendStateUpdate` per event, in
order. -/
def processEvents (o : Nat → Responses) : List PowerEvent → World → Option (World × List Effect)
  | [], w => some (w, [])
  | ev :: evs, w =>
    match SuspendStateUpdate o ev w with
    | none => none
    | some (w1, effs) => (processEvents o evs w1).map fun p => (p.1, effs ++ p.2)

/-- The globals after `SuspendInit` (`suspend.c` lines 990-1027) and the static
initialisers of both files, for a given configuration, client table and idle timer. -/
def initWorld (cfg : SleepConfig) (cs : List Client) (now : timespec) : World :=
  { gCurrentStateNode := PowerState.kPowerStateOn
    gSuspendEvent := PowerEvent.kPowerEventNone
    idle_scheduler := some { interval_ms := cfg.wait_idle_ms,
                             granularity_ms := cfg.wait_idle_granularity_ms, from_poll := false }
    sTimeOnStartSuspend := ⟨0, 0⟩
    sTimeOnSuspended := ⟨0, 0⟩
    sTimeOnWake := now
    sSuspendRTC := ⟨0, 0⟩
    sWakeRTC := ⟨0, 0⟩
    gDisplayIsOn := true
    gSleepConfig := cfg
    chargerIsConnected := false
    usbconn := false
    dockconn := false
    machineSupportsWakelocks := false
    wakelocks_initialized := false
    request_successive_ons := 0
    request_log_count := START_LOG_COUNT
    prepare_successive_ons := 0
    prepare_log_count := START_LOG_COUNT
    isDNAST := false
    clients := cs
    activities_frozen := false
    ticks := 0 }

/-! ## The idle evaluator (`IdleCheck`) -/

/-- What the collaborators answer during one tick of `IdleCheck`.  The registry queries take
the time they are asked about. -/
structure IdleResponses where
  /-- value stored by `ClockGetTime` -/
  clock : timespec
  /-- content of the local `now` where `IdleCheck` has not assigned it -/
  stack_now : timespec
  /-- return value of `PwrEventActivityCanSleep` -/
  activity_can_sleep : timespec → Bool
  /-- return value of `PwrEventActivityCount` -/
  activity_count : timespec → Int
  /-- `timeout_get_next_wakeup`: the expiry when it returns true -/
  next_wakeup : Option Int
  /-- return value of `reference_time` -/
  reference_time : Int
  /-- whether `access("/tmp/suspend_active", R_OK)` returns 0 -/
  suspend_active : Bool
  /-- return value of `PwrEventActivityGetMaxDuration` -/
  max_duration_ms : timespec → Int

def MIN_IDLE_SEC : Int := 5

/-- A time point in nanoseconds. -/
def timespec.toNs (t : timespec) : Int := t.tv_sec * 1000000000 + t.tv_nsec

/-- The normalised time point of a number of nanoseconds. -/
def timespec.ofNs (n : Int) : timespec := ⟨n / 1000000000, n % 1000000000⟩

/-- Modelled from the spec: `ClockAccumMs` (`clock.c`, not among the sources) is the
`add_ms(t, ms)` of spec section 4.1. -/
def ClockAccumMs (t : timespec) (duration_ms : Int) : timespec :=
  timespec.ofNs (t.toNs + duration_ms * 1000000)

/-- Modelled from the spec: `ClockTimeIsGreater` (`clock.c`, not among the sources) is the
strict `is_greater(a, b)` of spec section 4.1. -/
def ClockTimeIsGreater (a b : timespec) : Bool := decide (a.toNs > b.toNs)

/-- Modelled from the spec: `ClockDiff` (`clock.c`, not among the sources) is the
`diff(a, b)` of spec section 4.1. -/
def ClockDiff (a b : timespec) : timespec := timespec.ofNs (a.toNs - b.toNs)

/-- Modelled from the spec: `ClockGetMs` (`clock.c`, not among the sources) gives a
difference in milliseconds (`ms_between`, spec section 4.1). -/
def ClockGetMs (t : timespec) : Int := t.toNs / 1000000

/-- `IsDisplayOn`, `suspend.c` lines 268-272. -/
def IsDisplayOn (w : World) : Bool := w.gDisplayIsOn

/-- The block of `IdleCheck` guarded by `!IsDisplayOn()`, `suspend.c` lines 295-372: the value
of the local `now`, of `next_idle_ms`, and the calls made, up to the label `resched`.  The
locals `next_wake` (line 341) and `next_idle_ms` (line 286) are C `int`s: the difference of the
two `time_t` values and the milliseconds of `ClockGetMs` are narrowed when stored. -/
def IdleCheck_body (r : IdleResponses) (w : World) : timespec × Int × List Effect :=
  if !IsDisplayOn w then
    let now := r.clock
    let last_wake := ClockAccumMs w.sTimeOnWake w.gSleepConfig.after_resume_idle_ms
    if !ClockTimeIsGreater last_wake now then
      let activity_idle := r.activity_can_sleep now
      let effs :=
        [Effect.PwrEventActivityCanSleep now, Effect.PwrEventActivityCount w.sTimeOnWake]
          ++ (if r.activity_count w.sTimeOnWake ≠ 0 then
                [Effect.PwrEventActivityPrintFrom w.sTimeOnWake]
              else [])
          ++ [Effect.PwrEventActivityRemoveExpired now, Effect.timeout_get_next_wakeup]
      let alarm_near : Bool :=
        match r.next_wakeup with
        | some expiry =>
          let next_wake := wrapInt32 (expiry - r.reference_time)
          decide (next_wake ≥ 0) && decide (next_wake ≤ w.gSleepConfig.wait_alarms_s)
        | none => false
      if alarm_near then
        (now, 0, effs)
      else
        let suspend_active := r.suspend_active
        if suspend_active && activity_idle then
          (now, 0, effs ++ [Effect.access_suspend_active,
            Effect.TriggerSuspend "device is idle." PowerEvent.kPowerEventIdleEvent])
        else
          (now, 0, effs ++ [Effect.access_suspend_active])
    else
      (now, wrapInt32 (ClockGetMs (ClockDiff last_wake now)), [])
  else
    (r.stack_now, 0, [])

/-- `IdleCheck`, `suspend.c` lines 279-392.  The local `now` is assigned only when the display
is off; at `resched` it is passed to `PwrEventActivityGetMaxDuration` either way.  The maximum
is taken over `long`s (lines 376-387) and narrowed to the `int interval_ms` parameter of
`ScheduleIdleCheck` (line 251) at the call of line 389. -/
def IdleCheck (r : IdleResponses) (w : World) : World × List Effect :=
  if w.gCurrentStateNode = PowerState.kPowerStateKernelResume then
    (w, [])
  else
    let b := IdleCheck_body r w
    let now := b.1
    let next_idle_ms := b.2.1
    let wait_idle_ms := w.gSleepConfig.wait_idle_ms
    let max_duration_ms := r.max_duration_ms now
    let wait_idle_ms := if max_duration_ms > wait_idle_ms then max_duration_ms else wait_idle_ms
    let wait_idle_ms := if next_idle_ms > wait_idle_ms then next_idle_ms else wait_idle_ms
    let interval_ms := wrapInt32 wait_idle_ms
    (ScheduleIdleCheck interval_ms true w,
      b.2.2 ++ [Effect.PwrEventActivityGetMaxDuration now,
        Effect.ScheduleIdleCheck interval_ms true])

/-- The interval handed to `ScheduleIdleCheck` by a list of calls. -/
def rearmIntervals (effs : List Effect) : List Int :=
  effs.filterMap fun e =>
    match e with
    | Effect.ScheduleIdleCheck ms _ => some ms
    | _ => none

/-- The events posted to the state machine by a list of calls. -/
def postedEvents (effs : List Effect) : List PowerEvent :=
  effs.filterMap fun e =>
    match e with
    | Effect.TriggerSuspend _ ev => some ev
    | _ => none

/-! ## The message decoders and the machine name -/

/-- Whether `strncmp(s1, s2, n) == 0` (libc): the two strings agree on their first `n`
characters, or on all of them when one ends earlier. -/
def strncmpZero (s1 s2 : String) (n : Nat) : Bool :=
  decide (s1.toList.take n = s2.toList.take n)

/-- The members `DisplayStatusCb` reads from the parsed payload: for `"state"`, `"event"` and
`"blockDisplay"` the text `json_object_get_string` gives, `none` when
`json_object_object_get` finds no such member. -/
structure DisplayPayload where
  state : Option String
  event : Option String
  blockDisplay : Option String
  deriving DecidableEq, Repr

/-- `DisplayStatusCb`, `suspend.c` lines 926-984.  The argument is the result of
`json_tokener_parse`, `none` when the payload does not parse; `isDNAST` is the function's
static. -/
def DisplayStatusCb (root_obj : Option DisplayPayload) (w : World) : Bool × World :=
  match root_obj with
  | none => (true, w)
  | some root =>
    let w :=
      match root.state with
      | some state =>
        if strncmpZero state "off" 3 then { w with gDisplayIsOn := false }
        else if strncmpZero state "on" 2 || strncmpZero state "dimmed" 6 then
          { w with gDisplayIsOn := true }
        else w
      | none => w
    let w :=
      match root.event with
      | some event =>
        if strncmpZero event "displayOn" 9 then { w with gDisplayIsOn := true }
        else if strncmpZero event "displayOff" 10 then { w with gDisplayIsOn := false }
        else w
      | none => w
    let w :=
      match root.blockDisplay with
      | some blockDisplay =>
        if strncmpZero blockDisplay "true" 4 then { w with isDNAST := true }
        else if strncmpZero blockDisplay "false" 5 then { w with isDNAST := false }
        else w
      | none => w
    let w := if w.isDNAST then { w with gDisplayIsOn := true } else w
    (true, w)

/-- A run of display-status messages, each handled by `DisplayStatusCb`. -/
def displayMessages : List (Option DisplayPayload) → World → World
  | [], w => w
  | m :: ms, w => displayMessages ms (DisplayStatusCb m w).2

/-- A parsed JSON value (json-c's `json_object`).  JSON `null` is the NULL pointer, here
`none`. -/
inductive json_object
  | boolean (b : Bool)
  | int (n : Int)
  | string (s : String)
  | array (items : List (Option json_object))
  | object (members : List (String × Option json_object))

/-- `json_object_object_get` of json-c: the value of the member `key`; NULL when there is
no such member or its value is `null`. -/
def json_object_object_get (obj : json_object) (key : String) : Option json_object :=
  match obj with
  | json_object.object members => (members.lookup key).join
  | _ => none

/-- `json_object_get_boolean` of json-c: the value of a boolean, whether an integer is not
zero, whether a string is not empty, and false for NULL and the other types. -/
def json_object_get_boolean : Option json_object → Bool
  | some (json_object.boolean b) => b
  | some (json_object.int n) => decide (n ≠ 0)
  | some (json_object.string s) => decide (s.length ≠ 0)
  | _ => false

/-- `ChargerStatus`, `machine.c` lines 309-334.  The argument is the result of
`json_tokener_parse`.  Both flags are looked up in `object`, the root of the payload. -/
def ChargerStatus (object : Option json_object) (w : World) : Bool × World :=
  match object with
  | some obj =>
    if (json_object_object_get obj "Charging").isSome then
      let usbconn := json_object_get_boolean (json_object_object_get obj "USBConnected")
      let dockconn := json_object_get_boolean (json_object_object_get obj "DockPower")
      (true, { w with usbconn := usbconn, dockconn := dockconn,
                      chargerIsConnected := usbconn || dockconn })
    else (true, w)
  | none => (true, w)

/-- `strchr(s, c)` of libc on the characters before the terminating NUL: the rest of the string
from the first occurrence of `c`. -/
def strchr : List Char → Char → Option (List Char)
  | [], _ => none
  | x :: xs, c => if x = c then some (x :: xs) else strchr xs c

/-- `g_ascii_isdigit(*p)` of glib for a pointer into a string: the terminating NUL, met when
nothing is left, is no digit. -/
def g_ascii_isdigit : List Char → Bool
  | [] => false
  | c :: _ => c.isDigit

/-- The `do ... while` loop of `MachineGetName`, `machine.c` lines 94-105, with a bound on
the number of iterations: `none` when the bound is exhausted, `some none` for
`goto unknown`, `some (some machine_id)` when the loop is left. -/
def machineIdLoop : Nat → List Char → Option (Option (List Char))
  | 0, _ => none
  | fuel + 1, machine_id =>
    match strchr machine_id '-' with
    | none => some none
    | some found =>
      let machine_id := found.tail
      if g_ascii_isdigit machine_id then machineIdLoop fuel machine_id
      else some (some machine_id)

/-- `MachineGetName`, `machine.c` lines 72-118.  `uname` is the release string `uname` stores,
`none` when it fails; `machineName` is the file's static.  The result is the name returned
and the new value of the static; the loop is given one iteration per character and one
more. -/
def MachineGetName (uname : Option String) (machineName : Option String) :
    Option (String × Option String) :=
  match machineName with
  | some name => some (name, some name)
  | none =>
    match uname with
    | none => some ("unknown", some "unknown")
    | some release =>
      match machineIdLoop (release.length + 1) release.toList with
      | none => none
      | some none => some ("unknown", some "unknown")
      | some (some machine_id) =>
        if machine_id.length = 0 then some ("unknown", some "unknown")
        else some (String.mk machine_id, some (String.mk machine_id))

/-- The configuration of scenario S1. -/
def s1Config : SleepConfig :=
  { wait_idle_ms := 500, wait_idle_granularity_ms := 100, wait_suspend_response_ms := 30000,
    wait_prepare_suspend_ms := 5000, after_resume_idle_ms := 1000, wait_alarms_s := 60,
    suspend_with_charger := false, fasthalt := false }

/-- The two clients `A` and `B` of scenario S1. -/
def s1Clients : List Client :=
  [{ id := "A", suspend_request_vote := Vote.Unset, prepare_suspend_vote := Vote.Unset,
     last_nack_reason := "" },
   { id := "B", suspend_request_vote := Vote.Unset, prepare_suspend_vote := Vote.Unset,
     last_nack_reason := "" }]

/-- Scenario S1 before the idle tick: state `On`, display off, charger disconnected. -/
def s1World : World := { initWorld s1Config s1Clients ⟨1, 0⟩ with gDisplayIsOn := false }

/-- Every client votes `v1` in phase 1 and `v2` in phase 2, except client `B`, which votes
`b1` and `b2`. -/
def castVotes (v1 v2 b1 b2 : Vote) (cs : List Client) : List Client :=
  cs.map fun c =>
    if c.id = "B" then { c with suspend_request_vote := b1, prepare_suspend_vote := b2 }
    else { c with suspend_request_vote := v1, prepare_suspend_vote := v2 }

/-- Answers of scenario S1 from phase 2 on: both clients have acknowledged when the wait ends, no
activity is active, the alarm is queued and the platform suspends. -/
def s1Responses : Responses :=
  { clock := ⟨2, 100000000⟩, rtc := ⟨1700000000, 0⟩,
    votes_on_broadcast := id, wait_result := 0,
    votes_during_wait := castVotes Vote.Ack Vote.Ack Vote.Ack Vote.Ack,
    activities_idle := true, queue_next_wakeup := true, nyx_error := 0, nyx_success := true,
    wake_lock_file := false }

/-- Answers of scenario S1 in phase 1: both clients acknowledge `SuspendRequest`. -/
def s1Request : Responses :=
  { s1Responses with votes_during_wait := castVotes Vote.Ack Vote.Unset Vote.Ack Vote.Unset }

/-- Scenario S1: the third state function invoked is `StateSuspendRequest`. -/
def s1Oracle : Nat → Responses := fun t => if t = 2 then s1Request else s1Responses

/-- Scenario S2: `B` answers `Nack`, which ends the wait. -/
def s2Responses : Responses :=
  { s1Responses with votes_during_wait := castVotes Vote.Ack Vote.Unset Vote.Nack Vote.Unset }

/-- Scenario S3: `B` never answers phase 2 and the wait runs into its timeout. -/
def s3Responses : Responses :=
  { s1Responses with
    votes_during_wait := castVotes Vote.Ack Vote.Ack Vote.Ack Vote.Unset, wait_result := 1 }

/-- Client `B` answers `Nack` in phase 2 and the wait runs into its timeout. -/
def nackTimeoutResponses : Responses :=
  { s1Responses with
    votes_during_wait := castVotes Vote.Ack Vote.Ack Vote.Ack Vote.Nack, wait_result := 1 }

/-- Phase 1 as in S1, then `B` answers `Nack` in phase 2 and the wait times out. -/
def nackTimeoutOracle : Nat → Responses :=
  fun t => if t = 2 then s1Request else nackTimeoutResponses

/-- Scenario S5: an activity is active when `StateSleep` checks. -/
def s5Responses : Responses := { s1Responses with activities_idle := false }

/-- Scenario S5: phases as in S1, then the activity check fails. -/
def s5Oracle : Nat → Responses := fun t => if t = 2 then s1Request else s5Responses

/-- Scenario S6: the charger is connected. -/
def s6World : World := { s1World with chargerIsConnected := true }

/-- The machine of S1 resting in `Sleep` with no event pending, as `StatePrepareSuspend`
leaves it. -/
def s1Asleep : World := { s1World with gCurrentStateNode := PowerState.kPowerStateSleep }

/-- The idle tick of scenario S1: 1100 ms after the wake time of `s1World`, nothing active, no
alarm, the readiness file present. -/
def s1Tick : IdleResponses :=
  { clock := ⟨2, 100000000⟩, stack_now := ⟨0, 0⟩, activity_can_sleep := fun _ => true,
    activity_count := fun _ => 0, next_wakeup := none, reference_time := 1700000000,
    suspend_active := true, max_duration_ms := fun _ => 0 }

/-- Scenario S4: the next alarm expires 30 s from now. -/
def s4Tick : IdleResponses := { s1Tick with next_wakeup := some 1700000030 }

/-- The registry reports 7000 ms for times after second 1 and 0 before. -/
def lateDuration (t : timespec) : Int := if t.tv_sec ≥ 1 then 7000 else 0

/-- A tick with the display on whose local `now` holds `stack`. -/
def displayOnTick (stack : timespec) : IdleResponses :=
  { s1Tick with stack_now := stack, max_duration_ms := lateDuration }

/-- The world of S1 with the display on. -/
def s1DisplayOn : World := { s1World with gDisplayIsOn := true }

/-- The world of S1 with `wait_idle_ms` configured as 100 ms. -/
def shortIdleWorld : World :=
  { s1World with gSleepConfig := { s1Config with wait_idle_ms := 100 } }

/-- `StateSleep` runs at second 100 and the wake alarm cannot be queued. -/
def abortResponses : Responses :=
  { s1Responses with clock := ⟨100, 0⟩, queue_next_wakeup := false }

/-- A tick 200 ms after second 100. -/
def tickAfterAbort : IdleResponses := { s1Tick with clock := ⟨100, 200000000⟩ }

/-- A tick 400 ms after the clock reading of `s1Responses`. -/
def tickAfterResume : IdleResponses := { s1Tick with clock := ⟨2, 500000000⟩ }

/-- The machine of S1 resting in `KernelResume` after a successful platform suspend. -/
def s1Suspended : World :=
  { s1World with gCurrentStateNode := PowerState.kPowerStateKernelResume }

/-- The worlds met by consecutive `StateSuspendRequest` phases, each started from the world the
previous one left. -/
def phaseWorld (rs : Nat → Responses) (w : World) : Nat → World
  | 0 => w
  | i + 1 => (StateSuspendRequest (rs i) (phaseWorld rs w i)).2.1

/-- The payload `{"state": s}`. -/
def stateMessage (s : String) : Option DisplayPayload :=
  some { state := some s, event := none, blockDisplay := none }

/-- The payload `{"event": e}`. -/
def eventMessage (e : String) : Option DisplayPayload :=
  some { state := none, event := some e, blockDisplay := none }

/-- The payload `{"blockDisplay": b}`. -/
def blockMessage (b : String) : Option DisplayPayload :=
  some { state := none, event := none, blockDisplay := some b }

/-- The charger message of the doc comment of `ChargerStatus`:
`{"Charging": {"USBConnected": u, "DockPower": d}}`. -/
def documentedChargerMessage (u d : Bool) : json_object :=
  json_object.object
    [("Charging", some (json_object.object
      [("USBConnected", some (json_object.boolean u)),
       ("DockPower", some (json_object.boolean d))]))]

/-- A charger message with the two flags beside `Charging`, in the root object. -/
def flatChargerMessage (c u d : Bool) : json_object :=
  json_object.object
    [("Charging", some (json_object.boolean c)),
     ("USBConnected", some (json_object.boolean u)),
     ("DockPower", some (json_object.boolean d))]

/-- A cycle forced from `On`: `StateSuspendRequest` is the second state function
invoked and both phases are acknowledged. -/
def forceOracle : Nat → Responses := fun t => if t = 1 then s1Request else s1Responses

/-- A cycle forced from `On` in which an activity is active when `StateSleep` checks. -/
def forceActivityOracle : Nat → Responses := fun t => if t = 1 then s1Request else s5Responses

/-- The machine of S1 after the kernel resume: the world in which the run of
`ResumedByKernel` from `s1Suspended` ends. -/
def s1Resumed : World :=
  match SuspendStateUpdate s1Oracle PowerEvent.kPowerEventResumedByKernel s1Suspended with
  | some p => p.1
  | none => s1Suspended

/-- A tick 1100 ms after the clock reading of `s1Responses`. -/
def tickAfterFloor : IdleResponses := { s1Tick with clock := ⟨3, 200000000⟩ }

open PowerState PowerEvent

/-- The globals that steer the state machine are the same in both worlds. -/
def sameControl (w w' : World) : Prop :=
  w'.gCurrentStateNode = w.gCurrentStateNode ∧ w'.ticks = w.ticks ∧
  w'.gSuspendEvent = w.gSuspendEvent ∧ w'.gSleepConfig = w.gSleepConfig ∧
  w'.chargerIsConnected = w.chargerIsConnected

/-- The edges of the state diagram (spec section 4.5, `suspend.c` lines 123-161). -/
def documentedEdge : PowerState → PowerState → Bool
  | kPowerStateOn, kPowerStateSuspendRequest => true
  | kPowerStateOn, kPowerStateOnIdle => true
  | kPowerStateOnIdle, kPowerStateOn => true
  | kPowerStateOnIdle, kPowerStateSuspendRequest => true
  | kPowerStateSuspendRequest, kPowerStatePrepareSuspend => true
  | kPowerStateSuspendRequest, kPowerStateOn => true
  | kPowerStatePrepareSuspend, kPowerStateSleep => true
  | kPowerStatePrepareSuspend, kPowerStateAbortSuspend => true
  | kPowerStateSleep, kPowerStateKernelResume => true
  | kPowerStateSleep, kPowerStateActivityResume => true
  | kPowerStateSleep, kPowerStateAbortSuspend => true
  | kPowerStateKernelResume, kPowerStateOn => true
  | kPowerStateActivityResume, kPowerStateOn => true
  | kPowerStateAbortSuspend, kPowerStateOn => true
  | _, _ => false

/-- Whether an effect is a state change made by the loop. -/
def isStateChange : Effect → Bool
  | Effect.StateChange _ _ => true
  | _ => false

/-- Whether `StateOn` leaves `On` on this event. -/
def eventActive : PowerEvent → Bool
  | kPowerEventForceSuspend => true
  | kPowerEventIdleEvent => true
  | _ => false

/-- Bound on the number of state functions still to be invoked by the loop. -/
def loopRank : PowerState → Bool → Nat
  | kPowerStateOn, false => 1
  | kPowerStateAbortSuspend, false => 2
  | kPowerStateActivityResume, false => 2
  | kPowerStateKernelResume, false => 2
  | kPowerStateSleep, false => 3
  | kPowerStatePrepareSuspend, false => 4
  | kPowerStateSuspendRequest, false => 5
  | kPowerStateOnIdle, false => 6
  | kPowerStateOn, true => 7
  | kPowerStateAbortSuspend, true => 8
  | kPowerStateActivityResume, true => 8
  | kPowerStateKernelResume, true => 8
  | kPowerStateSleep, true => 9
  | kPowerStatePrepareSuspend, true => 10
  | kPowerStateSuspendRequest, true => 11
  | kPowerStateOnIdle, true => 12
  | kPowerStateLast, _ => 0

/-- The traces of the loop once no suspend event is pending: the effects of each state function
invoked, each followed by the state change the loop makes. -/
inductive RunShape : PowerState → List Effect → PowerState → Prop
  | done : RunShape kPowerStateOn [] kPowerStateOn
  | kernel (s : PowerState) (f : PowerStateProc) (r : Responses) (w : World) :
      kStateMachine s = some f → eventActive w.gSuspendEvent = false →
      (f r w).1 = kPowerStateKernelResume →
      RunShape s ((f r w).2.2 ++ [Effect.StateChange s kPowerStateKernelResume])
        kPowerStateKernelResume
  | step (s : PowerState) (f : PowerStateProc) (r : Responses) (w : World) (rest : List Effect)
      (final : PowerState) :
      kStateMachine s = some f → eventActive w.gSuspendEvent = false →
      (f r w).1 ≠ kPowerStateLast → (f r w).1 ≠ kPowerStateKernelResume →
      RunShape (f r w).1 rest final →
      RunShape s ((f r w).2.2 ++ [Effect.StateChange s (f r w).1] ++ rest) final

/-- Whether the alarm service reports a wakeup whose distance, as stored in the `int
next_wake`, is within `wait_alarms_s` seconds. -/
def alarmNear (r : IdleResponses) (w : World) : Bool :=
  match r.next_wakeup with
  | some expiry => decide (0 ≤ wrapInt32 (expiry - r.reference_time)) &&
      decide (wrapInt32 (expiry - r.reference_time) ≤ w.gSleepConfig.wait_alarms_s)
  | none => false

/-- Whether the awake floor `sTimeOnWake + after_resume_idle_ms` lies after the clock reading. -/
def floorPending (r : IdleResponses) (w : World) : Bool :=
  ClockTimeIsGreater (ClockAccumMs w.sTimeOnWake w.gSleepConfig.after_resume_idle_ms) r.clock

/-- The registry and alarm queries of a tick that has passed the awake floor. -/
def idleQueries (r : IdleResponses) (w : World) : List Effect :=
  [Effect.PwrEventActivityCanSleep r.clock, Effect.PwrEventActivityCount w.sTimeOnWake]
    ++ (if r.activity_count w.sTimeOnWake ≠ 0 then
          [Effect.PwrEventActivityPrintFrom w.sTimeOnWake]
        else [])
    ++ [Effect.PwrEventActivityRemoveExpired r.clock, Effect.timeout_get_next_wakeup]

/-- The conditions under which a tick posts. -/
def idleDetected (r : IdleResponses) (w : World) : Bool :=
  !decide (w.gCurrentStateNode = kPowerStateKernelResume) && !w.gDisplayIsOn &&
  !floorPending r w && !alarmNear r w && r.suspend_active && r.activity_can_sleep r.clock

/-- Whether a call is one of the four broadcasts to the clients. -/
def isBroadcast : Effect → Bool
  | Effect.SendSuspendRequest _ => true
  | Effect.SendPrepareSuspend _ => true
  | Effect.SendSuspended _ => true
  | Effect.SendResume _ _ => true
  | _ => false

/-- The broadcasts made by the function of each state. -/
def stateBroadcasts : PowerState → List Effect
  | kPowerStateSuspendRequest => [Effect.SendSuspendRequest ""]
  | kPowerStatePrepareSuspend => [Effect.SendPrepareSuspend ""]
  | kPowerStateSleep => [Effect.SendSuspended "attempting to suspend (We are trying to sleep)"]
  | kPowerStateKernelResume => [Effect.SendResume ResumeType.kResumeTypeKernel "resume (kernel)"]
  | kPowerStateActivityResume =>
      [Effect.SendResume ResumeType.kResumeTypeActivity "resume (pwrevent_activity)"]
  | kPowerStateAbortSuspend =>
      [Effect.SendResume ResumeType.kResumeAbortSuspend "resume (suspend aborted)"]
  | _ => []

/-- The final state and the broadcasts of every trace from a state, once no suspend event is
pending. -/
def runBroadcasts : PowerState → List (PowerState × List Effect)
  | kPowerStateOn => [(kPowerStateOn, [])]
  | kPowerStateAbortSuspend => [(kPowerStateOn, stateBroadcasts kPowerStateAbortSuspend)]
  | kPowerStateActivityResume => [(kPowerStateOn, stateBroadcasts kPowerStateActivityResume)]
  | kPowerStateKernelResume => [(kPowerStateOn, stateBroadcasts kPowerStateKernelResume)]
  | kPowerStateSleep =>
      [(kPowerStateKernelResume, stateBroadcasts kPowerStateSleep),
       (kPowerStateOn, stateBroadcasts kPowerStateSleep
          ++ stateBroadcasts kPowerStateActivityResume),
       (kPowerStateOn, stateBroadcasts kPowerStateSleep
          ++ stateBroadcasts kPowerStateAbortSuspend)]
  | kPowerStatePrepareSuspend =>
      [(kPowerStateOn, stateBroadcasts kPowerStatePrepareSuspend
          ++ stateBroadcasts kPowerStateAbortSuspend),
       (kPowerStateKernelResume, stateBroadcasts kPowerStatePrepareSuspend
          ++ stateBroadcasts kPowerStateSleep),
       (kPowerStateOn, stateBroadcasts kPowerStatePrepareSuspend
          ++ stateBroadcasts kPowerStateSleep ++ stateBroadcasts kPowerStateActivityResume),
       (kPowerStateOn, stateBroadcasts kPowerStatePrepareSuspend
          ++ stateBroadcasts kPowerStateSleep ++ stateBroadcasts kPowerStateAbortSuspend)]
  | kPowerStateSuspendRequest =>
      [(kPowerStateOn, stateBroadcasts kPowerStateSuspendRequest),
       (kPowerStateOn, stateBroadcasts kPowerStateSuspendRequest
          ++ stateBroadcasts kPowerStatePrepareSuspend ++ stateBroadcasts kPowerStateAbortSuspend),
       (kPowerStateKernelResume, stateBroadcasts kPowerStateSuspendRequest
          ++ stateBroadcasts kPowerStatePrepareSuspend ++ stateBroadcasts kPowerStateSleep),
       (kPowerStateOn, stateBroadcasts kPowerStateSuspendRequest
          ++ stateBroadcasts kPowerStatePrepareSuspend ++ stateBroadcasts kPowerStateSleep
          ++ stateBroadcasts kPowerStateActivityResume),
       (kPowerStateOn, stateBroadcasts kPowerStateSuspendRequest
          ++ stateBroadcasts kPowerStatePrepareSuspend ++ stateBroadcasts kPowerStateSleep
          ++ stateBroadcasts kPowerStateAbortSuspend)]
  | kPowerStateOnIdle =>
      [(kPowerStateOn, []),
       (kPowerStateOn, stateBroadcasts kPowerStateSuspendRequest),
       (kPowerStateOn, stateBroadcasts kPowerStateSuspendRequest
          ++ stateBroadcasts kPowerStatePrepareSuspend ++ stateBroadcasts kPowerStateAbortSuspend),
       (kPowerStateKernelResume, stateBroadcasts kPowerStateSuspendRequest
          ++ stateBroadcasts kPowerStatePrepareSuspend ++ stateBroadcasts kPowerStateSleep),
       (kPowerStateOn, stateBroadcasts kPowerStateSuspendRequest
          ++ stateBroadcasts kPowerStatePrepareSuspend ++ stateBroadcasts kPowerStateSleep
          ++ stateBroadcasts kPowerStateActivityResume),
       (kPowerStateOn, stateBroadcasts kPowerStateSuspendRequest
          ++ stateBroadcasts kPowerStatePrepareSuspend ++ stateBroadcasts kPowerStateSleep
          ++ stateBroadcasts kPowerStateAbortSuspend)]
  | kPowerStateLast => []

/-- Whether a call freezes or thaws the activity registry. -/
def isFreezeThaw : Effect → Bool
  | Effect.PwrEventFreezeActivities _ => true
  | Effect.PwrEventThawActivities => true
  | _ => false

/-- Whether a trace holds the warning-level print of the client table. -/
def warningLogged (effs : List Effect) : Bool :=
  effs.contains (Effect.PwrEventClientTablePrint LogLevel.G_LOG_LEVEL_WARNING)

/-- The threshold `L` that goes with a count `c` of consecutive returns to `On`: it is the
next value of the series 8, 16, ..., 512, 1024, 1536, ... above `c`. -/
def logInvariant (c L : Int) : Prop :=
  c < L ∧ (L = 8 ∨ (L = 16 ∧ 8 ≤ c) ∨ (L = 32 ∧ 16 ≤ c) ∨ (L = 64 ∧ 32 ≤ c) ∨
    (L = 128 ∧ 64 ≤ c) ∨ (L = 256 ∧ 128 ≤ c) ∨ (L = 512 ∧ 256 ≤ c) ∨
    ∃ j : Int, 1 ≤ j ∧ L = 512 + 512 * j ∧ L - 512 ≤ c)

/-- The counts of the series 8, 16, ..., 512, 1024, 1536, ... -/
def isLogCount (k : Int) : Prop :=
  k = 8 ∨ k = 16 ∨ k = 32 ∨ k = 64 ∨ k = 128 ∨ k = 256 ∨ k = 512 ∨
    ∃ j : Int, 1 ≤ j ∧ k = 512 + 512 * j

/-- The words of the claim on the machine name: the part of the release string that starts
right after the first `-` whose following character is no ASCII digit. -/
def suffixAfterDash : List Char → Option (List Char)
  | [] => none
  | c :: rest =>
    if c = '-' ∧ g_ascii_isdigit rest = false then some rest else suffixAfterDash rest

/-- The name the claim expects for a release string. -/
def expectedMachineName (release : String) : String :=
  match suffixAfterDash release.toList with
  | some suffix => if suffix = [] then "unknown" else String.mk suffix
  | none => "unknown"

/-- The block of `DisplayStatusCb` that reads `"state"`, lines 948-956. -/
def displayStateStep (state : Option String) (w : World) : World :=
  match state with
  | some state =>
    if strncmpZero state "off" 3 then { w with gDisplayIsOn := false }
    else if strncmpZero state "on" 2 || strncmpZero state "dimmed" 6 then
      { w with gDisplayIsOn := true }
    else w
  | none => w

/-- The block of `DisplayStatusCb` that reads `"event"`, lines 958-965. -/
def displayEventStep (event : Option String) (w : World) : World :=
  match event with
  | some event =>
    if strncmpZero event "displayOn" 9 then { w with gDisplayIsOn := true }
    else if strncmpZero event "displayOff" 10 then { w with gDisplayIsOn := false }
    else w
  | none => w

/-- The block of `DisplayStatusCb` that reads `"blockDisplay"`, lines 967-974. -/
def displayBlockStep (blockDisplay : Option String) (w : World) : World :=
  match blockDisplay with
  | some blockDisplay =>
    if strncmpZero blockDisplay "true" 4 then { w with isDNAST := true }
    else if strncmpZero blockDisplay "false" 5 then { w with isDNAST := false }
    else w
  | none => w

/-- The last assignment of `DisplayStatusCb`, lines 976-977. -/
def displayLatchStep (w : World) : World :=
  if w.isDNAST then { w with gDisplayIsOn := true } else w

/-- The display flag once the `"state"` member has been read. -/
def displayAfterState (state : Option String) (flag : Bool) : Bool :=
  match state with
  | some st =>
    if strncmpZero st "off" 3 then false
    else if strncmpZero st "on" 2 || strncmpZero st "dimmed" 6 then true
    else flag
  | none => flag

/-- The display flag once the `"event"` member has been read. -/
def displayAfterEvent (event : Option String) (flag : Bool) : Bool :=
  match event with
  | some e =>
    if strncmpZero e "displayOn" 9 then true
    else if strncmpZero e "displayOff" 10 then false
    else flag
  | none => flag

/-- The latch `isDNAST` once the `"blockDisplay"` member has been read. -/
def latchAfter (blockDisplay : Option String) (latch : Bool) : Bool :=
  match blockDisplay with
  | some b =>
    if strncmpZero b "true" 4 then true
    else if strncmpZero b "false" 5 then false
    else latch
  | none => latch

/-- The globals at each invocation of a state function by the loop of `SuspendStateUpdate`, in
program order: the loop of `SuspendStateLoop` with the world recorded before each call. -/
def loopInvocations : Nat → (Nat → Responses) → World → List World
  | 0, _, _ => []
  | fuel + 1, o, w =>
    match kStateMachine w.gCurrentStateNode with
    | none => []
    | some function =>
      let p := function (o w.ticks) w
      if p.1 = kPowerStateLast ∨ p.1 = kPowerStateKernelResume then [w]
      else
        w :: loopInvocations fuel o
          { p.2.1 with ticks := p.2.1.ticks + 1, gCurrentStateNode := p.1 }

/-- Whether an effect is a state change of the loop out of `On`. -/
def leavesOn : Effect → Bool
  | Effect.StateChange kPowerStateOn _ => true
  | _ => false

/-! ## Lemmas on the state functions and the loop -/

theorem sameControl_refl (w : World) : sameControl w w := by simp [sameControl]

theorem sameControl_trans {a b c : World} (h1 : sameControl a b) (h2 : sameControl b c) :
    sameControl a c := by
  obtain ⟨h11, h12, h13, h14, h15⟩ := h1
  obtain ⟨h21, h22, h23, h24, h25⟩ := h2
  exact ⟨h21.trans h11, h22.trans h12, h23.trans h13, h24.trans h14, h25.trans h15⟩

theorem MachineSupportsWakelocks_sameControl (r : Responses) (w : World) :
    sameControl w (MachineSupportsWakelocks r w).2 := by
  unfold MachineSupportsWakelocks sameControl
  split_ifs <;> simp

theorem CheckActivitiesActive_sameControl (now : timespec) (r : Responses) (w : World) :
    sameControl w (CheckActivitiesActive now r w).2.1 := by
  have h := MachineSupportsWakelocks_sameControl r w
  unfold CheckActivitiesActive
  simp only []
  split_ifs
  · exact h
  · exact sameControl_trans h (by simp [sameControl])

theorem StateOnIdle_sameControl (r : Responses) (w : World) :
    sameControl w (StateOnIdle r w).2.1 := by
  unfold StateOnIdle
  split_ifs <;> exact sameControl_refl w

theorem StateSuspendRequest_sameControl (r : Responses) (w : World) :
    sameControl w (StateSuspendRequest r w).2.1 := by
  unfold StateSuspendRequest sameControl
  simp only []
  split_ifs <;> simp

theorem StatePrepareSuspend_sameControl (r : Responses) (w : World) :
    sameControl w (StatePrepareSuspend r w).2.1 := by
  unfold StatePrepareSuspend sameControl
  simp only []
  split_ifs <;> simp

theorem ScheduleIdleCheck_sameControl (ms : Int) (b : Bool) (w : World) :
    sameControl w (ScheduleIdleCheck ms b w) := by
  unfold ScheduleIdleCheck sameControl
  split <;> simp

theorem StateAbortSuspend_sameControl (r : Responses) (w : World) :
    sameControl w (StateAbortSuspend r w).2.1 := by
  have h := MachineSupportsWakelocks_sameControl r w
  unfold StateAbortSuspend
  simp only []
  split_ifs
  · exact sameControl_trans h (by simp [sameControl])
  · exact h

theorem _stateResume_sameControl (t : ResumeType) (r : Responses) (w : World) :
    sameControl w (_stateResume t r w).2.1 := by
  have h := MachineSupportsWakelocks_sameControl r w
  unfold _stateResume
  simp only []
  refine sameControl_trans ?_ (ScheduleIdleCheck_sameControl _ _ _)
  split_ifs
  · exact sameControl_trans h (by simp [sameControl, InstrumentOnWake])
  · exact sameControl_trans h (by simp [sameControl, InstrumentOnWake])

theorem StateOn_next (r : Responses) (w : World) :
    (StateOn r w).1 =
      if w.gSuspendEvent = kPowerEventForceSuspend then kPowerStateSuspendRequest
      else if w.gSuspendEvent = kPowerEventIdleEvent then kPowerStateOnIdle
      else kPowerStateLast := by
  cases h : w.gSuspendEvent <;> simp [StateOn, h]

theorem StateOn_world (r : Responses) (w : World) :
    (StateOn r w).2.1 = { w with gSuspendEvent := kPowerEventNone } := rfl

theorem StateOn_effects (r : Responses) (w : World) : (StateOn r w).2.2 = [] := rfl

theorem StateOnIdle_next (r : Responses) (w : World) :
    (StateOnIdle r w).1 = if MachineCanSleep w then kPowerStateSuspendRequest else kPowerStateOn := by
  unfold StateOnIdle
  split_ifs <;> simp_all

theorem StateOnIdle_world (r : Responses) (w : World) : (StateOnIdle r w).2.1 = w := by
  unfold StateOnIdle
  split_ifs <;> rfl

theorem StateOnIdle_effects (r : Responses) (w : World) : (StateOnIdle r w).2.2 = [] := by
  unfold StateOnIdle
  split_ifs <;> rfl

theorem StateSuspendRequest_next (r : Responses) (w : World) :
    (StateSuspendRequest r w).1 =
      if PwrEventClientsApproveSuspendRequest (r.votes_on_broadcast (PwrEventVoteInit w.clients)) then
        kPowerStatePrepareSuspend
      else if r.wait_result ≠ 0 then kPowerStatePrepareSuspend
      else if PwrEventClientsApproveSuspendRequest
          (r.votes_during_wait (r.votes_on_broadcast (PwrEventVoteInit w.clients))) then
        kPowerStatePrepareSuspend
      else kPowerStateOn := by
  unfold StateSuspendRequest
  simp only []
  split_ifs <;> simp_all

theorem StatePrepareSuspend_next (r : Responses) (w : World) :
    (StatePrepareSuspend r w).1 =
      if PwrEventClientsApprovePrepareSuspend (r.votes_on_broadcast w.clients) then
        kPowerStateSleep
      else if r.wait_result ≠ 0 then kPowerStateSleep
      else if PwrEventClientsApprovePrepareSuspend
          (r.votes_during_wait (r.votes_on_broadcast w.clients)) then
        kPowerStateSleep
      else kPowerStateAbortSuspend := by
  unfold StatePrepareSuspend
  simp only []
  split_ifs <;> simp_all

theorem CheckActivitiesActive_result (now : timespec) (r : Responses) (w : World) :
    (CheckActivitiesActive now r w).1 = r.activities_idle := by
  unfold CheckActivitiesActive
  simp only []
  split_ifs <;> rfl

theorem CheckActivitiesActive_effects (now : timespec) (r : Responses) (w : World) :
    (CheckActivitiesActive now r w).2.2 =
      if (MachineSupportsWakelocks r w).1 then [Effect.PwrEventActivityCheckActivitiesActive now]
      else [Effect.PwrEventFreezeActivities now] := by
  unfold CheckActivitiesActive
  simp only []
  split_ifs <;> rfl

theorem CheckActivitiesActive_sTimeOnSuspended (now : timespec) (r : Responses) (w : World) :
    (CheckActivitiesActive now r w).2.1.sTimeOnSuspended = w.sTimeOnSuspended := by
  unfold CheckActivitiesActive MachineSupportsWakelocks
  simp only []
  split_ifs <;> rfl

theorem MachineCanSleep_congr {w w' : World} (h : sameControl w w') :
    MachineCanSleep w' = MachineCanSleep w := by
  obtain ⟨-, -, -, h4, h5⟩ := h
  simp [MachineCanSleep, h4, h5]

/-- `StateSleep` in one piece: the activity check `c`, then the branch taken. -/
theorem StateSleep_eq (r : Responses) (w : World) :
    StateSleep r w =
      (if w.gSuspendEvent ≠ kPowerEventForceSuspend ∧ r.activities_idle = false then
          kPowerStateActivityResume
        else if MachineCanSleep w = false then kPowerStateAbortSuspend
        else if r.queue_next_wakeup = false then kPowerStateAbortSuspend
        else if MachineSleep r = false then kPowerStateAbortSuspend
        else kPowerStateKernelResume,
       if w.gSuspendEvent ≠ kPowerEventForceSuspend then
          (CheckActivitiesActive r.clock r (InstrumentOnSleep r w).1).2.1
        else (InstrumentOnSleep r w).1,
       [Effect.SendSuspended "attempting to suspend (We are trying to sleep)",
          Effect.timeout_get_next_wakeup,
          Effect.PwrEventClientPrintNACKRateLimited, Effect.sawmill_logger_record_sleep,
          Effect.timesaver_save]
        ++ (if w.gSuspendEvent ≠ kPowerEventForceSuspend then
              (CheckActivitiesActive r.clock r (InstrumentOnSleep r w).1).2.2
            else [])
        ++ (if w.gSuspendEvent ≠ kPowerEventForceSuspend ∧ r.activities_idle = false then
              [Effect.PwrEventActivityPrintFrom r.clock]
            else if MachineCanSleep w = false then []
            else if r.queue_next_wakeup = false then [Effect.queue_next_wakeup]
            else [Effect.queue_next_wakeup, Effect.nyx_system_suspend_async])) := by
  have hi : MachineCanSleep (InstrumentOnSleep r w).1 = MachineCanSleep w := rfl
  have hca := MachineCanSleep_congr (CheckActivitiesActive_sameControl r.clock r (InstrumentOnSleep r w).1)
  have hres := CheckActivitiesActive_result r.clock r (InstrumentOnSleep r w).1
  have hst := CheckActivitiesActive_sTimeOnSuspended r.clock r (InstrumentOnSleep r w).1
  have hst0 : (InstrumentOnSleep r w).1.sTimeOnSuspended = r.clock := rfl
  have hev0 : (InstrumentOnSleep r w).1.gSuspendEvent = w.gSuspendEvent := rfl
  have hie : (InstrumentOnSleep r w).2 =
      [Effect.PwrEventClientPrintNACKRateLimited, Effect.sawmill_logger_record_sleep] := rfl
  unfold StateSleep
  simp only [hst0, hev0, hie]
  generalize (InstrumentOnSleep r w).1 = wi at *
  generalize CheckActivitiesActive r.clock r wi = c at *
  by_cases hev : w.gSuspendEvent = kPowerEventForceSuspend
  · simp only [hev, ne_eq, not_true_eq_false, if_false, false_and]
    cases h2 : MachineCanSleep w <;> cases h3 : r.queue_next_wakeup <;> cases h4 : MachineSleep r <;>
      simp [hi, h2]
  · simp only [hev, ne_eq, not_false_eq_true, if_true, true_and]
    rw [hi] at hca
    cases h1 : r.activities_idle <;> cases h2 : MachineCanSleep w <;>
      cases h3 : r.queue_next_wakeup <;> cases h4 : MachineSleep r <;>
      simp [hca, hres, hst, hst0, h1, h2]

theorem StateSleep_sameControl (r : Responses) (w : World) :
    sameControl w (StateSleep r w).2.1 := by
  rw [StateSleep_eq]
  simp only []
  have h0 : sameControl w (InstrumentOnSleep r w).1 := by simp [sameControl, InstrumentOnSleep]
  split_ifs
  · exact sameControl_trans h0 (CheckActivitiesActive_sameControl _ _ _)
  · exact h0

theorem StateSleep_next (r : Responses) (w : World) :
    (StateSleep r w).1 =
      if w.gSuspendEvent ≠ kPowerEventForceSuspend ∧ r.activities_idle = false then
        kPowerStateActivityResume
      else if MachineCanSleep w = false then kPowerStateAbortSuspend
      else if r.queue_next_wakeup = false then kPowerStateAbortSuspend
      else if MachineSleep r = false then kPowerStateAbortSuspend
      else kPowerStateKernelResume := by
  rw [StateSleep_eq]

theorem CheckActivitiesActive_noChange (now : timespec) (r : Responses) (w : World) :
    ∀ e ∈ (CheckActivitiesActive now r w).2.2, isStateChange e = false := by
  unfold CheckActivitiesActive
  simp only []
  split_ifs <;> simp [isStateChange]

theorem StateSuspendRequest_noChange (r : Responses) (w : World) :
    ∀ e ∈ (StateSuspendRequest r w).2.2, isStateChange e = false := by
  unfold StateSuspendRequest
  simp only []
  split_ifs <;> simp [isStateChange]

theorem StatePrepareSuspend_noChange (r : Responses) (w : World) :
    ∀ e ∈ (StatePrepareSuspend r w).2.2, isStateChange e = false := by
  unfold StatePrepareSuspend
  simp only []
  split_ifs <;> simp [isStateChange]

theorem StateSleep_noChange (r : Responses) (w : World) :
    ∀ e ∈ (StateSleep r w).2.2, isStateChange e = false := by
  rw [StateSleep_eq]
  simp only [CheckActivitiesActive_effects]
  split_ifs <;> simp [isStateChange]

theorem StateAbortSuspend_noChange (r : Responses) (w : World) :
    ∀ e ∈ (StateAbortSuspend r w).2.2, isStateChange e = false := by
  unfold StateAbortSuspend
  simp only []
  split_ifs <;> simp [isStateChange]

theorem _stateResume_noChange (t : ResumeType) (r : Responses) (w : World) :
    ∀ e ∈ (_stateResume t r w).2.2, isStateChange e = false := by
  unfold _stateResume
  simp only []
  split_ifs <;> simp [isStateChange, InstrumentOnWake, MachineWakeup]

theorem state_noChange (s : PowerState) (f : PowerStateProc) (h : kStateMachine s = some f)
    (r : Responses) (w : World) : ∀ e ∈ (f r w).2.2, isStateChange e = false := by
  cases s <;> simp only [kStateMachine, Option.some.injEq, reduceCtorEq] at h <;> subst h
  · simp [StateOn_effects]
  · simp [StateOnIdle_effects]
  · exact StateSuspendRequest_noChange r w
  · exact StatePrepareSuspend_noChange r w
  · exact StateSleep_noChange r w
  · exact _stateResume_noChange _ r w
  · exact _stateResume_noChange _ r w
  · exact StateAbortSuspend_noChange r w

theorem state_sameControl (s : PowerState) (f : PowerStateProc) (h : kStateMachine s = some f)
    (hs : s ≠ kPowerStateOn) (r : Responses) (w : World) : sameControl w (f r w).2.1 := by
  cases s <;> simp only [kStateMachine, Option.some.injEq, reduceCtorEq] at h <;> subst h
  · exact absurd rfl hs
  · exact StateOnIdle_sameControl r w
  · exact StateSuspendRequest_sameControl r w
  · exact StatePrepareSuspend_sameControl r w
  · exact StateSleep_sameControl r w
  · exact _stateResume_sameControl _ r w
  · exact _stateResume_sameControl _ r w
  · exact StateAbortSuspend_sameControl r w

theorem StateAbortSuspend_next (r : Responses) (w : World) :
    (StateAbortSuspend r w).1 = kPowerStateOn := rfl

theorem _stateResume_next (t : ResumeType) (r : Responses) (w : World) :
    (_stateResume t r w).1 = kPowerStateOn := rfl

/-- Every state function returns along a documented edge, or `kPowerStateLast` from `On`
with no suspend event pending. -/
theorem state_edge (s : PowerState) (f : PowerStateProc) (h : kStateMachine s = some f)
    (r : Responses) (w : World) :
    ((f r w).1 = kPowerStateLast ∧ s = kPowerStateOn ∧ eventActive w.gSuspendEvent = false) ∨
    ((f r w).1 ≠ kPowerStateLast ∧ documentedEdge s (f r w).1 = true ∧
      (s = kPowerStateOn → eventActive w.gSuspendEvent = true)) := by
  cases s <;> simp only [kStateMachine, Option.some.injEq, reduceCtorEq] at h <;> subst h
  · rw [StateOn_next]
    cases hev : w.gSuspendEvent <;> simp [eventActive, documentedEdge]
  · rw [StateOnIdle_next]
    split_ifs <;> simp [documentedEdge]
  · rw [StateSuspendRequest_next]
    split_ifs <;> simp [documentedEdge]
  · rw [StatePrepareSuspend_next]
    split_ifs <;> simp [documentedEdge]
  · rw [StateSleep_next]
    split_ifs <;> simp [documentedEdge]
  · simp [StateKernelResume, _stateResume_next, documentedEdge]
  · simp [StateActivityResume, _stateResume_next, documentedEdge]
  · simp [StateAbortSuspend_next, documentedEdge]

theorem loopRank_pos (s : PowerState) (b : Bool) (h : s ≠ kPowerStateLast) : 1 ≤ loopRank s b := by
  cases s <;> cases b <;> simp [loopRank] at h ⊢

theorem loopRank_edge (s t : PowerState) (b : Bool) (h : documentedEdge s t = true)
    (hs : s ≠ kPowerStateOn) : loopRank t b < loopRank s b := by
  cases s <;> cases t <;> cases b <;> simp [documentedEdge, loopRank] at h hs ⊢

theorem loopRank_edge_On (t : PowerState) (h : documentedEdge kPowerStateOn t = true) :
    loopRank t false < loopRank kPowerStateOn true := by
  cases t <;> simp [documentedEdge, loopRank] at h ⊢

theorem kStateMachine_some (s : PowerState) (h : s ≠ kPowerStateLast) :
    ∃ f, kStateMachine s = some f := by
  cases s <;> simp [kStateMachine] at h ⊢

/-- One iteration of the loop of `SuspendStateUpdate`. -/
theorem SuspendStateLoop_succ (n : Nat) (o : Nat → Responses) (w : World) (f : PowerStateProc)
    (h : kStateMachine w.gCurrentStateNode = some f) :
    SuspendStateLoop (n + 1) o w =
      if (f (o w.ticks) w).1 = kPowerStateLast then
        some ({ (f (o w.ticks) w).2.1 with ticks := (f (o w.ticks) w).2.1.ticks + 1 },
          (f (o w.ticks) w).2.2)
      else if (f (o w.ticks) w).1 = kPowerStateKernelResume then
        some ({ (f (o w.ticks) w).2.1 with
                  ticks := (f (o w.ticks) w).2.1.ticks + 1,
                  gCurrentStateNode := (f (o w.ticks) w).1 },
          (f (o w.ticks) w).2.2 ++ [Effect.StateChange w.gCurrentStateNode (f (o w.ticks) w).1])
      else
        (SuspendStateLoop n o
            { (f (o w.ticks) w).2.1 with
                ticks := (f (o w.ticks) w).2.1.ticks + 1,
                gCurrentStateNode := (f (o w.ticks) w).1 }).map
          fun q => (q.1, ((f (o w.ticks) w).2.2 ++
            [Effect.StateChange w.gCurrentStateNode (f (o w.ticks) w).1]) ++ q.2) := by
  rw [SuspendStateLoop]
  simp only [h]

/-- The event pending after a state function has run. -/
theorem state_event (s : PowerState) (f : PowerStateProc) (h : kStateMachine s = some f)
    (r : Responses) (w : World) :
    eventActive (f r w).2.1.gSuspendEvent =
      (if s = kPowerStateOn then false else eventActive w.gSuspendEvent) := by
  by_cases hs : s = kPowerStateOn
  · subst hs
    simp only [kStateMachine, Option.some.injEq] at h
    subst h
    simp [StateOn_world, eventActive]
  · rw [(state_sameControl s f h hs r w).2.2.1]
    simp [hs]

theorem state_ticks (s : PowerState) (f : PowerStateProc) (h : kStateMachine s = some f)
    (r : Responses) (w : World) : (f r w).2.1.ticks = w.ticks := by
  by_cases hs : s = kPowerStateOn
  · subst hs
    simp only [kStateMachine, Option.some.injEq] at h
    subst h
    simp [StateOn_world]
  · exact (state_sameControl s f h hs r w).2.1

theorem state_current (s : PowerState) (f : PowerStateProc) (h : kStateMachine s = some f)
    (r : Responses) (w : World) : (f r w).2.1.gCurrentStateNode = w.gCurrentStateNode := by
  by_cases hs : s = kPowerStateOn
  · subst hs
    simp only [kStateMachine, Option.some.injEq] at h
    subst h
    simp [StateOn_world]
  · exact (state_sameControl s f h hs r w).1

/-- The loop returns from every state of the table, within `loopRank` iterations, in `On` or
`KernelResume`, and every state change it makes is an edge of the diagram. -/
theorem SuspendStateLoop_spec (o : Nat → Responses) :
    ∀ (n : Nat) (w : World), w.gCurrentStateNode ≠ kPowerStateLast →
      loopRank w.gCurrentStateNode (eventActive w.gSuspendEvent) ≤ n →
      ∃ w' effs, SuspendStateLoop n o w = some (w', effs) ∧
        (w'.gCurrentStateNode = kPowerStateOn ∨ w'.gCurrentStateNode = kPowerStateKernelResume) ∧
        (∀ a b, Effect.StateChange a b ∈ effs → documentedEdge a b = true) ∧
        w.ticks < w'.ticks ∧
        w'.ticks ≤ w.ticks + loopRank w.gCurrentStateNode (eventActive w.gSuspendEvent) := by
  intro n
  induction n with
  | zero =>
    intro w hw hr
    have := loopRank_pos w.gCurrentStateNode (eventActive w.gSuspendEvent) hw
    omega
  | succ n ih =>
    intro w hw hr
    obtain ⟨f, hf⟩ := kStateMachine_some _ hw
    have hno := state_noChange _ f hf (o w.ticks) w
    have hev := state_event _ f hf (o w.ticks) w
    have htk := state_ticks _ f hf (o w.ticks) w
    have hcur := state_current _ f hf (o w.ticks) w
    have hpos := loopRank_pos w.gCurrentStateNode (eventActive w.gSuspendEvent) hw
    have hmem : ∀ a b, Effect.StateChange a b ∉ (f (o w.ticks) w).2.2 := by
      intro a b hab
      have := hno _ hab
      simp [isStateChange] at this
    rw [SuspendStateLoop_succ n o w f hf]
    rcases state_edge _ f hf (o w.ticks) w with ⟨hl, hon, hin⟩ | ⟨hnl, hedge, hact⟩
    · refine ⟨_, _, by rw [if_pos hl], ?_, ?_, ?_, ?_⟩
      · left; simp only [hcur]; exact hon
      · intro a b hab; exact absurd hab (hmem a b)
      · simp only [htk]; omega
      · simp only [htk]; omega
    · rw [if_neg hnl]
      by_cases hk : (f (o w.ticks) w).1 = kPowerStateKernelResume
      · refine ⟨_, _, by rw [if_pos hk], ?_, ?_, ?_, ?_⟩
        · right; exact hk
        · intro a b hab
          rcases List.mem_append.1 hab with h1 | h1
          · exact absurd h1 (hmem a b)
          · simp only [List.mem_singleton, Effect.StateChange.injEq] at h1
            rw [h1.1, h1.2]; exact hedge
        · simp only [htk]; omega
        · simp only [htk]; omega
      · rw [if_neg hk]
        have hdec : loopRank (f (o w.ticks) w).1 (eventActive (f (o w.ticks) w).2.1.gSuspendEvent) <
            loopRank w.gCurrentStateNode (eventActive w.gSuspendEvent) := by
          rw [hev]
          by_cases hs : w.gCurrentStateNode = kPowerStateOn
          · rw [if_pos hs, hact hs]
            have := loopRank_edge_On _ (hs ▸ hedge)
            rw [hs]; exact this
          · rw [if_neg hs]
            exact loopRank_edge _ _ _ hedge hs
        obtain ⟨w', effs, hrun, hrest, hch, hlt, hle⟩ :=
          ih { (f (o w.ticks) w).2.1 with
                ticks := (f (o w.ticks) w).2.1.ticks + 1,
                gCurrentStateNode := (f (o w.ticks) w).1 } hnl (by simp only []; omega)
        refine ⟨w', _, by rw [hrun]; rfl, hrest, ?_, ?_, ?_⟩
        · intro a b hab
          simp only [List.mem_append, List.mem_singleton, Effect.StateChange.injEq] at hab
          rcases hab with (h1 | h1) | h1
          · exact absurd h1 (hmem a b)
          · rw [h1.1, h1.2]; exact hedge
          · exact hch a b h1
        · simp only [htk] at hlt; omega
        · simp only [htk] at hle hdec ⊢; omega

theorem _stateResume_eq (t : ResumeType) (r : Responses) (w : World) :
    _stateResume t r w =
      (kPowerStateOn,
       ScheduleIdleCheck w.gSleepConfig.after_resume_idle_ms false
         { (if (MachineSupportsWakelocks r w).1 then (MachineSupportsWakelocks r w).2
            else { (MachineSupportsWakelocks r w).2 with activities_frozen := false }) with
           sTimeOnWake := r.clock, sWakeRTC := r.rtc },
       [Effect.nyx_system_resume]
         ++ (if (MachineSupportsWakelocks r w).1 then [] else [Effect.PwrEventThawActivities])
         ++ [Effect.SendResume t ("resume (" ++ resume_type_descriptions.getD t.toNat "" ++ ")"),
             Effect.sawmill_logger_record_wake,
             Effect.ScheduleIdleCheck w.gSleepConfig.after_resume_idle_ms false]) := by
  have hc := (MachineSupportsWakelocks_sameControl r w).2.2.2.1
  unfold _stateResume InstrumentOnWake MachineWakeup
  simp only []
  cases h : (MachineSupportsWakelocks r w).1 <;> simp [hc]

theorem StateAbortSuspend_eq (r : Responses) (w : World) :
    StateAbortSuspend r w =
      (kPowerStateOn,
       (if (MachineSupportsWakelocks r w).1 then (MachineSupportsWakelocks r w).2
        else { (MachineSupportsWakelocks r w).2 with activities_frozen := false }),
       (if (MachineSupportsWakelocks r w).1 then [] else [Effect.PwrEventThawActivities])
         ++ [Effect.SendResume ResumeType.kResumeAbortSuspend "resume (suspend aborted)"]) := by
  unfold StateAbortSuspend
  simp only []
  cases h : (MachineSupportsWakelocks r w).1 <;> simp


theorem MachineSupportsWakelocks_idle_scheduler (r : Responses) (w : World) :
    (MachineSupportsWakelocks r w).2.idle_scheduler = w.idle_scheduler := by
  unfold MachineSupportsWakelocks
  split_ifs <;> rfl

theorem loopRank_le (s : PowerState) (b : Bool) : loopRank s b ≤ 12 := by
  cases s <;> cases b <;> simp [loopRank]

theorem SuspendStateUpdate_spec (o : Nat → Responses) (ev : PowerEvent) (w : World)
    (hw : w.gCurrentStateNode ≠ kPowerStateLast) :
    ∃ w' effs, SuspendStateUpdate o ev w = some (w', effs) ∧
      (w'.gCurrentStateNode = kPowerStateOn ∨ w'.gCurrentStateNode = kPowerStateKernelResume) ∧
      (∀ a b, Effect.StateChange a b ∈ effs → documentedEdge a b = true) := by
  obtain ⟨w', effs, h1, h2, h3, -, -⟩ :=
    SuspendStateLoop_spec o 12 { w with gSuspendEvent := ev } hw (loopRank_le _ _)
  exact ⟨w', effs, h1, h2, h3⟩

theorem SuspendStateLoop_shape (o : Nat → Responses) :
    ∀ (n : Nat) (w w' : World) (effs : List Effect),
      eventActive w.gSuspendEvent = false →
      SuspendStateLoop n o w = some (w', effs) →
      RunShape w.gCurrentStateNode effs w'.gCurrentStateNode := by
  intro n
  induction n with
  | zero => intro w w' effs _ h; simp [SuspendStateLoop] at h
  | succ n ih =>
    intro w w' effs hin h
    have hw : w.gCurrentStateNode ≠ kPowerStateLast := by
      intro hl
      rw [SuspendStateLoop] at h
      simp [hl, kStateMachine] at h
    obtain ⟨f, hf⟩ := kStateMachine_some _ hw
    have hev := state_event _ f hf (o w.ticks) w
    have hcur := state_current _ f hf (o w.ticks) w
    rw [SuspendStateLoop_succ n o w f hf] at h
    rcases state_edge _ f hf (o w.ticks) w with ⟨hl, hon, -⟩ | ⟨hnl, -, hact⟩
    · rw [if_pos hl] at h
      simp only [Option.some.injEq, Prod.mk.injEq] at h
      obtain ⟨h1, h2⟩ := h
      have hfo : f = StateOn := by
        rw [hon] at hf; simpa [kStateMachine] using hf.symm
      subst h1
      rw [← h2, hfo, StateOn_effects]
      simp only [StateOn_world, hon]
      exact RunShape.done
    · rw [if_neg hnl] at h
      by_cases hk : (f (o w.ticks) w).1 = kPowerStateKernelResume
      · rw [if_pos hk] at h
        simp only [Option.some.injEq, Prod.mk.injEq] at h
        obtain ⟨h1, h2⟩ := h
        subst h1
        rw [← h2]
        simp only [hk]
        exact RunShape.kernel _ f _ w hf hin hk
      · rw [if_neg hk] at h
        have hs : w.gCurrentStateNode ≠ kPowerStateOn := by
          intro hs; have := hact hs; rw [hin] at this; exact absurd this (by simp)
        rw [if_neg hs, hin] at hev
        cases hrun : SuspendStateLoop n o
            { (f (o w.ticks) w).2.1 with
                ticks := (f (o w.ticks) w).2.1.ticks + 1,
                gCurrentStateNode := (f (o w.ticks) w).1 } with
        | none => rw [hrun] at h; simp at h
        | some q =>
          obtain ⟨q1, q2⟩ := q
          rw [hrun] at h
          simp only [Option.map_some', Option.some.injEq, Prod.mk.injEq] at h
          obtain ⟨h1, h2⟩ := h
          have hsh : RunShape (f (o w.ticks) w).1 q2 q1.gCurrentStateNode :=
            ih { (f (o w.ticks) w).2.1 with
                  ticks := (f (o w.ticks) w).2.1.ticks + 1,
                  gCurrentStateNode := (f (o w.ticks) w).1 } q1 q2 hev hrun
          rw [← h1, ← h2]
          exact RunShape.step _ f _ w _ _ hf hin hnl hk hsh


theorem RunShape_inv {s final : PowerState} {effs : List Effect} (h : RunShape s effs final) :
    (s = kPowerStateOn ∧ effs = [] ∧ final = kPowerStateOn) ∨
    ∃ f r w, kStateMachine s = some f ∧ eventActive w.gSuspendEvent = false ∧
      (f r w).1 ≠ kPowerStateLast ∧
      (((f r w).1 = kPowerStateKernelResume ∧
          effs = (f r w).2.2 ++ [Effect.StateChange s kPowerStateKernelResume] ∧
          final = kPowerStateKernelResume) ∨
       ((f r w).1 ≠ kPowerStateKernelResume ∧
          ∃ rest, effs = (f r w).2.2 ++ [Effect.StateChange s (f r w).1] ++ rest ∧
            RunShape (f r w).1 rest final)) := by
  cases h with
  | done => exact Or.inl ⟨rfl, rfl, rfl⟩
  | kernel _ f r w hf hin hk =>
    exact Or.inr ⟨f, r, w, hf, hin, by rw [hk]; simp, Or.inl ⟨hk, rfl, rfl⟩⟩
  | step _ f r w rest _ hf hin hnl hk hrest =>
    exact Or.inr ⟨f, r, w, hf, hin, hnl, Or.inr ⟨hk, rest, rfl, hrest⟩⟩

theorem RunShape_On {final : PowerState} {effs : List Effect}
    (h : RunShape kPowerStateOn effs final) : effs = [] ∧ final = kPowerStateOn := by
  rcases RunShape_inv h with ⟨-, h1, h2⟩ | ⟨f, r, w, hf, hin, hnl, -⟩
  · exact ⟨h1, h2⟩
  · rcases state_edge _ f hf r w with ⟨hl, -, -⟩ | ⟨-, -, hact⟩
    · exact absurd hl hnl
    · rw [hact rfl] at hin; exact absurd hin (by simp)

/-- From a resume state the loop makes one broadcast step and stops in `On`. -/
theorem RunShape_toOn (s : PowerState) {final : PowerState} {effs : List Effect}
    (f : PowerStateProc)
    (hf : kStateMachine s = some f) (hs : s ≠ kPowerStateOn)
    (hOn : ∀ r w, (f r w).1 = kPowerStateOn) (h : RunShape s effs final) :
    ∃ r w, eventActive w.gSuspendEvent = false ∧
      effs = (f r w).2.2 ++ [Effect.StateChange s kPowerStateOn] ∧ final = kPowerStateOn := by
  rcases RunShape_inv h with ⟨hs', -, -⟩ | ⟨f', r, w, hf', hin, -, hc⟩
  · exact absurd hs' hs
  · have : f' = f := by rw [hf] at hf'; exact (Option.some.inj hf').symm
    subst this
    rcases hc with ⟨hk, -, -⟩ | ⟨-, rest, he, hrest⟩
    · rw [hOn] at hk; exact absurd hk (by simp)
    · rw [hOn] at he hrest
      obtain ⟨h1, h2⟩ := RunShape_On hrest
      exact ⟨r, w, hin, by rw [he, h1]; simp, h2⟩


/-- Once no suspend event is pending the loop only moves down the diagram. -/
theorem RunShape_rank {s final : PowerState} {effs : List Effect} (h : RunShape s effs final) :
    ∀ a b, Effect.StateChange a b ∈ effs → loopRank a false ≤ loopRank s false := by
  induction h with
  | done => intro a b hab; simp at hab
  | kernel s f r w hf hin hk =>
    intro a b hab
    have hno := state_noChange _ f hf r w
    rcases List.mem_append.1 hab with h1 | h1
    · have := hno _ h1; simp [isStateChange] at this
    · simp only [List.mem_singleton, Effect.StateChange.injEq] at h1
      rw [h1.1]
  | step s f r w rest final hf hin hnl hk hrest ih =>
    intro a b hab
    have hno := state_noChange _ f hf r w
    simp only [List.mem_append, List.mem_singleton, Effect.StateChange.injEq] at hab
    rcases hab with (h1 | h1) | h1
    · have := hno _ h1; simp [isStateChange] at this
    · rw [h1.1]
    · have h2 := ih a b h1
      rcases state_edge _ f hf r w with ⟨hl, -, -⟩ | ⟨-, hedge, hact⟩
      · exact absurd hl hnl
      · have hs : s ≠ kPowerStateOn := by
          intro hs; have := hact hs; rw [hin] at this; exact absurd this (by simp)
        have := loopRank_edge _ _ false hedge hs
        omega



theorem StateSuspendRequest_effects_mem (r : Responses) (w : World) :
    ∀ e ∈ (StateSuspendRequest r w).2.2,
      e = Effect.PwrEventVoteInit ∨ e = Effect.SendSuspendRequest "" ∨
      e = Effect.WaitObjectWait WaitObj.gWaitSuspendResponse w.gSleepConfig.wait_suspend_response_ms ∨
      e = Effect.PwrEventGetSuspendRequestNORSPList ∨
      ∃ l, e = Effect.PwrEventClientTablePrint l := by
  unfold StateSuspendRequest
  simp only []
  split_ifs <;> simp

/-- A run entered in `On` with a suspend event pending: `StateOn` consumes the event and the rest
of the run is a trace with no event pending. -/
theorem SuspendStateUpdate_from_On (o : Nat → Responses) (ev : PowerEvent) (w : World)
    (hOn : w.gCurrentStateNode = kPowerStateOn) :
    ∃ w' effs, SuspendStateUpdate o ev w = some (w', effs) ∧
      ((eventActive ev = false ∧ effs = [] ∧ w'.gCurrentStateNode = kPowerStateOn) ∨
       (ev = kPowerEventForceSuspend ∧ ∃ rest,
          effs = Effect.StateChange kPowerStateOn kPowerStateSuspendRequest :: rest ∧
          RunShape kPowerStateSuspendRequest rest w'.gCurrentStateNode) ∨
       (ev = kPowerEventIdleEvent ∧ ∃ rest,
          effs = Effect.StateChange kPowerStateOn kPowerStateOnIdle :: rest ∧
          RunShape kPowerStateOnIdle rest w'.gCurrentStateNode)) := by
  obtain ⟨w', effs, hrun, -, -⟩ := SuspendStateUpdate_spec o ev w (by rw [hOn]; simp)
  refine ⟨w', effs, hrun, ?_⟩
  have hf : kStateMachine ({ w with gSuspendEvent := ev } : World).gCurrentStateNode
      = some StateOn := by simp [hOn, kStateMachine]
  rw [SuspendStateUpdate, SuspendStateLoop_succ 11 o _ StateOn hf] at hrun
  by_cases hF : ev = kPowerEventForceSuspend
  · right; left
    subst hF
    simp only [StateOn_next, StateOn_world, StateOn_effects, if_true, reduceCtorEq, if_false,
      List.nil_append, hOn] at hrun
    cases hq : SuspendStateLoop 11 o
        { w with gSuspendEvent := kPowerEventNone, ticks := w.ticks + 1,
                 gCurrentStateNode := kPowerStateSuspendRequest } with
    | none => rw [hq] at hrun; simp at hrun
    | some q =>
      obtain ⟨q1, q2⟩ := q
      rw [hq] at hrun
      simp only [Option.map_some', Option.some.injEq, Prod.mk.injEq] at hrun
      obtain ⟨h1, h2⟩ := hrun
      have := SuspendStateLoop_shape o 11 _ q1 q2 (by simp [eventActive]) hq
      subst h1
      exact ⟨rfl, q2, by rw [← h2]; rfl, this⟩
  · by_cases hI : ev = kPowerEventIdleEvent
    · right; right
      subst hI
      simp only [StateOn_next, StateOn_world, StateOn_effects, if_true, reduceCtorEq, if_false,
        List.nil_append, hOn] at hrun
      cases hq : SuspendStateLoop 11 o
          { w with gSuspendEvent := kPowerEventNone, ticks := w.ticks + 1,
                   gCurrentStateNode := kPowerStateOnIdle } with
      | none => rw [hq] at hrun; simp at hrun
      | some q =>
        obtain ⟨q1, q2⟩ := q
        rw [hq] at hrun
        simp only [Option.map_some', Option.some.injEq, Prod.mk.injEq] at hrun
        obtain ⟨h1, h2⟩ := hrun
        have := SuspendStateLoop_shape o 11 _ q1 q2 (by simp [eventActive]) hq
        subst h1
        exact ⟨rfl, q2, by rw [← h2]; rfl, this⟩
    · left
      simp only [StateOn_next, StateOn_world, StateOn_effects, if_neg hF, if_neg hI, if_true,
        Option.some.injEq, Prod.mk.injEq] at hrun
      obtain ⟨h1, h2⟩ := hrun
      refine ⟨?_, h2.symm, ?_⟩
      · cases ev <;> simp [eventActive] at hF hI ⊢
      · rw [← h1]; exact hOn

theorem StatePrepareSuspend_effects_mem (r : Responses) (w : World) :
    ∀ e ∈ (StatePrepareSuspend r w).2.2,
      e = Effect.SendPrepareSuspend "" ∨
      e = Effect.WaitObjectWait WaitObj.gWaitPrepareSuspend w.gSleepConfig.wait_prepare_suspend_ms ∨
      e = Effect.PwrEventGetPrepareSuspendNORSPList ∨ e = Effect.PwrEventGetClientTable ∨
      ∃ l, e = Effect.PwrEventClientTablePrint l := by
  unfold StatePrepareSuspend
  simp only []
  split_ifs <;> simp

/-- Only `StateSleep` queues the wake alarm or calls the platform suspend. -/
theorem state_noSuspendCalls (s : PowerState) (f : PowerStateProc) (h : kStateMachine s = some f)
    (hs : s ≠ kPowerStateSleep) (r : Responses) (w : World) :
    Effect.queue_next_wakeup ∉ (f r w).2.2 ∧ Effect.nyx_system_suspend_async ∉ (f r w).2.2 := by
  cases s <;> simp only [kStateMachine, Option.some.injEq, reduceCtorEq] at h <;> subst h
  · simp [StateOn_effects]
  · simp [StateOnIdle_effects]
  · have hm := StateSuspendRequest_effects_mem r w
    constructor <;> intro hc <;> rcases hm _ hc with h | h | h | h | ⟨l, h⟩ <;> simp at h
  · have hm := StatePrepareSuspend_effects_mem r w
    constructor <;> intro hc <;> rcases hm _ hc with h | h | h | h | ⟨l, h⟩ <;> simp at h
  · exact absurd rfl hs
  · rw [StateKernelResume, _stateResume_eq]
    split_ifs <;> simp
  · rw [StateActivityResume, _stateResume_eq]
    split_ifs <;> simp
  · rw [StateAbortSuspend_eq]
    split_ifs <;> simp

theorem StateSleep_range (r : Responses) (w : World) :
    (StateSleep r w).1 = kPowerStateActivityResume ∨ (StateSleep r w).1 = kPowerStateAbortSuspend ∨
      (StateSleep r w).1 = kPowerStateKernelResume := by
  rw [StateSleep_next]
  split_ifs <;> simp

/-- When `StateSleep` returns `ActivityResume` it has neither queued the wake alarm nor called
the platform suspend. -/
theorem StateSleep_activity_effects (r : Responses) (w : World)
    (h : (StateSleep r w).1 = kPowerStateActivityResume) :
    Effect.queue_next_wakeup ∉ (StateSleep r w).2.2 ∧
      Effect.nyx_system_suspend_async ∉ (StateSleep r w).2.2 := by
  rw [StateSleep_eq] at h ⊢
  simp only [CheckActivitiesActive_effects] at h ⊢
  split_ifs at h ⊢ <;> simp_all

theorem StateActivityResume_broadcast (r : Responses) (w : World) :
    Effect.SendResume ResumeType.kResumeTypeActivity "resume (pwrevent_activity)"
      ∈ (StateActivityResume r w).2.2 := by
  have ha : "resume (" ++ resume_type_descriptions.getD ResumeType.kResumeTypeActivity.toNat "" ++ ")"
      = "resume (pwrevent_activity)" := by decide
  rw [StateActivityResume, _stateResume_eq, ha]
  simp

/-- Every trace with no event pending that takes the edge `Sleep → ActivityResume` ends in `On`,
broadcasts `Resume(activity)` and never reaches the wake alarm or the platform suspend. -/
theorem RunShape_activity {s final : PowerState} {effs : List Effect} (h : RunShape s effs final) :
    Effect.StateChange kPowerStateSleep kPowerStateActivityResume ∈ effs →
    final = kPowerStateOn ∧ Effect.queue_next_wakeup ∉ effs ∧
      Effect.nyx_system_suspend_async ∉ effs ∧
      Effect.SendResume ResumeType.kResumeTypeActivity "resume (pwrevent_activity)" ∈ effs := by
  induction h with
  | done => intro hm; simp at hm
  | kernel s f r w hf hin hk =>
    intro hm
    have hno := state_noChange _ f hf r w
    rcases List.mem_append.1 hm with h1 | h1
    · have := hno _ h1; simp [isStateChange] at this
    · simp at h1
  | step s f r w rest final hf hin hnl hk hrest ih =>
    intro hm
    have hno := state_noChange _ f hf r w
    simp only [List.mem_append, List.mem_singleton, Effect.StateChange.injEq] at hm
    rcases hm with (h1 | h1) | h1
    · have := hno _ h1; simp [isStateChange] at this
    · obtain ⟨h2, h3⟩ := h1
      subst h2
      simp only [kStateMachine, Option.some.injEq] at hf
      subst hf
      rw [← h3] at hrest
      obtain ⟨r', w', -, he, hfin⟩ :=
        RunShape_toOn kPowerStateActivityResume StateActivityResume rfl (by simp)
          (fun _ _ => rfl) hrest
      obtain ⟨hq, hx⟩ := StateSleep_activity_effects r w h3.symm
      obtain ⟨hq', hx'⟩ := state_noSuspendCalls kPowerStateActivityResume _ rfl (by simp) r' w'
      have hb := StateActivityResume_broadcast r' w'
      refine ⟨hfin, ?_, ?_, ?_⟩
      · rw [he]; simp [hq, hq']
      · rw [he]; simp [hx, hx']
      · rw [he]; simp [hb]
    · have hs : s ≠ kPowerStateSleep := by
        intro hs
        subst hs
        simp only [kStateMachine, Option.some.injEq] at hf
        subst hf
        have hr := RunShape_rank hrest _ _ h1
        rcases StateSleep_range r w with h | h | h
        · rw [h] at hr; simp [loopRank] at hr
        · rw [h] at hr; simp [loopRank] at hr
        · exact hk h
      obtain ⟨h2, h3, h4, h5⟩ := ih h1
      obtain ⟨hq, hx⟩ := state_noSuspendCalls s f hf hs r w
      refine ⟨h2, ?_, ?_, ?_⟩
      · simp [hq, h3]
      · simp [hx, h4]
      · simp [h5]

/-! ## The claims -/

theorem all_Ack_of_approve (cs : List Client)
    (h : PwrEventClientsApprovePrepareSuspend cs = true) :
    ∀ c ∈ cs, c.prepare_suspend_vote = Vote.Ack := by
  intro c hc
  unfold PwrEventClientsApprovePrepareSuspend at h
  rw [List.all_eq_true] at h
  simpa using h c hc

theorem StatePrepareSuspend_clients (r : Responses) (w : World) :
    (StatePrepareSuspend r w).2.1.clients =
      if PwrEventClientsApprovePrepareSuspend (r.votes_on_broadcast w.clients) then
        r.votes_on_broadcast w.clients
      else r.votes_during_wait (r.votes_on_broadcast w.clients) := by
  unfold StatePrepareSuspend
  simp only []
  cases h : PwrEventClientsApprovePrepareSuspend (r.votes_on_broadcast w.clients) <;>
    simp only [Bool.not_false, Bool.not_true, if_true, Bool.false_eq_true, if_false] <;>
    split_ifs <;> rfl

theorem documentedEdge_into_Sleep (a : PowerState)
    (h : documentedEdge a kPowerStateSleep = true) : a = kPowerStatePrepareSuspend := by
  cases a <;> simp [documentedEdge] at h ⊢


theorem processEvents_spec (o : Nat → Responses) (evs : List PowerEvent) (w : World)
    (hw : w.gCurrentStateNode ≠ kPowerStateLast) :
    ∃ w' effs, processEvents o evs w = some (w', effs) ∧
      ∀ a b, Effect.StateChange a b ∈ effs → documentedEdge a b = true := by
  induction evs generalizing w with
  | nil => exact ⟨w, [], rfl, by simp⟩
  | cons ev evs ih =>
    obtain ⟨w1, effs1, h1, hrest, hedge⟩ := SuspendStateUpdate_spec o ev w hw
    have hw1 : w1.gCurrentStateNode ≠ kPowerStateLast := by
      rcases hrest with h | h <;> simp [h]
    obtain ⟨w2, effs2, h2, hedge2⟩ := ih w1 hw1
    refine ⟨w2, effs1 ++ effs2, ?_, ?_⟩
    · simp [processEvents, h1, h2]
    · intro a b hab
      rcases List.mem_append.1 hab with h | h
      · exact hedge a b h
      · exact hedge2 a b h

/-- C2: `StatePrepareSuspend` returns `Sleep` when all clients approve `PrepareSuspend` (at once
or when the wait ends) or when the wait times out, in which case nothing but the debug table
print follows the wait; it returns `AbortSuspend` when the wait ends without timing out and
not all clients approve. -/
theorem StatePrepareSuspend_outcome (r : Responses) (w : World) :
    (PwrEventClientsApprovePrepareSuspend (r.votes_on_broadcast w.clients) = true →
      (StatePrepareSuspend r w).1 = kPowerStateSleep ∧
      (StatePrepareSuspend r w).2.1.clients = r.votes_on_broadcast w.clients ∧
      (StatePrepareSuspend r w).2.2 =
        [Effect.SendPrepareSuspend "", Effect.PwrEventClientTablePrint LogLevel.G_LOG_LEVEL_DEBUG]) ∧
    (PwrEventClientsApprovePrepareSuspend (r.votes_on_broadcast w.clients) = false →
      (StatePrepareSuspend r w).2.1.clients = r.votes_during_wait (r.votes_on_broadcast w.clients) ∧
      Effect.WaitObjectWait WaitObj.gWaitPrepareSuspend w.gSleepConfig.wait_prepare_suspend_ms
        ∈ (StatePrepareSuspend r w).2.2 ∧
      (r.wait_result ≠ 0 →
        (StatePrepareSuspend r w).1 = kPowerStateSleep ∧
        (StatePrepareSuspend r w).2.2 =
          [Effect.SendPrepareSuspend "",
           Effect.WaitObjectWait WaitObj.gWaitPrepareSuspend w.gSleepConfig.wait_prepare_suspend_ms,
           Effect.PwrEventClientTablePrint LogLevel.G_LOG_LEVEL_DEBUG,
           Effect.PwrEventGetPrepareSuspendNORSPList, Effect.PwrEventGetClientTable]) ∧
      (r.wait_result = 0 →
        PwrEventClientsApprovePrepareSuspend
          (r.votes_during_wait (r.votes_on_broadcast w.clients)) = true →
        (StatePrepareSuspend r w).1 = kPowerStateSleep) ∧
      (r.wait_result = 0 →
        PwrEventClientsApprovePrepareSuspend
          (r.votes_during_wait (r.votes_on_broadcast w.clients)) = false →
        (StatePrepareSuspend r w).1 = kPowerStateAbortSuspend)) := by
  refine ⟨fun h => ?_, fun h => ⟨?_, ?_, fun ht => ?_, fun ht ha => ?_, fun ht ha => ?_⟩⟩
  · unfold StatePrepareSuspend
    simp [h]
  · unfold StatePrepareSuspend
    simp only [h, Bool.not_false, if_true]
    split_ifs <;> rfl
  · unfold StatePrepareSuspend
    simp only [h, Bool.not_false, if_true]
    split_ifs <;> simp
  · unfold StatePrepareSuspend
    simp [h, ht]
  · rw [StatePrepareSuspend_next]; simp [h, ht, ha]
  · rw [StatePrepareSuspend_next]; simp [h, ht, ha]

/-- Scenario S3 for C2: `B` never answers phase 2, the wait times out, the next state is
`Sleep`. -/
theorem StatePrepareSuspend_outcome_witness :
    PwrEventClientsApprovePrepareSuspend (s3Responses.votes_on_broadcast s1World.clients) = false ∧
      s3Responses.wait_result ≠ 0 ∧
      (StatePrepareSuspend s3Responses s1World).1 = kPowerStateSleep :=
  ⟨by decide, by decide,
    (((StatePrepareSuspend_outcome s3Responses s1World).2 (by decide)).2.2.1 (by decide)).1⟩

/-- C3, as stated, fails: client `B` answers `Nack` in phase 2 and the wait times out;
`StatePrepareSuspend` returns `Sleep` with `B`'s vote `Nack` in the table, and the run started
by `IdleDetected` goes through `PrepareSuspend → Sleep` to the platform suspend. -/
theorem sleep_entered_with_nack_on_timeout :
    (StatePrepareSuspend nackTimeoutResponses s1World).1 = kPowerStateSleep ∧
    (StatePrepareSuspend nackTimeoutResponses s1World).2.1.clients.map
        (fun c => c.prepare_suspend_vote) = [Vote.Ack, Vote.Nack] ∧
    (SuspendStateUpdate nackTimeoutOracle kPowerEventIdleEvent s1World).map
        (fun p => (p.2.filter isStateChange, p.1.clients.map fun c => c.prepare_suspend_vote)) =
      some ([Effect.StateChange kPowerStateOn kPowerStateOnIdle,
             Effect.StateChange kPowerStateOnIdle kPowerStateSuspendRequest,
             Effect.StateChange kPowerStateSuspendRequest kPowerStatePrepareSuspend,
             Effect.StateChange kPowerStatePrepareSuspend kPowerStateSleep,
             Effect.StateChange kPowerStateSleep kPowerStateKernelResume],
            [Vote.Ack, Vote.Nack]) := by
  decide

/-- C3 (amended): in every run, `Sleep` is entered from `PrepareSuspend` only, and
`StatePrepareSuspend` returns `Sleep` only if its wait timed out or every client's phase-2 vote
is `Ack` when it finishes; when the wait did not time out and some client's phase-2 vote is
`Nack`, it returns `AbortSuspend`. -/
theorem no_suspend_under_veto (o : Nat → Responses) (evs : List PowerEvent) (r : Responses)
    (w : World) :
    (w.gCurrentStateNode ≠ kPowerStateLast →
      ∃ w' effs, processEvents o evs w = some (w', effs) ∧
        ∀ a, Effect.StateChange a kPowerStateSleep ∈ effs → a = kPowerStatePrepareSuspend) ∧
    ((StatePrepareSuspend r w).1 = kPowerStateSleep →
      (PwrEventClientsApprovePrepareSuspend (r.votes_on_broadcast w.clients) = false ∧
        r.wait_result ≠ 0) ∨
      ∀ c ∈ (StatePrepareSuspend r w).2.1.clients, c.prepare_suspend_vote = Vote.Ack) ∧
    (¬(PwrEventClientsApprovePrepareSuspend (r.votes_on_broadcast w.clients) = false ∧
        r.wait_result ≠ 0) →
      (∃ c ∈ (StatePrepareSuspend r w).2.1.clients, c.prepare_suspend_vote = Vote.Nack) →
      (StatePrepareSuspend r w).1 = kPowerStateAbortSuspend) := by
  have key : (PwrEventClientsApprovePrepareSuspend (r.votes_on_broadcast w.clients) = false ∧
        r.wait_result ≠ 0) ∨
      (∀ c ∈ (StatePrepareSuspend r w).2.1.clients, c.prepare_suspend_vote = Vote.Ack) ∨
      (StatePrepareSuspend r w).1 = kPowerStateAbortSuspend := by
    rw [StatePrepareSuspend_clients, StatePrepareSuspend_next]
    cases h0 : PwrEventClientsApprovePrepareSuspend (r.votes_on_broadcast w.clients)
    · by_cases ht : r.wait_result = 0
      · cases h1 : PwrEventClientsApprovePrepareSuspend
            (r.votes_during_wait (r.votes_on_broadcast w.clients))
        · right; right; simp [ht]
        · right; left
          simpa using all_Ack_of_approve _ h1
      · left; exact ⟨rfl, ht⟩
    · right; left
      simpa using all_Ack_of_approve _ h0
  refine ⟨fun hw => ?_, fun hs => ?_, fun hnt hn => ?_⟩
  · obtain ⟨w', effs, hrun, hedge⟩ := processEvents_spec o evs w hw
    exact ⟨w', effs, hrun, fun a ha => documentedEdge_into_Sleep a (hedge _ _ ha)⟩
  · rcases key with h | h | h
    · exact Or.inl h
    · exact Or.inr h
    · rw [h] at hs; exact absurd hs (by simp)
  · rcases key with h | h | h
    · exact absurd h hnt
    · obtain ⟨c, hc, hv⟩ := hn
      rw [h c hc] at hv
      exact absurd hv (by simp)
    · exact h

/-- Scenario S1 for C3: both clients acknowledge phase 2 and `Sleep` is entered. -/
theorem no_suspend_under_veto_witness :
    (StatePrepareSuspend s1Responses s1World).1 = kPowerStateSleep ∧
    ((PwrEventClientsApprovePrepareSuspend (s1Responses.votes_on_broadcast s1World.clients) = false ∧
        s1Responses.wait_result ≠ 0) ∨
      ∀ c ∈ (StatePrepareSuspend s1Responses s1World).2.1.clients,
        c.prepare_suspend_vote = Vote.Ack) :=
  ⟨by decide, (no_suspend_under_veto s1Oracle [] s1Responses s1World).2.1 (by decide)⟩

/-- C4: `StateOnIdle` returns `On` exactly when the charger is connected and
`suspend_with_charger` is false, and `SuspendRequest` otherwise; an `IdleDetected` event
processed from `On` on charger ends in `On` after the two state changes
`On → OnIdle → On`, with no broadcast at all. -/
theorem no_suspend_on_charger (o : Nat → Responses) (r : Responses) (w : World) :
    MachineCanSleep w = (!w.chargerIsConnected || w.gSleepConfig.suspend_with_charger) ∧
    ((StateOnIdle r w).1 = kPowerStateOn ↔
      (w.chargerIsConnected = true ∧ w.gSleepConfig.suspend_with_charger = false)) ∧
    ((StateOnIdle r w).1 = kPowerStateSuspendRequest ↔
      ¬(w.chargerIsConnected = true ∧ w.gSleepConfig.suspend_with_charger = false)) ∧
    (w.gCurrentStateNode = kPowerStateOn → w.chargerIsConnected = true →
      w.gSleepConfig.suspend_with_charger = false →
      SuspendStateUpdate o kPowerEventIdleEvent w =
        some ({ w with gSuspendEvent := kPowerEventNone, ticks := w.ticks + 3 },
          [Effect.StateChange kPowerStateOn kPowerStateOnIdle,
           Effect.StateChange kPowerStateOnIdle kPowerStateOn])) := by
  refine ⟨rfl, ?_, ?_, ?_⟩
  · rw [StateOnIdle_next]
    cases h1 : w.chargerIsConnected <;> cases h2 : w.gSleepConfig.suspend_with_charger <;>
      simp [MachineCanSleep, h1, h2]
  · rw [StateOnIdle_next]
    cases h1 : w.chargerIsConnected <;> cases h2 : w.gSleepConfig.suspend_with_charger <;>
      simp [MachineCanSleep, h1, h2]
  · intro hOn hc hs
    have hf : kStateMachine ({ w with gSuspendEvent := kPowerEventIdleEvent } : World).gCurrentStateNode
        = some StateOn := by simp [hOn, kStateMachine]
    rw [SuspendStateUpdate, SuspendStateLoop_succ 11 o _ StateOn hf]
    simp only [StateOn_next, StateOn_world, StateOn_effects, if_true, reduceCtorEq, if_false]
    rw [SuspendStateLoop_succ 10 o _ StateOnIdle (by simp [kStateMachine])]
    simp only [StateOnIdle_next, StateOnIdle_world, StateOnIdle_effects, MachineCanSleep, hc, hs]
    simp only [Bool.not_true, Bool.or_self, Bool.false_eq_true, if_false, reduceCtorEq]
    rw [SuspendStateLoop_succ 9 o _ StateOn (by simp [kStateMachine])]
    simp [StateOn_next, StateOn_world, StateOn_effects, hOn]

/-- Scenario S6 for C4: the idle event is processed on charger. -/
theorem no_suspend_on_charger_witness :
    s6World.gCurrentStateNode = kPowerStateOn ∧ s6World.chargerIsConnected = true ∧
      s6World.gSleepConfig.suspend_with_charger = false ∧
      SuspendStateUpdate s1Oracle kPowerEventIdleEvent s6World =
        some ({ s6World with gSuspendEvent := kPowerEventNone, ticks := s6World.ticks + 3 },
          [Effect.StateChange kPowerStateOn kPowerStateOnIdle,
           Effect.StateChange kPowerStateOnIdle kPowerStateOn]) :=
  ⟨by decide, by decide, by decide,
    (no_suspend_on_charger s1Oracle s1Responses s6World).2.2.2 (by decide) (by decide) (by decide)⟩

/-- C5: in `On`, `ForceSuspend` moves to `SuspendRequest`, `IdleDetected` moves to `OnIdle`, every
other event is ignored and ends the run after this one state function with the machine still
in `On`; `StateOn` always leaves the pending event at `None`. -/
theorem StateOn_event_table (o : Nat → Responses) (r : Responses) (w : World)
    (hOn : w.gCurrentStateNode = kPowerStateOn) :
    (StateOn r w).2.1.gSuspendEvent = kPowerEventNone ∧
    (w.gSuspendEvent = kPowerEventForceSuspend → (StateOn r w).1 = kPowerStateSuspendRequest) ∧
    (w.gSuspendEvent = kPowerEventIdleEvent → (StateOn r w).1 = kPowerStateOnIdle) ∧
    (w.gSuspendEvent ≠ kPowerEventForceSuspend → w.gSuspendEvent ≠ kPowerEventIdleEvent →
      (StateOn r w).1 = kPowerStateLast) ∧
    (∃ w' rest, SuspendStateUpdate o kPowerEventForceSuspend w =
        some (w', Effect.StateChange kPowerStateOn kPowerStateSuspendRequest :: rest)) ∧
    (∃ w' rest, SuspendStateUpdate o kPowerEventIdleEvent w =
        some (w', Effect.StateChange kPowerStateOn kPowerStateOnIdle :: rest)) ∧
    (∀ ev, ev ≠ kPowerEventForceSuspend → ev ≠ kPowerEventIdleEvent →
      SuspendStateUpdate o ev w =
        some ({ w with gSuspendEvent := kPowerEventNone, ticks := w.ticks + 1 }, [])) := by
  refine ⟨rfl, ?_, ?_, ?_, ?_, ?_, ?_⟩
  · intro h; rw [StateOn_next, if_pos h]
  · intro h; rw [StateOn_next, if_neg (by simp [h]), if_pos h]
  · intro h1 h2; rw [StateOn_next, if_neg h1, if_neg h2]
  · have hf : kStateMachine ({ w with gSuspendEvent := kPowerEventForceSuspend } : World).gCurrentStateNode
        = some StateOn := by simp [hOn, kStateMachine]
    obtain ⟨w', effs, hrun, -⟩ := SuspendStateLoop_spec o 11
      { w with gSuspendEvent := kPowerEventNone, ticks := w.ticks + 1,
               gCurrentStateNode := kPowerStateSuspendRequest } (by simp) (by simp [loopRank, eventActive])
    refine ⟨w', effs, ?_⟩
    rw [SuspendStateUpdate, SuspendStateLoop_succ 11 o _ StateOn hf]
    simp [StateOn_next, StateOn_world, StateOn_effects, hrun, hOn]
  · have hf : kStateMachine ({ w with gSuspendEvent := kPowerEventIdleEvent } : World).gCurrentStateNode
        = some StateOn := by simp [hOn, kStateMachine]
    obtain ⟨w', effs, hrun, -⟩ := SuspendStateLoop_spec o 11
      { w with gSuspendEvent := kPowerEventNone, ticks := w.ticks + 1,
               gCurrentStateNode := kPowerStateOnIdle } (by simp) (by simp [loopRank, eventActive])
    refine ⟨w', effs, ?_⟩
    rw [SuspendStateUpdate, SuspendStateLoop_succ 11 o _ StateOn hf]
    simp [StateOn_next, StateOn_world, StateOn_effects, hrun, hOn]
  · intro ev h1 h2
    have hf : kStateMachine ({ w with gSuspendEvent := ev } : World).gCurrentStateNode
        = some StateOn := by simp [hOn, kStateMachine]
    rw [SuspendStateUpdate, SuspendStateLoop_succ 11 o _ StateOn hf]
    simp [StateOn_next, StateOn_world, StateOn_effects, h1, h2]

/-- A `VoteChanged` event processed in `On` is ignored. -/
theorem StateOn_event_table_witness :
    s1World.gCurrentStateNode = kPowerStateOn ∧
      SuspendStateUpdate s1Oracle kPowerEventVoteChanged s1World =
        some ({ s1World with gSuspendEvent := kPowerEventNone, ticks := s1World.ticks + 1 }, []) :=
  ⟨by decide,
    (StateOn_event_table s1Oracle s1Responses s1World (by decide)).2.2.2.2.2.2
      kPowerEventVoteChanged (by decide) (by decide)⟩

/-- C6: when the activity check of `StateSleep` fails, `StateSleep` returns `ActivityResume` without
queueing the wake alarm or calling the platform suspend; the run then broadcasts
`Resume(activity)` and ends in `On`, both from `Sleep` onwards and in every run started from
`On` by `IdleDetected` that takes the edge `Sleep → ActivityResume`. -/
theorem activity_race_resumes (o : Nat → Responses) (r : Responses) (w : World) :
    (w.gSuspendEvent ≠ kPowerEventForceSuspend → r.activities_idle = false →
      (StateSleep r w).1 = kPowerStateActivityResume ∧
      (StateSleep r w).2.1.sTimeOnSuspended = r.clock ∧
      (Effect.PwrEventActivityCheckActivitiesActive r.clock ∈ (StateSleep r w).2.2 ∨
        Effect.PwrEventFreezeActivities r.clock ∈ (StateSleep r w).2.2) ∧
      Effect.queue_next_wakeup ∉ (StateSleep r w).2.2 ∧
      Effect.nyx_system_suspend_async ∉ (StateSleep r w).2.2) ∧
    (∀ n, w.gCurrentStateNode = kPowerStateSleep → eventActive w.gSuspendEvent = false →
      (o w.ticks).activities_idle = false →
      ∃ w' effs, SuspendStateLoop (n + 3) o w = some (w', effs) ∧
        w'.gCurrentStateNode = kPowerStateOn ∧
        Effect.StateChange kPowerStateSleep kPowerStateActivityResume ∈ effs ∧
        Effect.queue_next_wakeup ∉ effs ∧ Effect.nyx_system_suspend_async ∉ effs ∧
        Effect.SendResume ResumeType.kResumeTypeActivity "resume (pwrevent_activity)" ∈ effs) ∧
    (w.gCurrentStateNode = kPowerStateOn →
      ∃ w' effs, SuspendStateUpdate o kPowerEventIdleEvent w = some (w', effs) ∧
        (Effect.StateChange kPowerStateSleep kPowerStateActivityResume ∈ effs →
          w'.gCurrentStateNode = kPowerStateOn ∧
          Effect.queue_next_wakeup ∉ effs ∧ Effect.nyx_system_suspend_async ∉ effs ∧
          Effect.SendResume ResumeType.kResumeTypeActivity "resume (pwrevent_activity)" ∈ effs)) := by
  have hfun : ∀ (r : Responses) (w : World), w.gSuspendEvent ≠ kPowerEventForceSuspend →
      r.activities_idle = false → (StateSleep r w).1 = kPowerStateActivityResume := by
    intro r w hev hidle
    rw [StateSleep_next, if_pos ⟨hev, hidle⟩]
  refine ⟨fun hev hidle => ?_, ?_, ?_⟩
  · have h := hfun r w hev hidle
    refine ⟨h, ?_, ?_, StateSleep_activity_effects r w h⟩
    · rw [StateSleep_eq]
      simp only [if_pos hev]
      exact CheckActivitiesActive_sTimeOnSuspended _ _ _
    · rw [StateSleep_eq]
      simp only [if_pos hev, CheckActivitiesActive_effects]
      split_ifs <;> simp
  · intro n hs hin hidle
    have hev : w.gSuspendEvent ≠ kPowerEventForceSuspend := by
      intro h; rw [h] at hin; simp [eventActive] at hin
    obtain ⟨w', effs, hrun, -, -⟩ := SuspendStateLoop_spec o (n + 3) w (by rw [hs]; simp)
      (by rw [hs, hin]; simp [loopRank])
    have hsh := SuspendStateLoop_shape o (n + 3) w w' effs hin hrun
    have hnext := hfun (o w.ticks) w hev hidle
    have hmem : Effect.StateChange kPowerStateSleep kPowerStateActivityResume ∈ effs := by
      rw [SuspendStateLoop_succ (n + 2) o w StateSleep (by rw [hs]; rfl)] at hrun
      simp only [hnext, reduceCtorEq, if_false, hs] at hrun
      cases hq : SuspendStateLoop (n + 2) o
          { (StateSleep (o w.ticks) w).2.1 with
            ticks := (StateSleep (o w.ticks) w).2.1.ticks + 1,
            gCurrentStateNode := kPowerStateActivityResume } with
      | none => rw [hq] at hrun; simp at hrun
      | some q =>
        rw [hq] at hrun
        simp only [Option.map_some', Option.some.injEq, Prod.mk.injEq] at hrun
        rw [← hrun.2]
        simp
    rw [hs] at hsh
    obtain ⟨h1, h2, h3, h4⟩ := RunShape_activity hsh hmem
    exact ⟨w', effs, hrun, h1, hmem, h2, h3, h4⟩
  · intro hOn
    obtain ⟨w', effs, hrun, hc⟩ := SuspendStateUpdate_from_On o kPowerEventIdleEvent w hOn
    refine ⟨w', effs, hrun, fun hm => ?_⟩
    rcases hc with ⟨-, he, -⟩ | ⟨hF, -⟩ | ⟨-, rest, he, hsh⟩
    · rw [he] at hm; simp at hm
    · simp at hF
    · rw [he] at hm ⊢
      simp only [List.mem_cons, Effect.StateChange.injEq, reduceCtorEq, false_and, false_or] at hm
      obtain ⟨h1, h2, h3, h4⟩ := RunShape_activity hsh hm
      exact ⟨h1, by simp [h2], by simp [h3], by simp [h4]⟩

/-- Scenario S5 for C6: the activity check fails in `Sleep`. -/
theorem activity_race_resumes_witness :
    s1Asleep.gSuspendEvent ≠ kPowerEventForceSuspend ∧ s5Responses.activities_idle = false ∧
      (StateSleep s5Responses s1Asleep).1 = kPowerStateActivityResume ∧
      ∃ w' effs, SuspendStateLoop 3 s5Oracle s1Asleep = some (w', effs) ∧
        w'.gCurrentStateNode = kPowerStateOn ∧
        Effect.StateChange kPowerStateSleep kPowerStateActivityResume ∈ effs ∧
        Effect.queue_next_wakeup ∉ effs ∧ Effect.nyx_system_suspend_async ∉ effs ∧
        Effect.SendResume ResumeType.kResumeTypeActivity "resume (pwrevent_activity)" ∈ effs :=
  ⟨by decide, by decide,
    ((activity_race_resumes s5Oracle s5Responses s1Asleep).1 (by decide) (by decide)).1,
    (activity_race_resumes s5Oracle s5Responses s1Asleep).2.1 0 (by decide) (by decide)
      (by decide)⟩

/-- C7: once the activity check of `StateSleep` has passed (or is skipped), the next state is
`AbortSuspend` if `MachineCanSleep` is false, if `queue_next_wakeup` fails, or if `MachineSleep`
fails (nyx error or `success = false`); it is `KernelResume` exactly when all three succeed.
The platform suspend is never called after `queue_next_wakeup` has failed. -/
theorem StateSleep_recoverable_failures (r : Responses) (w : World)
    (hpass : w.gSuspendEvent = kPowerEventForceSuspend ∨ r.activities_idle = true) :
    (MachineCanSleep w = false → (StateSleep r w).1 = kPowerStateAbortSuspend) ∧
    (r.queue_next_wakeup = false → (StateSleep r w).1 = kPowerStateAbortSuspend) ∧
    (MachineSleep r = false → (StateSleep r w).1 = kPowerStateAbortSuspend) ∧
    (MachineSleep r = false ↔ (r.nyx_error ≠ 0 ∨ r.nyx_success = false)) ∧
    ((StateSleep r w).1 = kPowerStateKernelResume ↔
      (MachineCanSleep w = true ∧ r.queue_next_wakeup = true ∧ MachineSleep r = true)) ∧
    (r.queue_next_wakeup = false → Effect.nyx_system_suspend_async ∉ (StateSleep r w).2.2) := by
  have hc : ¬(w.gSuspendEvent ≠ kPowerEventForceSuspend ∧ r.activities_idle = false) := by
    rintro ⟨h1, h2⟩
    rcases hpass with h | h
    · exact h1 h
    · rw [h] at h2; simp at h2
  refine ⟨?_, ?_, ?_, ?_, ?_, ?_⟩
  · intro h; rw [StateSleep_next, if_neg hc, if_pos h]
  · intro h; rw [StateSleep_next, if_neg hc]; split_ifs <;> rfl
  · intro h; rw [StateSleep_next, if_neg hc]; split_ifs <;> rfl
  · unfold MachineSleep
    by_cases h : r.nyx_error = 0 <;> simp [h]
  · rw [StateSleep_next, if_neg hc]
    cases h1 : MachineCanSleep w <;> cases h2 : r.queue_next_wakeup <;>
      cases h3 : MachineSleep r <;> simp
  · intro h
    rw [StateSleep_eq]
    simp only [CheckActivitiesActive_effects, h]
    split_ifs <;> simp

/-- Scenario S1 for C7: the check passes, the alarm is queued, the platform suspends. -/
theorem StateSleep_recoverable_failures_witness :
    (s1Asleep.gSuspendEvent = kPowerEventForceSuspend ∨ s1Responses.activities_idle = true) ∧
      (StateSleep s1Responses s1Asleep).1 = kPowerStateKernelResume :=
  ⟨Or.inr (by decide),
    (StateSleep_recoverable_failures s1Responses s1Asleep (Or.inr (by decide))).2.2.2.2.1.2
      ⟨by decide, by decide, by decide⟩⟩

/-- C8, as stated, fails: with an activity active at the check, the machine leaves `Sleep` for
`ActivityResume`, not for `AbortSuspend`. -/
theorem sleep_entry_activity_not_abort :
    s5Responses.activities_idle = false ∧
    (StateSleep s5Responses s1Asleep).1 = kPowerStateActivityResume ∧
    (StateSleep s5Responses s1Asleep).1 ≠ kPowerStateAbortSuspend := by
  decide

/-- C8 (amended): on entry to `Sleep`, a failed activity check sends the machine to
`ActivityResume`; with the check passed or skipped, `MachineCanSleep` false or a failing
`queue_next_wakeup` sends it to `AbortSuspend`, in both cases without calling the platform
suspend; otherwise the platform suspend is called. -/
theorem StateSleep_entry_row (r : Responses) (w : World) :
    (w.gSuspendEvent ≠ kPowerEventForceSuspend → r.activities_idle = false →
      (StateSleep r w).1 = kPowerStateActivityResume ∧
      Effect.nyx_system_suspend_async ∉ (StateSleep r w).2.2) ∧
    ((w.gSuspendEvent = kPowerEventForceSuspend ∨ r.activities_idle = true) →
      (MachineCanSleep w = false ∨ r.queue_next_wakeup = false) →
      (StateSleep r w).1 = kPowerStateAbortSuspend ∧
      Effect.nyx_system_suspend_async ∉ (StateSleep r w).2.2) ∧
    ((w.gSuspendEvent = kPowerEventForceSuspend ∨ r.activities_idle = true) →
      MachineCanSleep w = true → r.queue_next_wakeup = true →
      Effect.nyx_system_suspend_async ∈ (StateSleep r w).2.2) := by
  refine ⟨fun hev hidle => ?_, fun hpass hfail => ?_, fun hpass h1 h2 => ?_⟩
  · have h : (StateSleep r w).1 = kPowerStateActivityResume := by
      rw [StateSleep_next, if_pos ⟨hev, hidle⟩]
    exact ⟨h, (StateSleep_activity_effects r w h).2⟩
  · have hc : ¬(w.gSuspendEvent ≠ kPowerEventForceSuspend ∧ r.activities_idle = false) := by
      rintro ⟨h1, h2⟩
      rcases hpass with h | h
      · exact h1 h
      · rw [h] at h2; simp at h2
    constructor
    · rw [StateSleep_next, if_neg hc]
      rcases hfail with h | h
      · rw [if_pos h]
      · split_ifs <;> rfl
    · rw [StateSleep_eq]
      simp only [CheckActivitiesActive_effects]
      rcases hfail with h | h <;> simp only [h] <;> split_ifs <;> simp_all
  · have hc : ¬(w.gSuspendEvent ≠ kPowerEventForceSuspend ∧ r.activities_idle = false) := by
      rintro ⟨h1, h2⟩
      rcases hpass with h | h
      · exact h1 h
      · rw [h] at h2; simp at h2
    rw [StateSleep_eq]
    simp only [if_neg hc, h1, h2]
    simp

/-- Scenario S5 for C8: the failed check leads to `ActivityResume`. -/
theorem StateSleep_entry_row_witness :
    s1Asleep.gSuspendEvent ≠ kPowerEventForceSuspend ∧ s5Responses.activities_idle = false ∧
      (StateSleep s5Responses s1Asleep).1 = kPowerStateActivityResume ∧
      Effect.nyx_system_suspend_async ∈ (StateSleep s1Responses s1Asleep).2.2 :=
  ⟨by decide, by decide,
    ((StateSleep_entry_row s5Responses s1Asleep).1 (by decide) (by decide)).1,
    (StateSleep_entry_row s1Responses s1Asleep).2.2 (Or.inr (by decide)) (by decide) (by decide)⟩

/-- C9: `StateKernelResume` and `StateActivityResume` call the platform wakeup, thaw exactly when
the platform has no wakelocks, broadcast `Resume` of kind kernel resp. activity, record the
wake time, schedule the idle check after `after_resume_idle_ms` and return `On`;
`StateAbortSuspend` thaws under the same condition, broadcasts `Resume` of kind abort and
returns `On`. -/
theorem resume_states_actions (r : Responses) (w : World) :
    ((StateKernelResume r w).1 = kPowerStateOn ∧
      (StateKernelResume r w).2.2 =
        [Effect.nyx_system_resume]
          ++ (if (MachineSupportsWakelocks r w).1 then [] else [Effect.PwrEventThawActivities])
          ++ [Effect.SendResume ResumeType.kResumeTypeKernel "resume (kernel)",
              Effect.sawmill_logger_record_wake,
              Effect.ScheduleIdleCheck w.gSleepConfig.after_resume_idle_ms false] ∧
      (StateKernelResume r w).2.1.sTimeOnWake = r.clock ∧
      (StateKernelResume r w).2.1.idle_scheduler =
        w.idle_scheduler.map fun t =>
          { t with interval_ms := w.gSleepConfig.after_resume_idle_ms, from_poll := false }) ∧
    ((StateActivityResume r w).1 = kPowerStateOn ∧
      (StateActivityResume r w).2.2 =
        [Effect.nyx_system_resume]
          ++ (if (MachineSupportsWakelocks r w).1 then [] else [Effect.PwrEventThawActivities])
          ++ [Effect.SendResume ResumeType.kResumeTypeActivity "resume (pwrevent_activity)",
              Effect.sawmill_logger_record_wake,
              Effect.ScheduleIdleCheck w.gSleepConfig.after_resume_idle_ms false] ∧
      (StateActivityResume r w).2.1.sTimeOnWake = r.clock ∧
      (StateActivityResume r w).2.1.idle_scheduler =
        w.idle_scheduler.map fun t =>
          { t with interval_ms := w.gSleepConfig.after_resume_idle_ms, from_poll := false }) ∧
    ((StateAbortSuspend r w).1 = kPowerStateOn ∧
      (StateAbortSuspend r w).2.2 =
        (if (MachineSupportsWakelocks r w).1 then [] else [Effect.PwrEventThawActivities])
          ++ [Effect.SendResume ResumeType.kResumeAbortSuspend "resume (suspend aborted)"]) := by
  have hk : "resume (" ++ resume_type_descriptions.getD ResumeType.kResumeTypeKernel.toNat "" ++ ")"
      = "resume (kernel)" := by decide
  have ha : "resume (" ++ resume_type_descriptions.getD ResumeType.kResumeTypeActivity.toNat "" ++ ")"
      = "resume (pwrevent_activity)" := by decide
  have hs : ∀ t : ResumeType, (_stateResume t r w).2.1.idle_scheduler =
      w.idle_scheduler.map fun t =>
          { t with interval_ms := w.gSleepConfig.after_resume_idle_ms, from_poll := false } := by
    intro t
    have h1 := MachineSupportsWakelocks_idle_scheduler r w
    rw [_stateResume_eq]
    unfold ScheduleIdleCheck
    cases h : (MachineSupportsWakelocks r w).1 <;> simp only [] <;>
      cases h2 : w.idle_scheduler <;> simp_all
  have hw : ∀ t : ResumeType, (_stateResume t r w).2.1.sTimeOnWake = r.clock := by
    intro t
    rw [_stateResume_eq]
    unfold ScheduleIdleCheck
    simp only []
    split <;> rfl
  refine ⟨⟨rfl, ?_, hw _, hs _⟩, ⟨rfl, ?_, hw _, hs _⟩, rfl, ?_⟩
  · rw [StateKernelResume, _stateResume_eq, hk]
  · rw [StateActivityResume, _stateResume_eq, ha]
  · rw [StateAbortSuspend_eq]

/-- C10: for every event sequence and every behaviour of the collaborators, processing the events
returns, and each state change made by `SuspendStateUpdate` is one of the fourteen edges of
`documentedEdge`. -/
theorem monotonicity_of_cycle (o : Nat → Responses) (evs : List PowerEvent) (w : World)
    (hw : w.gCurrentStateNode ≠ kPowerStateLast) :
    ∃ w' effs, processEvents o evs w = some (w', effs) ∧
      ∀ a b, Effect.StateChange a b ∈ effs →
        (a, b) ∈ [(kPowerStateOn, kPowerStateSuspendRequest), (kPowerStateOn, kPowerStateOnIdle),
          (kPowerStateOnIdle, kPowerStateOn), (kPowerStateOnIdle, kPowerStateSuspendRequest),
          (kPowerStateSuspendRequest, kPowerStatePrepareSuspend),
          (kPowerStateSuspendRequest, kPowerStateOn),
          (kPowerStatePrepareSuspend, kPowerStateSleep),
          (kPowerStatePrepareSuspend, kPowerStateAbortSuspend),
          (kPowerStateSleep, kPowerStateKernelResume),
          (kPowerStateSleep, kPowerStateActivityResume),
          (kPowerStateSleep, kPowerStateAbortSuspend),
          (kPowerStateKernelResume, kPowerStateOn), (kPowerStateActivityResume, kPowerStateOn),
          (kPowerStateAbortSuspend, kPowerStateOn)] := by
  obtain ⟨w', effs, hrun, hedge⟩ := processEvents_spec o evs w hw
  refine ⟨w', effs, hrun, fun a b hab => ?_⟩
  have h := hedge a b hab
  revert h
  cases a <;> cases b <;> simp [documentedEdge]

/-- Scenario S1 for C10: the idle event and the resume event that follows the suspend. -/
theorem monotonicity_of_cycle_witness :
    s1World.gCurrentStateNode ≠ kPowerStateLast ∧
      (processEvents s1Oracle [kPowerEventIdleEvent, kPowerEventResumedByKernel] s1World).map
          (fun p => p.2.filter isStateChange) =
        some [Effect.StateChange kPowerStateOn kPowerStateOnIdle,
              Effect.StateChange kPowerStateOnIdle kPowerStateSuspendRequest,
              Effect.StateChange kPowerStateSuspendRequest kPowerStatePrepareSuspend,
              Effect.StateChange kPowerStatePrepareSuspend kPowerStateSleep,
              Effect.StateChange kPowerStateSleep kPowerStateKernelResume,
              Effect.StateChange kPowerStateKernelResume kPowerStateOn] ∧
      ∃ w' effs, processEvents s1Oracle [kPowerEventIdleEvent, kPowerEventResumedByKernel]
          s1World = some (w', effs) :=
  ⟨by decide, by decide,
    let ⟨w', effs, h, _⟩ := monotonicity_of_cycle s1Oracle
      [kPowerEventIdleEvent, kPowerEventResumedByKernel] s1World (by decide)
    ⟨w', effs, h⟩⟩

/-! ## Lemmas on the idle evaluator -/

theorem wrapInt32_id (x : Int) (h1 : -2147483648 ≤ x) (h2 : x < 2147483648) :
    wrapInt32 x = x := by
  unfold wrapInt32
  omega

theorem wrapInt32_range (x : Int) : -2147483648 ≤ wrapInt32 x ∧ wrapInt32 x < 2147483648 := by
  unfold wrapInt32
  omega

theorem timespec.toNs_ofNs (n : Int) : (timespec.ofNs n).toNs = n := by
  unfold timespec.toNs timespec.ofNs
  show n / 1000000000 * 1000000000 + n % 1000000000 = n
  omega

theorem floorPending_iff (r : IdleResponses) (w : World) :
    floorPending r w = true ↔
      r.clock.toNs < w.sTimeOnWake.toNs + w.gSleepConfig.after_resume_idle_ms * 1000000 := by
  unfold floorPending ClockTimeIsGreater ClockAccumMs
  rw [timespec.toNs_ofNs]
  simp

theorem postedEvents_append (a b : List Effect) :
    postedEvents (a ++ b) = postedEvents a ++ postedEvents b := by
  simp [postedEvents, List.filterMap_append]

theorem rearmIntervals_append (a b : List Effect) :
    rearmIntervals (a ++ b) = rearmIntervals a ++ rearmIntervals b := by
  simp [rearmIntervals, List.filterMap_append]

theorem IdleCheck_body_display_on (r : IdleResponses) (w : World) (h : w.gDisplayIsOn = true) :
    IdleCheck_body r w = (r.stack_now, 0, []) := by
  simp [IdleCheck_body, IsDisplayOn, h]

theorem IdleCheck_body_floor (r : IdleResponses) (w : World) (h : w.gDisplayIsOn = false)
    (hf : floorPending r w = true) :
    IdleCheck_body r w =
      (r.clock, wrapInt32 (ClockGetMs (ClockDiff
        (ClockAccumMs w.sTimeOnWake w.gSleepConfig.after_resume_idle_ms) r.clock)), []) := by
  unfold floorPending at hf
  simp [IdleCheck_body, IsDisplayOn, h, hf]

theorem IdleCheck_body_alarm (r : IdleResponses) (w : World) (h : w.gDisplayIsOn = false)
    (hf : floorPending r w = false) (ha : alarmNear r w = true) :
    IdleCheck_body r w = (r.clock, 0, idleQueries r w) := by
  unfold floorPending at hf
  unfold alarmNear at ha
  unfold IdleCheck_body IsDisplayOn idleQueries
  simp only [h, hf, Bool.not_false, if_true]
  cases hn : r.next_wakeup with
  | none => rw [hn] at ha; simp at ha
  | some expiry =>
    rw [hn] at ha
    have ha' : (decide (0 ≤ wrapInt32 (expiry - r.reference_time)) &&
        decide (wrapInt32 (expiry - r.reference_time) ≤ w.gSleepConfig.wait_alarms_s)) = true :=
      ha
    simp only [ge_iff_le]
    rw [if_pos ha']

theorem IdleCheck_body_ready (r : IdleResponses) (w : World) (h : w.gDisplayIsOn = false)
    (hf : floorPending r w = false) (ha : alarmNear r w = false) :
    IdleCheck_body r w =
      (r.clock, 0, idleQueries r w ++ [Effect.access_suspend_active] ++
        (if (r.suspend_active && r.activity_can_sleep r.clock) = true then
          [Effect.TriggerSuspend "device is idle." kPowerEventIdleEvent] else [])) := by
  unfold floorPending at hf
  unfold alarmNear at ha
  unfold IdleCheck_body IsDisplayOn idleQueries
  simp only [h, hf, Bool.not_false, if_true]
  cases hn : r.next_wakeup with
  | none =>
    simp only [Bool.false_eq_true, if_false]
    split_ifs <;> simp
  | some expiry =>
    rw [hn] at ha
    have ha' : ¬(decide (0 ≤ wrapInt32 (expiry - r.reference_time)) &&
        decide (wrapInt32 (expiry - r.reference_time) ≤ w.gSleepConfig.wait_alarms_s)) = true := by
      intro hc
      have : (decide (0 ≤ wrapInt32 (expiry - r.reference_time)) &&
        decide (wrapInt32 (expiry - r.reference_time) ≤ w.gSleepConfig.wait_alarms_s)) = false :=
        ha
      rw [this] at hc
      exact absurd hc (by simp)
    simp only [ge_iff_le]
    rw [if_neg ha']
    split_ifs <;> simp

theorem idleQueries_posted (r : IdleResponses) (w : World) :
    postedEvents (idleQueries r w) = [] := by
  unfold idleQueries postedEvents
  split_ifs <;> rfl

theorem IdleCheck_body_posted (r : IdleResponses) (w : World) :
    postedEvents (IdleCheck_body r w).2.2 =
      if (!w.gDisplayIsOn && !floorPending r w && !alarmNear r w &&
          r.suspend_active && r.activity_can_sleep r.clock) = true
      then [kPowerEventIdleEvent] else [] := by
  cases h1 : w.gDisplayIsOn
  · cases h2 : floorPending r w
    · cases h3 : alarmNear r w
      · rw [IdleCheck_body_ready r w h1 h2 h3]
        simp only [postedEvents_append, idleQueries_posted]
        cases h4 : r.suspend_active <;> cases h5 : r.activity_can_sleep r.clock <;>
          simp [postedEvents]
      · rw [IdleCheck_body_alarm r w h1 h2 h3]
        simp [idleQueries_posted]
    · rw [IdleCheck_body_floor r w h1 h2]
      simp [postedEvents]
  · rw [IdleCheck_body_display_on r w h1]
    simp [postedEvents]

theorem IdleCheck_posted (r : IdleResponses) (w : World) :
    postedEvents (IdleCheck r w).2 =
      if idleDetected r w = true then [kPowerEventIdleEvent] else [] := by
  unfold IdleCheck idleDetected
  by_cases hk : w.gCurrentStateNode = kPowerStateKernelResume
  · simp [hk, postedEvents]
  · simp only [if_neg hk, postedEvents_append, IdleCheck_body_posted]
    simp [hk, postedEvents]



theorem postedEvents_eq_nil (l : List Effect) (h : postedEvents l = []) :
    ∀ reason ev, Effect.TriggerSuspend reason ev ∉ l := by
  intro reason ev hm
  have : ev ∈ postedEvents l := by
    unfold postedEvents
    rw [List.mem_filterMap]
    exact ⟨_, hm, rfl⟩
  rw [h] at this
  simp at this

theorem IdleCheck_KernelResume (r : IdleResponses) (w : World)
    (h : w.gCurrentStateNode = kPowerStateKernelResume) : IdleCheck r w = (w, []) := by
  simp [IdleCheck, h]

theorem IdleCheck_effects (r : IdleResponses) (w : World)
    (h : w.gCurrentStateNode ≠ kPowerStateKernelResume) :
    (IdleCheck r w).2 =
      (IdleCheck_body r w).2.2 ++
        [Effect.PwrEventActivityGetMaxDuration (IdleCheck_body r w).1,
         Effect.ScheduleIdleCheck
           (wrapInt32
             (max (max w.gSleepConfig.wait_idle_ms (r.max_duration_ms (IdleCheck_body r w).1))
               (IdleCheck_body r w).2.1)) true] := by
  have key : ∀ a b c : Int,
      (if c > (if b > a then b else a) then c else (if b > a then b else a)) =
        max (max a b) c := by
    intro a b c
    simp only [max_def]
    split_ifs <;> omega
  unfold IdleCheck
  simp only [if_neg h, key]

theorem IdleCheck_body_rearm (r : IdleResponses) (w : World) :
    rearmIntervals (IdleCheck_body r w).2.2 = [] := by
  cases h1 : w.gDisplayIsOn
  · cases h2 : floorPending r w
    · cases h3 : alarmNear r w
      · rw [IdleCheck_body_ready r w h1 h2 h3]
        unfold idleQueries rearmIntervals
        split_ifs <;> rfl
      · rw [IdleCheck_body_alarm r w h1 h2 h3]
        unfold idleQueries rearmIntervals
        split_ifs <;> rfl
    · rw [IdleCheck_body_floor r w h1 h2]; rfl
  · rw [IdleCheck_body_display_on r w h1]; rfl

theorem IdleCheck_rearm (r : IdleResponses) (w : World)
    (h : w.gCurrentStateNode ≠ kPowerStateKernelResume) :
    rearmIntervals (IdleCheck r w).2 =
      [wrapInt32 (max (max w.gSleepConfig.wait_idle_ms (r.max_duration_ms (IdleCheck_body r w).1))
        (IdleCheck_body r w).2.1)] := by
  rw [IdleCheck_effects r w h, rearmIntervals_append, IdleCheck_body_rearm]
  rfl

theorem IdleCheck_world (r : IdleResponses) (w : World) :
    (IdleCheck r w).1.sTimeOnWake = w.sTimeOnWake ∧
      (IdleCheck r w).1.gSleepConfig = w.gSleepConfig := by
  unfold IdleCheck ScheduleIdleCheck
  split_ifs
  · exact ⟨rfl, rfl⟩
  · simp only []
    split <;> exact ⟨rfl, rfl⟩

theorem MachineSupportsWakelocks_sTimeOnWake (r : Responses) (w : World) :
    (MachineSupportsWakelocks r w).2.sTimeOnWake = w.sTimeOnWake := by
  unfold MachineSupportsWakelocks
  split_ifs <;> rfl

/-- Only the two wake functions write `sTimeOnWake`. -/
theorem state_sTimeOnWake (s : PowerState) (f : PowerStateProc) (h : kStateMachine s = some f)
    (h1 : s ≠ kPowerStateKernelResume) (h2 : s ≠ kPowerStateActivityResume)
    (r : Responses) (w : World) : (f r w).2.1.sTimeOnWake = w.sTimeOnWake := by
  cases s <;> simp only [kStateMachine, Option.some.injEq, reduceCtorEq] at h <;> subst h
  · rfl
  · rw [StateOnIdle_world]
  · unfold StateSuspendRequest
    simp only []
    split_ifs <;> rfl
  · unfold StatePrepareSuspend
    simp only []
    split_ifs <;> rfl
  · rw [StateSleep_eq]
    simp only []
    split_ifs
    · unfold CheckActivitiesActive
      simp only []
      split_ifs <;> simp [MachineSupportsWakelocks_sTimeOnWake, InstrumentOnSleep]
    · rfl
  · exact absurd rfl h1
  · exact absurd rfl h2
  · rw [StateAbortSuspend_eq]
    simp only []
    split_ifs <;> simp [MachineSupportsWakelocks_sTimeOnWake]

/-- The re-arm rule as the code computes it: the maximum of the three durations, the rest of
the awake floor being stored in an `int`, narrowed to the `int` argument of the re-arm. -/
theorem IdleCheck_rearm_rule (r : IdleResponses) (w : World) :
    (w.gCurrentStateNode = kPowerStateKernelResume → IdleCheck r w = (w, [])) ∧
    (w.gCurrentStateNode ≠ kPowerStateKernelResume →
      rearmIntervals (IdleCheck r w).2 =
        [wrapInt32 (max (max w.gSleepConfig.wait_idle_ms
            (r.max_duration_ms (if w.gDisplayIsOn = true then r.stack_now else r.clock)))
          (if w.gDisplayIsOn = false ∧
              r.clock.toNs < w.sTimeOnWake.toNs + w.gSleepConfig.after_resume_idle_ms * 1000000
           then wrapInt32 ((w.sTimeOnWake.toNs + w.gSleepConfig.after_resume_idle_ms * 1000000
                  - r.clock.toNs) / 1000000)
           else 0))]) := by
  refine ⟨IdleCheck_KernelResume r w, fun hk => ?_⟩
  rw [IdleCheck_rearm r w hk]
  have hfi := floorPending_iff r w
  cases h1 : w.gDisplayIsOn
  · cases h2 : floorPending r w
    · have hnot : ¬(r.clock.toNs <
          w.sTimeOnWake.toNs + w.gSleepConfig.after_resume_idle_ms * 1000000) := by
        intro hc; rw [hfi.2 hc] at h2; exact absurd h2 (by simp)
      cases h3 : alarmNear r w
      · rw [IdleCheck_body_ready r w h1 h2 h3]; simp [hnot]
      · rw [IdleCheck_body_alarm r w h1 h2 h3]; simp [hnot]
    · rw [IdleCheck_body_floor r w h1 h2]
      have hc := hfi.1 h2
      simp only [Bool.false_eq_true, if_false, true_and, if_pos hc]
      unfold ClockGetMs ClockDiff ClockAccumMs
      rw [timespec.toNs_ofNs, timespec.toNs_ofNs]
  · rw [IdleCheck_body_display_on r w h1]
    simp

/-! ## Lemmas on broadcasts -/

theorem state_broadcasts (s : PowerState) (f : PowerStateProc) (h : kStateMachine s = some f)
    (r : Responses) (w : World) : (f r w).2.2.filter isBroadcast = stateBroadcasts s := by
  cases s <;> simp only [kStateMachine, Option.some.injEq, reduceCtorEq] at h <;> subst h
  · rfl
  · rw [StateOnIdle_effects]; rfl
  · unfold StateSuspendRequest
    simp only []
    split_ifs <;> rfl
  · unfold StatePrepareSuspend
    simp only []
    split_ifs <;> rfl
  · rw [StateSleep_eq]
    simp only [CheckActivitiesActive_effects]
    split_ifs <;> rfl
  · have hk : "resume (" ++ resume_type_descriptions.getD ResumeType.kResumeTypeKernel.toNat ""
        ++ ")" = "resume (kernel)" := by decide
    rw [StateKernelResume, _stateResume_eq, hk]
    simp only []
    split_ifs <;> rfl
  · have ha : "resume (" ++ resume_type_descriptions.getD ResumeType.kResumeTypeActivity.toNat ""
        ++ ")" = "resume (pwrevent_activity)" := by decide
    rw [StateActivityResume, _stateResume_eq, ha]
    simp only []
    split_ifs <;> rfl
  · rw [StateAbortSuspend_eq]
    simp only []
    split_ifs <;> rfl

theorem runBroadcasts_step (s t : PowerState) (h : documentedEdge s t = true)
    (hs : s ≠ kPowerStateOn) (ht : t ≠ kPowerStateKernelResume) :
    ∀ p ∈ runBroadcasts t, (p.1, stateBroadcasts s ++ p.2) ∈ runBroadcasts s := by
  cases s <;> cases t <;> simp only [documentedEdge, Bool.false_eq_true] at h <;>
    first
    | exact absurd rfl hs
    | exact absurd rfl ht
    | decide

/-- The broadcasts of a trace with no event pending are those of one path of the diagram. -/
theorem RunShape_broadcasts {s final : PowerState} {effs : List Effect}
    (h : RunShape s effs final) : (final, effs.filter isBroadcast) ∈ runBroadcasts s := by
  induction h with
  | done => decide
  | kernel s f r w hf hin hk =>
    rcases state_edge _ f hf r w with ⟨hl, -, -⟩ | ⟨-, hedge, -⟩
    · rw [hk] at hl; exact absurd hl (by simp)
    · rw [hk] at hedge
      have hs : s = kPowerStateSleep := by
        revert hedge; cases s <;> simp [documentedEdge]
      subst hs
      rw [List.filter_append, state_broadcasts _ f hf]
      decide
  | step s f r w rest final hf hin hnl hk hrest ih =>
    rcases state_edge _ f hf r w with ⟨hl, -, -⟩ | ⟨-, hedge, hact⟩
    · exact absurd hl hnl
    · have hs : s ≠ kPowerStateOn := by
        intro hs; have := hact hs; rw [hin] at this; exact absurd this (by simp)
      have := runBroadcasts_step s _ hedge hs hk _ ih
      rw [List.filter_append, List.filter_append, state_broadcasts _ f hf]
      simpa [isBroadcast] using this



/-- One iteration of the loop that neither stops nor breaks: the next world and the rest of the
run. -/
theorem SuspendStateLoop_step (n : Nat) (o : Nat → Responses) (w : World) (f : PowerStateProc)
    (hf : kStateMachine w.gCurrentStateNode = some f)
    (hs : w.gCurrentStateNode ≠ kPowerStateOn)
    (h1 : (f (o w.ticks) w).1 ≠ kPowerStateLast)
    (h2 : (f (o w.ticks) w).1 ≠ kPowerStateKernelResume) :
    ∃ w2, w2.gCurrentStateNode = (f (o w.ticks) w).1 ∧ w2.ticks = w.ticks + 1 ∧
      w2.gSuspendEvent = w.gSuspendEvent ∧ MachineCanSleep w2 = MachineCanSleep w ∧
      SuspendStateLoop (n + 1) o w =
        (SuspendStateLoop n o w2).map fun q =>
          (q.1, ((f (o w.ticks) w).2.2 ++
            [Effect.StateChange w.gCurrentStateNode (f (o w.ticks) w).1]) ++ q.2) := by
  have hsc := state_sameControl _ f hf hs (o w.ticks) w
  refine ⟨{ (f (o w.ticks) w).2.1 with
      ticks := (f (o w.ticks) w).2.1.ticks + 1,
      gCurrentStateNode := (f (o w.ticks) w).1 }, rfl, ?_, hsc.2.2.1, ?_, ?_⟩
  · simp only [hsc.2.1]
  · simp only [MachineCanSleep, hsc.2.2.2.1, hsc.2.2.2.2]
  · rw [SuspendStateLoop_succ n o w f hf, if_neg h1, if_neg h2]

/-- The first iteration of a run entered in `On` with `IdleDetected` pending. -/
theorem SuspendStateUpdate_Idle_step (o : Nat → Responses) (w : World)
    (hOn : w.gCurrentStateNode = kPowerStateOn) :
    ∃ w1, w1.gCurrentStateNode = kPowerStateOnIdle ∧ w1.ticks = w.ticks + 1 ∧
      w1.gSuspendEvent = kPowerEventNone ∧ MachineCanSleep w1 = MachineCanSleep w ∧
      SuspendStateUpdate o kPowerEventIdleEvent w =
        (SuspendStateLoop 11 o w1).map fun q =>
          (q.1, Effect.StateChange kPowerStateOn kPowerStateOnIdle :: q.2) := by
  have hf : kStateMachine ({ w with gSuspendEvent := kPowerEventIdleEvent } : World).gCurrentStateNode
      = some StateOn := by simp [hOn, kStateMachine]
  refine ⟨{ w with gSuspendEvent := kPowerEventNone, ticks := w.ticks + 1,
                   gCurrentStateNode := kPowerStateOnIdle }, rfl, rfl, rfl, rfl, ?_⟩
  rw [SuspendStateUpdate, SuspendStateLoop_succ 11 o _ StateOn hf]
  simp only [StateOn_next, StateOn_world, StateOn_effects, if_true, reduceCtorEq, if_false,
    List.nil_append, hOn, List.singleton_append]

/-- The happy path ends in `KernelResume`. -/
theorem happy_path_final (o : Nat → Responses) (w : World)
    (hOn : w.gCurrentStateNode = kPowerStateOn) (hc : MachineCanSleep w = true)
    (h1 : ∀ cs, PwrEventClientsApproveSuspendRequest ((o (w.ticks + 2)).votes_during_wait cs) = true)
    (h2 : ∀ cs, PwrEventClientsApprovePrepareSuspend ((o (w.ticks + 3)).votes_during_wait cs) = true)
    (h3 : (o (w.ticks + 4)).activities_idle = true)
    (h4 : (o (w.ticks + 4)).queue_next_wakeup = true)
    (h5 : (o (w.ticks + 4)).nyx_error = 0) (h6 : (o (w.ticks + 4)).nyx_success = true) :
    (SuspendStateUpdate o kPowerEventIdleEvent w).map (fun p => p.1.gCurrentStateNode) =
      some kPowerStateKernelResume := by
  obtain ⟨w1, hs1, ht1, he1, hc1, hrun1⟩ := SuspendStateUpdate_Idle_step o w hOn
  rw [hrun1]
  -- OnIdle
  have hn1 : (StateOnIdle (o w1.ticks) w1).1 = kPowerStateSuspendRequest := by
    rw [StateOnIdle_next, hc1, if_pos hc]
  obtain ⟨w2, hs2, ht2, he2, hc2, hrun2⟩ := SuspendStateLoop_step 10 o w1 StateOnIdle
    (by rw [hs1]; rfl) (by rw [hs1]; simp) (by rw [hn1]; simp) (by rw [hn1]; simp)
  rw [hn1] at hs2
  rw [hrun2]
  -- SuspendRequest
  have hn2 : (StateSuspendRequest (o w2.ticks) w2).1 = kPowerStatePrepareSuspend := by
    rw [StateSuspendRequest_next, ht2, ht1]
    have := h1 ((o (w.ticks + 2)).votes_on_broadcast (PwrEventVoteInit w2.clients))
    rw [show w.ticks + 1 + 1 = w.ticks + 2 from rfl, this]
    simp
  obtain ⟨w3, hs3, ht3, he3, hc3, hrun3⟩ := SuspendStateLoop_step 9 o w2 StateSuspendRequest
    (by rw [hs2]; rfl) (by rw [hs2]; simp) (by rw [hn2]; simp) (by rw [hn2]; simp)
  rw [hn2] at hs3
  rw [hrun3]
  -- PrepareSuspend
  have hn3 : (StatePrepareSuspend (o w3.ticks) w3).1 = kPowerStateSleep := by
    rw [StatePrepareSuspend_next, ht3, ht2, ht1]
    have := h2 ((o (w.ticks + 3)).votes_on_broadcast w3.clients)
    rw [show w.ticks + 1 + 1 + 1 = w.ticks + 3 from rfl, this]
    simp
  obtain ⟨w4, hs4, ht4, he4, hc4, hrun4⟩ := SuspendStateLoop_step 8 o w3 StatePrepareSuspend
    (by rw [hs3]; rfl) (by rw [hs3]; simp) (by rw [hn3]; simp) (by rw [hn3]; simp)
  rw [hn3] at hs4
  rw [hrun4]
  -- Sleep
  have ht : w4.ticks = w.ticks + 4 := by rw [ht4, ht3, ht2, ht1]
  have hn4 : (StateSleep (o w4.ticks) w4).1 = kPowerStateKernelResume := by
    have hm : MachineSleep (o (w.ticks + 4)) = true := by simp [MachineSleep, h5, h6]
    rw [StateSleep_next, ht, h3, hc4, hc3, hc2, hc1, hc, h4, hm]
    simp
  rw [SuspendStateLoop_succ 7 o w4 StateSleep (by rw [hs4]; rfl)]
  simp [hn4]



theorem filter_isBroadcast_StateChange (a b : PowerState) (l : List Effect) :
    (Effect.StateChange a b :: l).filter isBroadcast = l.filter isBroadcast := by
  simp [List.filter, isBroadcast]

/-- The broadcasts of a run of the loop entered in `On`, whatever event is pending, are those of
one path of the diagram from `OnIdle`. -/
theorem SuspendStateLoop_On_broadcasts (o : Nat → Responses) (n : Nat) (w w' : World)
    (effs : List Effect) (hOn : w.gCurrentStateNode = kPowerStateOn)
    (hrun : SuspendStateLoop n o w = some (w', effs)) :
    (w'.gCurrentStateNode, effs.filter isBroadcast) ∈ runBroadcasts kPowerStateOnIdle := by
  cases n with
  | zero => simp [SuspendStateLoop] at hrun
  | succ n =>
    have hf : kStateMachine w.gCurrentStateNode = some StateOn := by rw [hOn]; rfl
    rw [SuspendStateLoop_succ n o w StateOn hf] at hrun
    by_cases hF : w.gSuspendEvent = kPowerEventForceSuspend
    · simp only [StateOn_next, StateOn_world, StateOn_effects, if_pos hF, reduceCtorEq, if_false,
        List.nil_append, hOn] at hrun
      cases hq : SuspendStateLoop n o
          { w with gSuspendEvent := kPowerEventNone, ticks := w.ticks + 1,
                   gCurrentStateNode := kPowerStateSuspendRequest } with
      | none => rw [hq] at hrun; simp at hrun
      | some q =>
        obtain ⟨q1, q2⟩ := q
        rw [hq] at hrun
        simp only [Option.map_some', Option.some.injEq, Prod.mk.injEq] at hrun
        obtain ⟨h1, h2⟩ := hrun
        have hsh := SuspendStateLoop_shape o n _ q1 q2 (by simp [eventActive]) hq
        have h : (q1.gCurrentStateNode, q2.filter isBroadcast) ∈
            runBroadcasts kPowerStateSuspendRequest := RunShape_broadcasts hsh
        subst h1
        rw [← h2, List.singleton_append, filter_isBroadcast_StateChange]
        revert h
        generalize (q1.gCurrentStateNode, List.filter isBroadcast q2) = p
        revert p
        decide
    · by_cases hI : w.gSuspendEvent = kPowerEventIdleEvent
      · simp only [StateOn_next, StateOn_world, StateOn_effects, if_neg hF, if_pos hI,
          reduceCtorEq, if_false, List.nil_append, hOn] at hrun
        cases hq : SuspendStateLoop n o
            { w with gSuspendEvent := kPowerEventNone, ticks := w.ticks + 1,
                     gCurrentStateNode := kPowerStateOnIdle } with
        | none => rw [hq] at hrun; simp at hrun
        | some q =>
          obtain ⟨q1, q2⟩ := q
          rw [hq] at hrun
          simp only [Option.map_some', Option.some.injEq, Prod.mk.injEq] at hrun
          obtain ⟨h1, h2⟩ := hrun
          have hsh := SuspendStateLoop_shape o n _ q1 q2 (by simp [eventActive]) hq
          have h : (q1.gCurrentStateNode, q2.filter isBroadcast) ∈
              runBroadcasts kPowerStateOnIdle := RunShape_broadcasts hsh
          subst h1
          rw [← h2, List.singleton_append, filter_isBroadcast_StateChange]
          exact h
      · simp only [StateOn_next, StateOn_world, StateOn_effects, if_neg hF, if_neg hI, if_true,
          Option.some.injEq, Prod.mk.injEq] at hrun
        obtain ⟨h1, h2⟩ := hrun
        rw [← h1, ← h2]
        simp only [hOn]
        decide

/-- An event that is no suspend trigger, processed in `On`, is ignored. -/
theorem SuspendStateUpdate_ignored (o : Nat → Responses) (ev : PowerEvent) (w : World)
    (hOn : w.gCurrentStateNode = kPowerStateOn) (hev : eventActive ev = false) :
    SuspendStateUpdate o ev w =
      some ({ w with gSuspendEvent := kPowerEventNone, ticks := w.ticks + 1 }, []) := by
  have hf : kStateMachine ({ w with gSuspendEvent := ev } : World).gCurrentStateNode
      = some StateOn := by simp [hOn, kStateMachine]
  have h1 : ev ≠ kPowerEventForceSuspend := by
    intro h; rw [h] at hev; simp [eventActive] at hev
  have h2 : ev ≠ kPowerEventIdleEvent := by
    intro h; rw [h] at hev; simp [eventActive] at hev
  rw [SuspendStateUpdate, SuspendStateLoop_succ 11 o _ StateOn hf]
  simp [StateOn_next, StateOn_world, StateOn_effects, h1, h2]

theorem processEvents_ignored (o : Nat → Responses) (ev : PowerEvent)
    (hev : eventActive ev = false) (n : Nat) :
    ∀ w : World, w.gCurrentStateNode = kPowerStateOn →
      ∃ w', processEvents o (List.replicate n ev) w = some (w', []) ∧
        w'.gCurrentStateNode = kPowerStateOn := by
  induction n with
  | zero => intro w hOn; exact ⟨w, rfl, hOn⟩
  | succ n ih =>
    intro w hOn
    obtain ⟨w', h1, h2⟩ := ih { w with gSuspendEvent := kPowerEventNone, ticks := w.ticks + 1 } hOn
    refine ⟨w', ?_, h2⟩
    rw [List.replicate_succ, processEvents, SuspendStateUpdate_ignored o ev w hOn hev]
    simp only [h1, Option.map_some', List.append_nil]

/-! ## Lemmas on freezing and on the NACK counters -/

theorem MachineSupportsWakelocks_cached (r : Responses) (w : World)
    (h : w.wakelocks_initialized = true) :
    MachineSupportsWakelocks r w = (w.machineSupportsWakelocks, w) := by
  simp [MachineSupportsWakelocks, h]

theorem MachineSupportsWakelocks_caches (r : Responses) (w : World) :
    (MachineSupportsWakelocks r w).2.wakelocks_initialized = true ∧
      (MachineSupportsWakelocks r w).2.machineSupportsWakelocks =
        (MachineSupportsWakelocks r w).1 := by
  unfold MachineSupportsWakelocks
  cases h : w.wakelocks_initialized <;> simp [h]

/-- A freeze by `StateSleep` on a platform without wakelocks: the probe is cached, the registry
is frozen exactly when the freeze returns true, and the freeze is the only such call. -/
theorem StateSleep_freeze (r : Responses) (w : World)
    (hev : w.gSuspendEvent ≠ kPowerEventForceSuspend)
    (hwl : (MachineSupportsWakelocks r w).1 = false) :
    (StateSleep r w).2.1.wakelocks_initialized = true ∧
    (StateSleep r w).2.1.machineSupportsWakelocks = false ∧
    (StateSleep r w).2.1.activities_frozen = r.activities_idle ∧
    (StateSleep r w).2.2.filter isFreezeThaw = [Effect.PwrEventFreezeActivities r.clock] := by
  have hi : MachineSupportsWakelocks r (InstrumentOnSleep r w).1 =
      ((MachineSupportsWakelocks r w).1,
        { (MachineSupportsWakelocks r w).2 with sTimeOnSuspended := r.clock, sSuspendRTC := r.rtc }) := by
    unfold MachineSupportsWakelocks InstrumentOnSleep
    cases h : w.wakelocks_initialized <;> simp [h]
  have hc := MachineSupportsWakelocks_caches r w
  rw [StateSleep_eq]
  simp only [if_pos hev, CheckActivitiesActive_effects]
  unfold CheckActivitiesActive
  simp only [hi, hwl, Bool.false_eq_true, if_false, hc.1]
  refine ⟨trivial, ?_, trivial, ?_⟩
  · rw [hc.2, hwl]
  · split_ifs <;> rfl

theorem StateAbortSuspend_thaw (r : Responses) (w : World)
    (h1 : w.wakelocks_initialized = true) (h2 : w.machineSupportsWakelocks = false) :
    (StateAbortSuspend r w).2.1.activities_frozen = false ∧
    (StateAbortSuspend r w).2.2.filter isFreezeThaw = [Effect.PwrEventThawActivities] := by
  rw [StateAbortSuspend_eq, MachineSupportsWakelocks_cached r w h1, h2]
  exact ⟨rfl, rfl⟩

theorem ScheduleIdleCheck_frozen (ms : Int) (b : Bool) (w : World) :
    (ScheduleIdleCheck ms b w).activities_frozen = w.activities_frozen := by
  unfold ScheduleIdleCheck
  cases w.idle_scheduler <;> rfl

theorem StateKernelResume_thaw (r : Responses) (w : World)
    (h1 : w.wakelocks_initialized = true) (h2 : w.machineSupportsWakelocks = false) :
    (StateKernelResume r w).2.2.filter isFreezeThaw = [Effect.PwrEventThawActivities] ∧
    (StateKernelResume r w).2.1.activities_frozen = false := by
  rw [StateKernelResume, _stateResume_eq, MachineSupportsWakelocks_cached r w h1, h2]
  refine ⟨rfl, ?_⟩
  show (ScheduleIdleCheck _ _ _).activities_frozen = false
  rw [ScheduleIdleCheck_frozen]
  rfl

theorem StateSuspendRequest_counters (r : Responses) (w : World) :
    ((StateSuspendRequest r w).1 = kPowerStateOn →
      (StateSuspendRequest r w).2.1.request_successive_ons
          = wrapInt32 (w.request_successive_ons + 1) ∧
      (StateSuspendRequest r w).2.1.request_log_count
          = (if wrapInt32 (w.request_successive_ons + 1) ≥ w.request_log_count then
              (if w.request_log_count ≥ MAX_LOG_COUNT_INCREASE_RATE then
                wrapInt32 (w.request_log_count + MAX_LOG_COUNT_INCREASE_RATE)
              else wrapInt32 (w.request_log_count * 2))
            else w.request_log_count) ∧
      (warningLogged (StateSuspendRequest r w).2.2 = true ↔
        wrapInt32 (w.request_successive_ons + 1) ≥ w.request_log_count)) ∧
    ((StateSuspendRequest r w).1 ≠ kPowerStateOn →
      (StateSuspendRequest r w).1 = kPowerStatePrepareSuspend ∧
      (StateSuspendRequest r w).2.1.request_successive_ons = 0 ∧
      (StateSuspendRequest r w).2.1.request_log_count = START_LOG_COUNT ∧
      warningLogged (StateSuspendRequest r w).2.2 = false) := by
  unfold StateSuspendRequest warningLogged
  simp only []
  split_ifs <;> simp_all

theorem logInvariant_hit (c L : Int) (h : logInvariant c L) (hL : c + 1 ≥ L) :
    isLogCount (c + 1) ∧ logInvariant (c + 1) (if L ≥ 512 then L + 512 else L * 2) := by
  obtain ⟨hlt, h⟩ := h
  have heq : c + 1 = L := by omega
  unfold isLogCount logInvariant
  rcases h with h | h | h | h | h | h | h | ⟨j, hj, h1, h2⟩
  · subst h; rw [heq]; simp
  · obtain ⟨h, -⟩ := h; subst h; rw [heq]; simp
  · obtain ⟨h, -⟩ := h; subst h; rw [heq]; simp
  · obtain ⟨h, -⟩ := h; subst h; rw [heq]; simp
  · obtain ⟨h, -⟩ := h; subst h; rw [heq]; simp
  · obtain ⟨h, -⟩ := h; subst h; rw [heq]; simp
  · obtain ⟨h, -⟩ := h; subst h; rw [heq]
    refine ⟨by simp, by simp, ?_⟩
    exact Or.inr (Or.inr (Or.inr (Or.inr (Or.inr (Or.inr (Or.inr
      ⟨1, by omega, by simp, by omega⟩))))))
  · rw [heq, if_pos (by omega)]
    refine ⟨?_, by omega, ?_⟩
    · exact Or.inr (Or.inr (Or.inr (Or.inr (Or.inr (Or.inr (Or.inr ⟨j, hj, h1⟩))))))
    · exact Or.inr (Or.inr (Or.inr (Or.inr (Or.inr (Or.inr (Or.inr
        ⟨j + 1, by omega, by omega, by omega⟩))))))

theorem logInvariant_miss (c L : Int) (h : logInvariant c L) (hL : ¬ c + 1 ≥ L) :
    ¬ isLogCount (c + 1) ∧ logInvariant (c + 1) L := by
  obtain ⟨hlt, h⟩ := h
  unfold isLogCount logInvariant
  refine ⟨?_, by omega, ?_⟩
  · rintro (k | k | k | k | k | k | k | ⟨j2, hj2, k⟩) <;>
      rcases h with h | h | h | h | h | h | h | ⟨j, hj, h1, h2⟩ <;> omega
  · rcases h with h | h | h | h | h | h | h | ⟨j, hj, h1, h2⟩
    · exact Or.inl h
    · exact Or.inr (Or.inl ⟨h.1, by omega⟩)
    · exact Or.inr (Or.inr (Or.inl ⟨h.1, by omega⟩))
    · exact Or.inr (Or.inr (Or.inr (Or.inl ⟨h.1, by omega⟩)))
    · exact Or.inr (Or.inr (Or.inr (Or.inr (Or.inl ⟨h.1, by omega⟩))))
    · exact Or.inr (Or.inr (Or.inr (Or.inr (Or.inr (Or.inl ⟨h.1, by omega⟩)))))
    · exact Or.inr (Or.inr (Or.inr (Or.inr (Or.inr (Or.inr (Or.inl ⟨h.1, by omega⟩))))))
    · exact Or.inr (Or.inr (Or.inr (Or.inr (Or.inr (Or.inr (Or.inr
        ⟨j, hj, h1, by omega⟩))))))

/-- Counters along consecutive phases that each end in `On`, from a reset counter. -/
theorem nack_counters (ws : Nat → World) (rs : Nat → Responses) (n : Nat)
    (hn : (n : Int) + 512 < 2147483648)
    (h0 : (ws 0).request_successive_ons = 0 ∧ (ws 0).request_log_count = START_LOG_COUNT)
    (hOn : ∀ i, i < n → (StateSuspendRequest (rs i) (ws i)).1 = kPowerStateOn)
    (hnext : ∀ i, i < n →
      (ws (i + 1)).request_successive_ons
          = (StateSuspendRequest (rs i) (ws i)).2.1.request_successive_ons ∧
      (ws (i + 1)).request_log_count
          = (StateSuspendRequest (rs i) (ws i)).2.1.request_log_count) :
    ∀ i, i ≤ n → (ws i).request_successive_ons = (i : Int) ∧
      logInvariant (i : Int) (ws i).request_log_count := by
  intro i
  induction i with
  | zero =>
    intro _
    refine ⟨h0.1, ?_⟩
    rw [h0.2]
    exact ⟨by decide, Or.inl rfl⟩
  | succ i ih =>
    intro hi
    obtain ⟨hc, hl⟩ := ih (by omega)
    obtain ⟨h1, h2, -⟩ := (StateSuspendRequest_counters (rs i) (ws i)).1 (hOn i (by omega))
    have hi' : (i : Int) < (n : Int) := by exact_mod_cast hi
    have hw : wrapInt32 ((i : Int) + 1) = (i : Int) + 1 := wrapInt32_id _ (by omega) (by omega)
    rw [hc, hw] at h1 h2
    rw [(hnext i (by omega)).1, (hnext i (by omega)).2, h1, h2]
    refine ⟨by push_cast; rfl, ?_⟩
    push_cast
    generalize (ws i).request_log_count = L at hl ⊢
    by_cases hlog : (i : Int) + 1 ≥ L
    · have heq : (i : Int) + 1 = L := by have := hl.1; omega
      have hh := (logInvariant_hit _ _ hl hlog).2
      rw [if_pos hlog]
      unfold MAX_LOG_COUNT_INCREASE_RATE
      by_cases h5 : L ≥ 512
      · rw [if_pos h5] at hh ⊢
        rw [wrapInt32_id _ (by omega) (by omega)]
        exact hh
      · rw [if_neg h5] at hh ⊢
        rw [wrapInt32_id _ (by omega) (by omega)]
        exact hh
    · rw [if_neg hlog]
      exact (logInvariant_miss _ _ hl hlog).2

theorem StateOn_requestCounters (r : Responses) (w : World) :
    (StateOn r w).2.1.request_successive_ons = w.request_successive_ons ∧
      (StateOn r w).2.1.request_log_count = w.request_log_count := ⟨rfl, rfl⟩

theorem MachineSupportsWakelocks_requestCounters (r : Responses) (w : World) :
    (MachineSupportsWakelocks r w).2.request_successive_ons = w.request_successive_ons ∧
      (MachineSupportsWakelocks r w).2.request_log_count = w.request_log_count := by
  unfold MachineSupportsWakelocks
  cases w.wakelocks_initialized <;> exact ⟨rfl, rfl⟩

theorem ScheduleIdleCheck_requestCounters (ms : Int) (b : Bool) (w : World) :
    (ScheduleIdleCheck ms b w).request_successive_ons = w.request_successive_ons ∧
      (ScheduleIdleCheck ms b w).request_log_count = w.request_log_count := by
  unfold ScheduleIdleCheck
  cases w.idle_scheduler <;> exact ⟨rfl, rfl⟩

theorem CheckActivitiesActive_requestCounters (now : timespec) (r : Responses) (w : World) :
    (CheckActivitiesActive now r w).2.1.request_successive_ons = w.request_successive_ons ∧
      (CheckActivitiesActive now r w).2.1.request_log_count = w.request_log_count := by
  have h := MachineSupportsWakelocks_requestCounters r w
  unfold CheckActivitiesActive
  simp only []
  split_ifs <;> exact h

/-- The statics of `StateSuspendRequest` are touched by no other state function. -/
theorem state_requestCounters (s : PowerState) (f : PowerStateProc) (h : kStateMachine s = some f)
    (hs : s ≠ kPowerStateSuspendRequest) (r : Responses) (w : World) :
    (f r w).2.1.request_successive_ons = w.request_successive_ons ∧
      (f r w).2.1.request_log_count = w.request_log_count := by
  cases s <;> simp only [kStateMachine, Option.some.injEq, reduceCtorEq] at h <;> subst h
  · exact ⟨rfl, rfl⟩
  · rw [StateOnIdle_world]; exact ⟨rfl, rfl⟩
  · exact absurd rfl hs
  · unfold StatePrepareSuspend
    simp only []
    split_ifs <;> exact ⟨rfl, rfl⟩
  · rw [StateSleep_eq]
    simp only []
    split_ifs
    · exact CheckActivitiesActive_requestCounters _ _ _
    · exact ⟨rfl, rfl⟩
  · have h := MachineSupportsWakelocks_requestCounters r w
    rw [StateKernelResume, _stateResume_eq]
    simp only [(ScheduleIdleCheck_requestCounters _ _ _).1, (ScheduleIdleCheck_requestCounters _ _ _).2]
    split_ifs <;> exact h
  · have h := MachineSupportsWakelocks_requestCounters r w
    rw [StateActivityResume, _stateResume_eq]
    simp only [(ScheduleIdleCheck_requestCounters _ _ _).1, (ScheduleIdleCheck_requestCounters _ _ _).2]
    split_ifs <;> exact h
  · have h := MachineSupportsWakelocks_requestCounters r w
    rw [StateAbortSuspend_eq]
    simp only []
    split_ifs <;> exact h


/-- Clients that all answer `Ack` in phase 1 approve the suspend request. -/
theorem castVotes_approve_request (v2 b2 : Vote) (cs : List Client) :
    PwrEventClientsApproveSuspendRequest (castVotes Vote.Ack v2 Vote.Ack b2 cs) = true := by
  unfold PwrEventClientsApproveSuspendRequest castVotes
  rw [List.all_eq_true]
  intro c hc
  rw [List.mem_map] at hc
  obtain ⟨a, -, rfl⟩ := hc
  split_ifs <;> rfl

/-- Clients that all answer `Ack` in phase 2 approve the prepare-suspend. -/
theorem castVotes_approve_prepare (v1 b1 : Vote) (cs : List Client) :
    PwrEventClientsApprovePrepareSuspend (castVotes v1 Vote.Ack b1 Vote.Ack cs) = true := by
  unfold PwrEventClientsApprovePrepareSuspend castVotes
  rw [List.all_eq_true]
  intro c hc
  rw [List.mem_map] at hc
  obtain ⟨a, -, rfl⟩ := hc
  split_ifs <;> rfl

/-! ## The claims on the idle evaluator, the broadcasts and the counters -/

/-- C11: no suspend with display on.  For every tick of `IdleCheck` and every value of the other
inputs (state, clock, activities, alarms, readiness file), if the display flag is on the tick
posts no event: the list of posted events is empty and the trace holds no `TriggerSuspend`
call. -/
theorem no_idle_event_with_display_on (r : IdleResponses) (w : World)
    (h : w.gDisplayIsOn = true) :
    postedEvents (IdleCheck r w).2 = [] ∧
      ∀ reason ev, Effect.TriggerSuspend reason ev ∉ (IdleCheck r w).2 := by
  have hp : postedEvents (IdleCheck r w).2 = [] := by
    rw [IdleCheck_posted]
    simp [idleDetected, h]
  exact ⟨hp, postedEvents_eq_nil _ hp⟩

/-- C13: alarm proximity.  On every tick, if the alarm service reports a next wakeup with
`0 ≤ expiry - reference_time ≤ wait_alarms_s`, where `wait_alarms_s` is a value of the C `int`
it is stored in, the tick posts no event; and when the tick reaches the alarm query (state not
`KernelResume`, display off, awake floor elapsed) the alarm query is directly followed by the
re-arm, without the readiness file being looked at. -/
theorem alarm_proximity_posts_nothing (r : IdleResponses) (w : World) (expiry : Int)
    (hn : r.next_wakeup = some expiry) (h0 : 0 ≤ expiry - r.reference_time)
    (h1 : expiry - r.reference_time ≤ w.gSleepConfig.wait_alarms_s)
    (hint : w.gSleepConfig.wait_alarms_s < 2147483648) :
    postedEvents (IdleCheck r w).2 = [] ∧
    (∀ reason ev, Effect.TriggerSuspend reason ev ∉ (IdleCheck r w).2) ∧
    (w.gCurrentStateNode ≠ kPowerStateKernelResume → w.gDisplayIsOn = false →
      ClockTimeIsGreater (ClockAccumMs w.sTimeOnWake w.gSleepConfig.after_resume_idle_ms)
        r.clock = false →
      ∃ queries, (IdleCheck r w).2 =
        queries ++ [Effect.timeout_get_next_wakeup, Effect.PwrEventActivityGetMaxDuration r.clock,
          Effect.ScheduleIdleCheck
            (wrapInt32 (max (max w.gSleepConfig.wait_idle_ms (r.max_duration_ms r.clock)) 0))
            true] ∧
        Effect.access_suspend_active ∉ queries) := by
  have hw : wrapInt32 (expiry - r.reference_time) = expiry - r.reference_time :=
    wrapInt32_id _ (by omega) (by omega)
  have ha : alarmNear r w = true := by
    unfold alarmNear
    rw [hn]
    simp [hw, h0, h1]
  have hp : postedEvents (IdleCheck r w).2 = [] := by
    rw [IdleCheck_posted]
    simp [idleDetected, ha]
  refine ⟨hp, postedEvents_eq_nil _ hp, fun hk hd hf => ?_⟩
  rw [IdleCheck_effects r w hk, IdleCheck_body_alarm r w hd hf ha]
  refine ⟨[Effect.PwrEventActivityCanSleep r.clock, Effect.PwrEventActivityCount w.sTimeOnWake]
    ++ (if r.activity_count w.sTimeOnWake ≠ 0 then
          [Effect.PwrEventActivityPrintFrom w.sTimeOnWake] else [])
    ++ [Effect.PwrEventActivityRemoveExpired r.clock], ?_, ?_⟩
  · simp [idleQueries]
  · split_ifs <;> simp


/-- C15: with the display on, the re-arm interval follows the unassigned local `now` and not the
current time.  Two ticks in state `On` with the display on, the same clock and the same
registry, whose stack slot for `now` holds second 0 and second 5, re-arm with 500 ms and
7000 ms, while the registry's remaining duration at the clock reading is 7000 ms. -/
theorem rearm_reads_unassigned_now :
    s1DisplayOn.gCurrentStateNode = kPowerStateOn ∧ s1DisplayOn.gDisplayIsOn = true ∧
    (displayOnTick ⟨0, 0⟩).clock = (displayOnTick ⟨5, 0⟩).clock ∧
    (displayOnTick ⟨0, 0⟩).max_duration_ms (displayOnTick ⟨0, 0⟩).clock = 7000 ∧
    rearmIntervals (IdleCheck (displayOnTick ⟨0, 0⟩) s1DisplayOn).2 = [500] ∧
    rearmIntervals (IdleCheck (displayOnTick ⟨5, 0⟩) s1DisplayOn).2 = [7000] := by
  decide

/-- C16, as stated: `IdleCheck` re-arms below `MIN_IDLE_SEC`.  With `wait_idle_ms` configured as
100 ms and nothing else pending, the tick re-arms with 100 ms, less than 5000 ms. -/
theorem rearm_below_MIN_IDLE_SEC :
    rearmIntervals (IdleCheck s1Tick shortIdleWorld).2 = [100] ∧
    (100 : Int) < MIN_IDLE_SEC * 1000 := by
  decide

/-- C16, amended: on every tick in a state other than `KernelResume` the idle timer is re-armed
exactly once, with the maximum of `wait_idle_ms`, the registry's maximal duration and the
rest of the awake floor, narrowed to the `int` argument of `ScheduleIdleCheck`; when
`wait_idle_ms` is a value of the C `int` it is stored in and the registry's answers do not
exceed the largest `int`, that interval is at least `wait_idle_ms`. -/
theorem rearm_at_least_wait_idle_ms (r : IdleResponses) (w : World)
    (h : w.gCurrentStateNode ≠ kPowerStateKernelResume) :
    ∃ ms, rearmIntervals (IdleCheck r w).2 = [ms] ∧
      ms = wrapInt32 (max (max w.gSleepConfig.wait_idle_ms
            (r.max_duration_ms (if w.gDisplayIsOn = true then r.stack_now else r.clock)))
          (if w.gDisplayIsOn = false ∧
              r.clock.toNs < w.sTimeOnWake.toNs + w.gSleepConfig.after_resume_idle_ms * 1000000
           then wrapInt32 ((w.sTimeOnWake.toNs + w.gSleepConfig.after_resume_idle_ms * 1000000
                  - r.clock.toNs) / 1000000)
           else 0)) ∧
      (-2147483648 ≤ w.gSleepConfig.wait_idle_ms → w.gSleepConfig.wait_idle_ms < 2147483648 →
        (∀ t, r.max_duration_ms t < 2147483648) → w.gSleepConfig.wait_idle_ms ≤ ms) := by
  refine ⟨_, (IdleCheck_rearm_rule r w).2 h, rfl, fun ha hb hc => ?_⟩
  have hfloor : (if w.gDisplayIsOn = false ∧
        r.clock.toNs < w.sTimeOnWake.toNs + w.gSleepConfig.after_resume_idle_ms * 1000000
      then wrapInt32 ((w.sTimeOnWake.toNs + w.gSleepConfig.after_resume_idle_ms * 1000000
            - r.clock.toNs) / 1000000)
      else 0) < 2147483648 := by
    split_ifs
    · exact (wrapInt32_range _).2
    · decide
  rw [wrapInt32_id _ (le_trans ha (le_trans (le_max_left _ _) (le_max_left _ _)))
    (max_lt (max_lt hb (hc _)) hfloor)]
  exact le_trans (le_max_left _ _) (le_max_left _ _)

/-- The short configuration for C16: the tick re-arms with an interval of at least 100 ms. -/
theorem rearm_at_least_wait_idle_ms_witness :
    shortIdleWorld.gCurrentStateNode ≠ kPowerStateKernelResume ∧
    -2147483648 ≤ shortIdleWorld.gSleepConfig.wait_idle_ms ∧
    shortIdleWorld.gSleepConfig.wait_idle_ms < 2147483648 ∧
    (∀ t, s1Tick.max_duration_ms t < 2147483648) ∧
    ∃ ms, rearmIntervals (IdleCheck s1Tick shortIdleWorld).2 = [ms] ∧
      shortIdleWorld.gSleepConfig.wait_idle_ms ≤ ms :=
  ⟨by decide, by decide, by decide, fun _ => (by decide : (0 : Int) < 2147483648),
    let ⟨ms, h1, _, h3⟩ := rearm_at_least_wait_idle_ms s1Tick shortIdleWorld (by decide)
    ⟨ms, h1, h3 (by decide) (by decide) (fun _ => (by decide : (0 : Int) < 2147483648))⟩⟩

/-- C12, as stated: a resume of kind abort does not start the awake floor.  `StateSleep` runs at
second 100 and cannot queue the wake alarm; the run broadcasts `Suspended` and `Resume`
(suspend aborted) and ends in `On` with `sTimeOnWake` still at second 1, and the tick 200 ms
later, inside `after_resume_idle_ms` = 1000 ms of that resume, posts `IdleDetected`. -/
theorem idle_event_right_after_abort :
    (SuspendStateLoop 3 (fun _ => abortResponses) s1Asleep).map
        (fun p => (p.1.gCurrentStateNode, p.1.sTimeOnSuspended, p.1.sTimeOnWake,
          p.2.filter isBroadcast, postedEvents (IdleCheck tickAfterAbort p.1).2)) =
      some (kPowerStateOn, ⟨100, 0⟩, ⟨1, 0⟩,
        [Effect.SendSuspended "attempting to suspend (We are trying to sleep)",
         Effect.SendResume ResumeType.kResumeAbortSuspend "resume (suspend aborted)"],
        [kPowerEventIdleEvent]) ∧
    tickAfterAbort.clock.toNs <
      (⟨100, 0⟩ : timespec).toNs + s1Asleep.gSleepConfig.after_resume_idle_ms * 1000000 := by
  decide

/-- C12, amended: the awake floor holds after the resumes that record the wake time.
`StateKernelResume` and `StateActivityResume` store the clock reading in `sTimeOnWake`; no
other state function and no tick changes it; and whenever `sTimeOnWake` is at or after a resume
time `tR`, a tick whose clock reading is before `tR + after_resume_idle_ms` posts nothing. -/
theorem awake_floor_after_wake (r : Responses) (w : World) (tick : IdleResponses)
    (w2 : World) :
    (StateKernelResume r w).2.1.sTimeOnWake = r.clock ∧
    (StateActivityResume r w).2.1.sTimeOnWake = r.clock ∧
    (∀ s f, kStateMachine s = some f → s ≠ kPowerStateKernelResume →
      s ≠ kPowerStateActivityResume → (f r w).2.1.sTimeOnWake = w.sTimeOnWake) ∧
    (IdleCheck tick w2).1.sTimeOnWake = w2.sTimeOnWake ∧
    (r.clock.toNs ≤ w2.sTimeOnWake.toNs →
      tick.clock.toNs < r.clock.toNs + w2.gSleepConfig.after_resume_idle_ms * 1000000 →
      postedEvents (IdleCheck tick w2).2 = [] ∧
      ∀ reason ev, Effect.TriggerSuspend reason ev ∉ (IdleCheck tick w2).2) := by
  have hw : ∀ t : ResumeType, (_stateResume t r w).2.1.sTimeOnWake = r.clock := by
    intro t
    rw [_stateResume_eq]
    unfold ScheduleIdleCheck
    simp only []
    split <;> rfl
  refine ⟨hw _, hw _, fun s f hf h1 h2 => state_sTimeOnWake s f hf h1 h2 r w,
    (IdleCheck_world tick w2).1, fun hle hlt => ?_⟩
  have hf : floorPending tick w2 = true := (floorPending_iff tick w2).2 (by omega)
  have hp : postedEvents (IdleCheck tick w2).2 = [] := by
    rw [IdleCheck_posted]
    simp [idleDetected, hf]
  exact ⟨hp, postedEvents_eq_nil _ hp⟩

/-- C17, as stated: processing the next event after the suspend does not always end in `On`.
From `KernelResume` of scenario S1 the event `ForceSuspend` broadcasts `Resume` of kind kernel,
then starts a new cycle in the same run, which broadcasts `SuspendRequest`, `PrepareSuspend`
and `Suspended` and stops in `KernelResume`. -/
theorem next_event_starts_new_cycle :
    s1Suspended.gCurrentStateNode = kPowerStateKernelResume ∧
    (SuspendStateUpdate s1Oracle kPowerEventForceSuspend s1Suspended).map
        (fun p => (p.1.gCurrentStateNode, p.2.filter isBroadcast)) =
      some (kPowerStateKernelResume,
        [Effect.SendResume ResumeType.kResumeTypeKernel "resume (kernel)",
         Effect.SendSuspendRequest "", Effect.SendPrepareSuspend "",
         Effect.SendSuspended "attempting to suspend (We are trying to sleep)"]) := by
  decide

/-- C17, amended: broadcast order.  Every run of the state machine entered in `On` ends with
one of six broadcast sequences, in each of which `PrepareSuspend` comes only after
`SuspendRequest` and `Suspended` only after `PrepareSuspend`; on the happy path (`IdleDetected` from `On`, the
machine can sleep, all clients approve both phases, the activity check passes, the alarm is
queued, the platform suspend succeeds) the run stops in `KernelResume` with exactly the
broadcasts `SuspendRequest`, `PrepareSuspend`, `Suspended`; and processing the next event from
`KernelResume` first broadcasts `Resume` of kind kernel and changes to `On`, the broadcasts
after it being again one of the six sequences, and when that event is no suspend trigger the
run ends in `On` with that single broadcast. -/
theorem broadcast_order (o : Nat → Responses) (w : World) :
    (∀ ev, w.gCurrentStateNode = kPowerStateOn →
      ∃ w' effs, SuspendStateUpdate o ev w = some (w', effs) ∧
        (w'.gCurrentStateNode, effs.filter isBroadcast) ∈
          [(kPowerStateOn, []),
           (kPowerStateOn, [Effect.SendSuspendRequest ""]),
           (kPowerStateOn, [Effect.SendSuspendRequest "", Effect.SendPrepareSuspend "",
              Effect.SendResume ResumeType.kResumeAbortSuspend "resume (suspend aborted)"]),
           (kPowerStateKernelResume, [Effect.SendSuspendRequest "", Effect.SendPrepareSuspend "",
              Effect.SendSuspended "attempting to suspend (We are trying to sleep)"]),
           (kPowerStateOn, [Effect.SendSuspendRequest "", Effect.SendPrepareSuspend "",
              Effect.SendSuspended "attempting to suspend (We are trying to sleep)",
              Effect.SendResume ResumeType.kResumeTypeActivity "resume (pwrevent_activity)"]),
           (kPowerStateOn, [Effect.SendSuspendRequest "", Effect.SendPrepareSuspend "",
              Effect.SendSuspended "attempting to suspend (We are trying to sleep)",
              Effect.SendResume ResumeType.kResumeAbortSuspend "resume (suspend aborted)"])]) ∧
    (w.gCurrentStateNode = kPowerStateOn → MachineCanSleep w = true →
      (∀ cs, PwrEventClientsApproveSuspendRequest
        ((o (w.ticks + 2)).votes_during_wait cs) = true) →
      (∀ cs, PwrEventClientsApprovePrepareSuspend
        ((o (w.ticks + 3)).votes_during_wait cs) = true) →
      (o (w.ticks + 4)).activities_idle = true → (o (w.ticks + 4)).queue_next_wakeup = true →
      (o (w.ticks + 4)).nyx_error = 0 → (o (w.ticks + 4)).nyx_success = true →
      ∃ w' effs, SuspendStateUpdate o kPowerEventIdleEvent w = some (w', effs) ∧
        w'.gCurrentStateNode = kPowerStateKernelResume ∧
        effs.filter isBroadcast =
          [Effect.SendSuspendRequest "", Effect.SendPrepareSuspend "",
           Effect.SendSuspended "attempting to suspend (We are trying to sleep)"]) ∧
    (∀ ev, w.gCurrentStateNode = kPowerStateKernelResume →
      ∃ w' effs, SuspendStateUpdate o ev w = some (w', effs) ∧
        Effect.StateChange kPowerStateKernelResume kPowerStateOn ∈ effs ∧
        (∃ rest, effs.filter isBroadcast =
          Effect.SendResume ResumeType.kResumeTypeKernel "resume (kernel)" :: rest ∧
          (w'.gCurrentStateNode, rest) ∈
            [(kPowerStateOn, []),
             (kPowerStateOn, [Effect.SendSuspendRequest ""]),
             (kPowerStateOn, [Effect.SendSuspendRequest "", Effect.SendPrepareSuspend "",
                Effect.SendResume ResumeType.kResumeAbortSuspend "resume (suspend aborted)"]),
             (kPowerStateKernelResume,
               [Effect.SendSuspendRequest "", Effect.SendPrepareSuspend "",
                Effect.SendSuspended "attempting to suspend (We are trying to sleep)"]),
             (kPowerStateOn, [Effect.SendSuspendRequest "", Effect.SendPrepareSuspend "",
                Effect.SendSuspended "attempting to suspend (We are trying to sleep)",
                Effect.SendResume ResumeType.kResumeTypeActivity "resume (pwrevent_activity)"]),
             (kPowerStateOn, [Effect.SendSuspendRequest "", Effect.SendPrepareSuspend "",
                Effect.SendSuspended "attempting to suspend (We are trying to sleep)",
                Effect.SendResume ResumeType.kResumeAbortSuspend
                  "resume (suspend aborted)"])]) ∧
        (eventActive ev = false →
          effs.filter isBroadcast =
            [Effect.SendResume ResumeType.kResumeTypeKernel "resume (kernel)"] ∧
          w'.gCurrentStateNode = kPowerStateOn)) := by
  have part1 : ∀ ev, w.gCurrentStateNode = kPowerStateOn →
      ∃ w' effs, SuspendStateUpdate o ev w = some (w', effs) ∧
        (w'.gCurrentStateNode, effs.filter isBroadcast) ∈ runBroadcasts kPowerStateOnIdle := by
    intro ev hOn
    obtain ⟨w', effs, hrun, -, -⟩ := SuspendStateUpdate_spec o ev w (by rw [hOn]; simp)
    exact ⟨w', effs, hrun,
      SuspendStateLoop_On_broadcasts o 12 { w with gSuspendEvent := ev } w' effs hOn hrun⟩
  refine ⟨fun ev hOn => ?_, ?_, ?_⟩
  · obtain ⟨w', effs, hrun, hm⟩ := part1 ev hOn
    exact ⟨w', effs, hrun, hm⟩
  · intro hOn hc h1 h2 h3 h4 h5 h6
    have hfin := happy_path_final o w hOn hc h1 h2 h3 h4 h5 h6
    obtain ⟨w', effs, hrun, hm⟩ := part1 kPowerEventIdleEvent hOn
    rw [hrun] at hfin
    simp only [Option.map_some', Option.some.injEq] at hfin
    refine ⟨w', effs, hrun, hfin, ?_⟩
    rw [hfin] at hm
    revert hm
    generalize List.filter isBroadcast effs = l
    intro hm
    simp only [runBroadcasts, stateBroadcasts, List.mem_cons, Prod.mk.injEq, reduceCtorEq,
      false_and, false_or, true_and, List.mem_singleton, or_false, List.not_mem_nil,
      List.append_eq, List.cons_append, List.nil_append] at hm
    exact hm
  · intro ev hK
    obtain ⟨w', effs, hrun, -, -⟩ := SuspendStateUpdate_spec o ev w (by rw [hK]; simp)
    have hb := fun r w0 => state_broadcasts kPowerStateKernelResume StateKernelResume rfl r w0
    refine ⟨w', effs, hrun, ?_, ?_, ?_⟩
    · have hrun' := hrun
      rw [SuspendStateUpdate, SuspendStateLoop_succ 11 o _ StateKernelResume
        (by simp only [hK]; rfl)] at hrun'
      have hnext : ∀ r w0, (StateKernelResume r w0).1 = kPowerStateOn := fun _ _ => rfl
      simp only [hnext, reduceCtorEq, if_false] at hrun'
      cases hq : SuspendStateLoop 11 o
          { (StateKernelResume (o w.ticks) { w with gSuspendEvent := ev }).2.1 with
            ticks := (StateKernelResume (o w.ticks) { w with gSuspendEvent := ev }).2.1.ticks + 1,
            gCurrentStateNode := kPowerStateOn } with
      | none => rw [hq] at hrun'; simp at hrun'
      | some q =>
        rw [hq] at hrun'
        simp only [Option.map_some', Option.some.injEq, Prod.mk.injEq] at hrun'
        rw [← hrun'.2, hK]
        simp
    · have hrun' := hrun
      rw [SuspendStateUpdate, SuspendStateLoop_succ 11 o _ StateKernelResume
        (by simp only [hK]; rfl)] at hrun'
      have hnext : ∀ r w0, (StateKernelResume r w0).1 = kPowerStateOn := fun _ _ => rfl
      simp only [hnext, reduceCtorEq, if_false] at hrun'
      cases hq : SuspendStateLoop 11 o
          { (StateKernelResume (o w.ticks) { w with gSuspendEvent := ev }).2.1 with
            ticks := (StateKernelResume (o w.ticks) { w with gSuspendEvent := ev }).2.1.ticks + 1,
            gCurrentStateNode := kPowerStateOn } with
      | none => rw [hq] at hrun'; simp at hrun'
      | some q =>
        have hq' := SuspendStateLoop_On_broadcasts o 11 _ q.1 q.2 rfl hq
        rw [hq] at hrun'
        simp only [Option.map_some', Option.some.injEq, Prod.mk.injEq] at hrun'
        refine ⟨q.2.filter isBroadcast, ?_, ?_⟩
        · rw [← hrun'.2, List.filter_append, List.filter_append, hb]
          simp [stateBroadcasts, isBroadcast]
        · rw [← hrun'.1]
          exact hq'
    · intro hin
      have hsh := SuspendStateLoop_shape o 12 { w with gSuspendEvent := ev } w' effs hin hrun
      have h := RunShape_broadcasts hsh
      simp only [hK, runBroadcasts, stateBroadcasts, List.mem_singleton, Prod.mk.injEq] at h
      exact ⟨h.2, h.1⟩

/-- C19: idempotent resume.  From `KernelResume`, processing n + 1 `ResumedByKernel` events emits
exactly one broadcast, `Resume` of kind kernel, while processing the first; the n later events
emit nothing at all and leave the machine in `On`; in `On` a `ResumedByKernel` event changes
only the pending event and the tick counter. -/
theorem idempotent_resume (o : Nat → Responses) (n : Nat) (w : World)
    (hK : w.gCurrentStateNode = kPowerStateKernelResume) :
    (∃ w1 effs1 w', SuspendStateUpdate o kPowerEventResumedByKernel w = some (w1, effs1) ∧
      effs1.filter isBroadcast =
        [Effect.SendResume ResumeType.kResumeTypeKernel "resume (kernel)"] ∧
      w1.gCurrentStateNode = kPowerStateOn ∧
      processEvents o (List.replicate n kPowerEventResumedByKernel) w1 = some (w', []) ∧
      w'.gCurrentStateNode = kPowerStateOn ∧
      processEvents o (List.replicate (n + 1) kPowerEventResumedByKernel) w = some (w', effs1)) ∧
    (∀ x : World, x.gCurrentStateNode = kPowerStateOn →
      SuspendStateUpdate o kPowerEventResumedByKernel x =
        some ({ x with gSuspendEvent := kPowerEventNone, ticks := x.ticks + 1 }, [])) := by
  refine ⟨?_, fun x hx => SuspendStateUpdate_ignored o _ x hx rfl⟩
  obtain ⟨w1, effs1, hrun, -, -⟩ :=
    SuspendStateUpdate_spec o kPowerEventResumedByKernel w (by rw [hK]; simp)
  have hsh := SuspendStateLoop_shape o 12 { w with gSuspendEvent := kPowerEventResumedByKernel }
    w1 effs1 rfl hrun
  have h := RunShape_broadcasts hsh
  simp only [hK, runBroadcasts, stateBroadcasts, List.mem_singleton, Prod.mk.injEq] at h
  obtain ⟨w', h1, h2⟩ := processEvents_ignored o kPowerEventResumedByKernel rfl n w1 h.1
  refine ⟨w1, effs1, w', hrun, h.2, h.1, h1, h2, ?_⟩
  rw [List.replicate_succ, processEvents, hrun]
  simp only [h1, Option.map_some', List.append_nil]

/-- C18: freeze/thaw pairing.  On a platform without wakelocks, when `StateSleep` is entered with
no suspend event pending and its freeze returns true, the run either goes through
`AbortSuspend` and ends in `On` with exactly one freeze followed by exactly one thaw and the
registry thawed, or stops in `KernelResume` with that one freeze and the registry frozen; the
next run then starts with `StateKernelResume`, which thaws exactly once and leaves the registry
thawed before the change to `On`. -/
theorem freeze_thaw_pairing (o : Nat → Responses) (n : Nat) (w : World)
    (hs : w.gCurrentStateNode = kPowerStateSleep)
    (hin : eventActive w.gSuspendEvent = false)
    (hwl : (MachineSupportsWakelocks (o w.ticks) w).1 = false)
    (hfreeze : (o w.ticks).activities_idle = true) :
    ∃ w' effs, SuspendStateLoop (n + 3) o w = some (w', effs) ∧
      ((w'.gCurrentStateNode = kPowerStateOn ∧
          Effect.StateChange kPowerStateSleep kPowerStateAbortSuspend ∈ effs ∧
          effs.filter isFreezeThaw =
            [Effect.PwrEventFreezeActivities (o w.ticks).clock, Effect.PwrEventThawActivities] ∧
          w'.activities_frozen = false) ∨
       (w'.gCurrentStateNode = kPowerStateKernelResume ∧
          effs.filter isFreezeThaw = [Effect.PwrEventFreezeActivities (o w.ticks).clock] ∧
          w'.activities_frozen = true ∧
          ∀ (o2 : Nat → Responses) (ev : PowerEvent),
            ∃ w'' rest, SuspendStateUpdate o2 ev w' =
                some (w'', (StateKernelResume (o2 w'.ticks) { w' with gSuspendEvent := ev }).2.2
                  ++ Effect.StateChange kPowerStateKernelResume kPowerStateOn :: rest) ∧
              (StateKernelResume (o2 w'.ticks) { w' with gSuspendEvent := ev }).2.2.filter
                isFreezeThaw = [Effect.PwrEventThawActivities] ∧
              (StateKernelResume (o2 w'.ticks)
                { w' with gSuspendEvent := ev }).2.1.activities_frozen = false)) := by
  have hev : w.gSuspendEvent ≠ kPowerEventForceSuspend := by
    intro h; rw [h] at hin; simp [eventActive] at hin
  obtain ⟨hc1, hc2, hc3, hc4⟩ := StateSleep_freeze (o w.ticks) w hev hwl
  have hsc := StateSleep_sameControl (o w.ticks) w
  have hf : kStateMachine w.gCurrentStateNode = some StateSleep := by rw [hs]; rfl
  rw [SuspendStateLoop_succ (n + 2) o w StateSleep hf]
  rw [hfreeze] at hc3
  generalize (StateSleep (o w.ticks) w).2.1 = w1 at hc1 hc2 hc3 hsc ⊢
  generalize (StateSleep (o w.ticks) w).2.2 = e1 at hc4 ⊢
  rcases StateSleep_range (o w.ticks) w with hn | hn | hn
  · rw [StateSleep_next, if_neg (by simp [hfreeze])] at hn
    split_ifs at hn
  · -- AbortSuspend
    simp only [hn, reduceCtorEq, if_false, hs]
    have ha := StateAbortSuspend_thaw (o (w1.ticks + 1))
      { w1 with ticks := w1.ticks + 1, gCurrentStateNode := kPowerStateAbortSuspend } hc1 hc2
    have hasc := StateAbortSuspend_sameControl (o (w1.ticks + 1))
      { w1 with ticks := w1.ticks + 1, gCurrentStateNode := kPowerStateAbortSuspend }
    rw [SuspendStateLoop_succ (n + 1) o
      { w1 with ticks := w1.ticks + 1, gCurrentStateNode := kPowerStateAbortSuspend }
      StateAbortSuspend rfl]
    simp only [StateAbortSuspend_next, reduceCtorEq, if_false]
    generalize (StateAbortSuspend (o (w1.ticks + 1))
      { w1 with ticks := w1.ticks + 1, gCurrentStateNode := kPowerStateAbortSuspend }).2.1 = w2
      at ha hasc ⊢
    generalize (StateAbortSuspend (o (w1.ticks + 1))
      { w1 with ticks := w1.ticks + 1, gCurrentStateNode := kPowerStateAbortSuspend }).2.2 = e2
      at ha ⊢
    have he2 : w2.gSuspendEvent = w.gSuspendEvent := by
      have h3 := hasc.2.2.1
      have h4 := hsc.2.2.1
      exact h3.trans h4
    have hlast : (StateOn (o (w2.ticks + 1))
        { w2 with ticks := w2.ticks + 1, gCurrentStateNode := kPowerStateOn }).1
          = kPowerStateLast := by
      rw [StateOn_next]
      show (if w2.gSuspendEvent = _ then _ else if w2.gSuspendEvent = _ then _ else _) = _
      rw [he2]
      cases hq : w.gSuspendEvent <;> simp_all [eventActive]
    rw [SuspendStateLoop_succ n o
      { w2 with ticks := w2.ticks + 1, gCurrentStateNode := kPowerStateOn } StateOn rfl]
    rw [if_pos hlast]
    refine ⟨_, _, rfl, Or.inl ⟨rfl, ?_, ?_, ?_⟩⟩
    · simp
    · simp only [StateOn_effects, List.filter_append, hc4, ha.2, List.append_nil]
      rfl
    · exact ha.1
  · -- KernelResume
    simp only [hn, reduceCtorEq, if_false, if_true]
    refine ⟨_, _, rfl, Or.inr ⟨rfl, ?_, ?_, ?_⟩⟩
    · rw [List.filter_append, hc4]; rfl
    · exact hc3
    · intro o2 ev
      have hk := StateKernelResume_thaw (o2 (w1.ticks + 1))
        { w1 with ticks := w1.ticks + 1, gCurrentStateNode := kPowerStateKernelResume,
                  gSuspendEvent := ev } hc1 hc2
      have hstep := SuspendStateLoop_succ 11 o2
        { w1 with ticks := w1.ticks + 1, gCurrentStateNode := kPowerStateKernelResume,
                  gSuspendEvent := ev } StateKernelResume rfl
      rw [if_neg (by rw [StateKernelResume, _stateResume_next]; simp),
        if_neg (by rw [StateKernelResume, _stateResume_next]; simp)] at hstep
      obtain ⟨w3, rest, hrun, -⟩ := SuspendStateLoop_spec o2 11
        { (StateKernelResume (o2 (w1.ticks + 1))
            { w1 with ticks := w1.ticks + 1, gCurrentStateNode := kPowerStateKernelResume,
                      gSuspendEvent := ev }).2.1 with
          ticks := (StateKernelResume (o2 (w1.ticks + 1))
            { w1 with ticks := w1.ticks + 1, gCurrentStateNode := kPowerStateKernelResume,
                      gSuspendEvent := ev }).2.1.ticks + 1,
          gCurrentStateNode := kPowerStateOn } (by simp)
        (by show loopRank kPowerStateOn _ ≤ 11
            cases eventActive _ <;> simp [loopRank])
      refine ⟨w3, rest, ?_, hk.1, hk.2⟩
      show SuspendStateLoop 12 o2 _ = _
      rw [hstep]
      show Option.map _ (SuspendStateLoop 11 o2 _) = _
      rw [show (StateKernelResume (o2 (w1.ticks + 1))
            { w1 with ticks := w1.ticks + 1, gCurrentStateNode := kPowerStateKernelResume,
                      gSuspendEvent := ev }).1 = kPowerStateOn from rfl] at *
      rw [hrun]
      simp


/-- C20: rate-limited NACK logging.  Starting from a reset counter (count 0, threshold 8), along
n consecutive `StateSuspendRequest` phases that each return `On`, with n + 512 below 2^31,
phase number k leaves the count at k and prints the client table at warning level exactly
when k is 8, 16, 32, 64, 128, 256, 512 or 512 + 512 j with j ≥ 1; a phase returning `On` from
count 0 makes the count 1; a phase returning `PrepareSuspend` resets the count to 0 and the
threshold to 8 and prints no warning; a phase returns one of the two; no other state function
touches the two counters. -/
theorem nack_logging_rate_limited (ws : Nat → World) (rs : Nat → Responses) (n : Nat)
    (hn : (n : Int) + 512 < 2147483648)
    (h0 : (ws 0).request_successive_ons = 0 ∧ (ws 0).request_log_count = START_LOG_COUNT)
    (hOn : ∀ i, i < n → (StateSuspendRequest (rs i) (ws i)).1 = kPowerStateOn)
    (hnext : ∀ i, i < n →
      (ws (i + 1)).request_successive_ons
          = (StateSuspendRequest (rs i) (ws i)).2.1.request_successive_ons ∧
      (ws (i + 1)).request_log_count
          = (StateSuspendRequest (rs i) (ws i)).2.1.request_log_count) :
    (∀ i, i < n →
      (StateSuspendRequest (rs i) (ws i)).2.1.request_successive_ons = (i : Int) + 1 ∧
      (warningLogged (StateSuspendRequest (rs i) (ws i)).2.2 = true ↔
        ((i : Int) + 1 = 8 ∨ (i : Int) + 1 = 16 ∨ (i : Int) + 1 = 32 ∨ (i : Int) + 1 = 64 ∨
          (i : Int) + 1 = 128 ∨ (i : Int) + 1 = 256 ∨ (i : Int) + 1 = 512 ∨
          ∃ j : Int, 1 ≤ j ∧ (i : Int) + 1 = 512 + 512 * j))) ∧
    (∀ (r : Responses) (w : World), (StateSuspendRequest r w).1 = kPowerStateOn →
      w.request_successive_ons = 0 →
      (StateSuspendRequest r w).2.1.request_successive_ons = 1) ∧
    (∀ (r : Responses) (w : World), (StateSuspendRequest r w).1 = kPowerStatePrepareSuspend →
      (StateSuspendRequest r w).2.1.request_successive_ons = 0 ∧
      (StateSuspendRequest r w).2.1.request_log_count = 8 ∧
      warningLogged (StateSuspendRequest r w).2.2 = false) ∧
    (∀ (r : Responses) (w : World),
      (StateSuspendRequest r w).1 = kPowerStateOn ∨
        (StateSuspendRequest r w).1 = kPowerStatePrepareSuspend) ∧
    (∀ (s : PowerState) (f : PowerStateProc), kStateMachine s = some f →
      s ≠ kPowerStateSuspendRequest → ∀ (r : Responses) (w : World),
      (f r w).2.1.request_successive_ons = w.request_successive_ons ∧
        (f r w).2.1.request_log_count = w.request_log_count) := by
  refine ⟨?_, ?_, ?_, ?_, state_requestCounters⟩
  · intro i hi
    obtain ⟨hc, hl⟩ := nack_counters ws rs n hn h0 hOn hnext i (by omega)
    obtain ⟨h1, -, h3⟩ := (StateSuspendRequest_counters (rs i) (ws i)).1 (hOn i hi)
    have hi' : (i : Int) < (n : Int) := by exact_mod_cast hi
    have hw : wrapInt32 ((i : Int) + 1) = (i : Int) + 1 := wrapInt32_id _ (by omega) (by omega)
    rw [hc, hw] at h1 h3
    refine ⟨h1, h3.trans ?_⟩
    constructor
    · intro hlog
      exact (logInvariant_hit _ _ hl hlog).1
    · intro hk
      by_contra hlog
      exact (logInvariant_miss _ _ hl hlog).1 hk
  · intro r w hOn1 hz
    rw [((StateSuspendRequest_counters r w).1 hOn1).1, hz]
    decide
  · intro r w hP
    obtain ⟨-, h1, h2, h3⟩ := (StateSuspendRequest_counters r w).2 (by rw [hP]; simp)
    exact ⟨h1, h2, h3⟩
  · intro r w
    by_cases h : (StateSuspendRequest r w).1 = kPowerStateOn
    · exact Or.inl h
    · exact Or.inr ((StateSuspendRequest_counters r w).2 h).1

/-! ## The claims at the scenarios of spec section 8 -/

/-- Scenario S1 with the display on: the tick posts nothing. -/
theorem no_idle_event_with_display_on_witness :
    s1DisplayOn.gDisplayIsOn = true ∧ postedEvents (IdleCheck s1Tick s1DisplayOn).2 = [] :=
  ⟨by decide, (no_idle_event_with_display_on s1Tick s1DisplayOn (by decide)).1⟩

/-- A kernel resume at 2.1 s processed from `KernelResume`: the run broadcasts `Resume` of kind
kernel and rests in `On` with the wake time 2.1 s; there the tick at 2.5 s, inside the floor
of 1000 ms, posts nothing, and the tick at 3.2 s, after the floor, posts `IdleDetected`. -/
theorem awake_floor_after_wake_witness :
    (SuspendStateUpdate s1Oracle kPowerEventResumedByKernel s1Suspended).map
        (fun p => (p.1, p.2.filter isBroadcast)) =
      some (s1Resumed, [Effect.SendResume ResumeType.kResumeTypeKernel "resume (kernel)"]) ∧
    s1Resumed.gCurrentStateNode = kPowerStateOn ∧ s1Resumed.gDisplayIsOn = false ∧
    s1Resumed.sTimeOnWake = s1Responses.clock ∧
    s1Responses.clock.toNs ≤ s1Resumed.sTimeOnWake.toNs ∧
    tickAfterResume.clock.toNs <
      s1Responses.clock.toNs + s1Resumed.gSleepConfig.after_resume_idle_ms * 1000000 ∧
    postedEvents (IdleCheck tickAfterResume s1Resumed).2 = [] ∧
    postedEvents (IdleCheck tickAfterFloor s1Resumed).2 = [kPowerEventIdleEvent] :=
  ⟨by decide, by decide, by decide, by decide, by decide, by decide,
    ((awake_floor_after_wake s1Responses s1Suspended tickAfterResume s1Resumed).2.2.2.2
      (by decide) (by decide)).1,
    by decide⟩

/-- Scenario S4: the alarm expires in 30 s, `wait_alarms_s` is 60, and the tick posts nothing. -/
theorem alarm_proximity_posts_nothing_witness :
    s4Tick.next_wakeup = some 1700000030 ∧ 0 ≤ 1700000030 - s4Tick.reference_time ∧
    1700000030 - s4Tick.reference_time ≤ s1World.gSleepConfig.wait_alarms_s ∧
    s1World.gSleepConfig.wait_alarms_s < 2147483648 ∧
    postedEvents (IdleCheck s4Tick s1World).2 = [] :=
  ⟨rfl, by decide, by decide, by decide,
    (alarm_proximity_posts_nothing s4Tick s1World 1700000030 rfl (by decide) (by decide)
      (by decide)).1⟩

/-- Scenario S1 at `Sleep`: the platform suspends, the run stops in `KernelResume` or `On`. -/
theorem freeze_thaw_pairing_witness :
    s1Asleep.gCurrentStateNode = kPowerStateSleep ∧
    eventActive s1Asleep.gSuspendEvent = false ∧
    (MachineSupportsWakelocks s1Responses s1Asleep).1 = false ∧
    s1Responses.activities_idle = true ∧
    ∃ w' effs, SuspendStateLoop 3 (fun _ => s1Responses) s1Asleep = some (w', effs) ∧
      (w'.gCurrentStateNode = kPowerStateOn ∨ w'.gCurrentStateNode = kPowerStateKernelResume) :=
  ⟨by decide, by decide, by decide, by decide,
    let ⟨w', effs, h, hc⟩ := freeze_thaw_pairing (fun _ => s1Responses) 0 s1Asleep
      (by decide) (by decide) (by decide) (by decide)
    ⟨w', effs, h, hc.elim (fun x => Or.inl x.1) (fun x => Or.inr x.1)⟩⟩

/-- Three `ResumedByKernel` events after the suspend of S1: one `Resume` broadcast. -/
theorem idempotent_resume_witness :
    s1Suspended.gCurrentStateNode = kPowerStateKernelResume ∧
    ∃ w' effs,
      processEvents s1Oracle (List.replicate 3 kPowerEventResumedByKernel) s1Suspended =
        some (w', effs) ∧
      effs.filter isBroadcast =
        [Effect.SendResume ResumeType.kResumeTypeKernel "resume (kernel)"] :=
  ⟨by decide,
    let ⟨_, effs1, w', _, hb, _, _, _, h⟩ :=
      (idempotent_resume s1Oracle 2 s1Suspended (by decide)).1
    ⟨w', effs1, h, hb⟩⟩

/-- Scenario S2 repeated: the eighth consecutive `Nack` phase logs the table, the seventh does
not. -/
theorem nack_logging_rate_limited_witness :
    (8 : Int) + 512 < 2147483648 ∧
    (s1World.request_successive_ons = 0 ∧ s1World.request_log_count = START_LOG_COUNT) ∧
    (∀ i, i < 8 → (StateSuspendRequest s2Responses
      (phaseWorld (fun _ => s2Responses) s1World i)).1 = kPowerStateOn) ∧
    warningLogged (StateSuspendRequest s2Responses
      (phaseWorld (fun _ => s2Responses) s1World 7)).2.2 = true :=
  ⟨by decide, ⟨rfl, rfl⟩, by decide,
    ((nack_logging_rate_limited (phaseWorld (fun _ => s2Responses) s1World)
      (fun _ => s2Responses) 8 (by decide) ⟨rfl, rfl⟩ (by decide)
      (fun _ _ => ⟨rfl, rfl⟩)).1 7 (by decide)).2.2 (Or.inl (by decide))⟩

/-- Scenario S1: the broadcasts are `SuspendRequest`, `PrepareSuspend`, `Suspended` and the run
stops in `KernelResume`. -/
theorem broadcast_order_witness :
    s1World.gCurrentStateNode = kPowerStateOn ∧ MachineCanSleep s1World = true ∧
    ∃ w' effs, SuspendStateUpdate s1Oracle kPowerEventIdleEvent s1World = some (w', effs) ∧
      w'.gCurrentStateNode = kPowerStateKernelResume ∧
      effs.filter isBroadcast =
        [Effect.SendSuspendRequest "", Effect.SendPrepareSuspend "",
         Effect.SendSuspended "attempting to suspend (We are trying to sleep)"] :=
  ⟨by decide, by decide,
    (broadcast_order s1Oracle s1World).2.1 (by decide) (by decide)
      (fun cs => castVotes_approve_request Vote.Unset Vote.Unset cs)
      (fun cs => castVotes_approve_prepare Vote.Ack Vote.Ack cs)
      (by decide) (by decide) (by decide) (by decide)⟩

/-! ## Lemmas on the decoders and the machine name -/

theorem strchr_none (s : List Char) (h : strchr s '-' = none) : suffixAfterDash s = none := by
  induction s with
  | nil => rfl
  | cons x xs ih =>
    unfold strchr at h
    split_ifs at h with hx
    unfold suffixAfterDash
    rw [if_neg (by intro hc; exact hx hc.1)]
    exact ih h

theorem strchr_some (s found : List Char) (h : strchr s '-' = some found) :
    found.tail.length < s.length ∧
    suffixAfterDash s =
      (if g_ascii_isdigit found.tail then suffixAfterDash found.tail else some found.tail) := by
  induction s with
  | nil => simp [strchr] at h
  | cons x xs ih =>
    unfold strchr at h
    split_ifs at h with hx
    · simp only [Option.some.injEq] at h
      subst h
      refine ⟨by simp, ?_⟩
      simp only [List.tail_cons]
      rw [suffixAfterDash]
      cases hd : g_ascii_isdigit xs <;> simp [hx]
    · obtain ⟨h1, h2⟩ := ih h
      refine ⟨by simp only [List.length_cons]; omega, ?_⟩
      rw [suffixAfterDash, if_neg (by intro hc; exact hx hc.1)]
      exact h2

/-- The loop of `MachineGetName` finds the suffix of the claim whenever it has one iteration
per character and one more. -/
theorem machineIdLoop_eq : ∀ (n : Nat) (s : List Char), s.length < n →
    machineIdLoop n s = some (suffixAfterDash s) := by
  intro n
  induction n with
  | zero => intro s h; omega
  | succ n ih =>
    intro s h
    rw [machineIdLoop]
    cases hc : strchr s '-' with
    | none => simp only [strchr_none s hc]
    | some found =>
      obtain ⟨h1, h2⟩ := strchr_some s found hc
      simp only []
      rw [h2]
      cases hd : g_ascii_isdigit found.tail
      · simp
      · simp only [if_true]
        exact ih _ (by omega)

theorem MachineGetName_first (release : String) :
    MachineGetName (some release) none =
      some (expectedMachineName release, some (expectedMachineName release)) := by
  unfold MachineGetName expectedMachineName
  simp only []
  rw [machineIdLoop_eq _ _ (show release.toList.length < release.length + 1 from Nat.lt_succ_self _)]
  cases suffixAfterDash release.toList with
  | none => rfl
  | some suf =>
    simp only []
    by_cases h : suf = []
    · simp [h]
    · have : suf.length ≠ 0 := by simpa using h
      simp [h, this]

/-- The suffix of the claim, said with positions: the string is `pre ++ '-' :: suffix`, the
character after that `-` is no digit, and every `-` of `pre` is followed by a digit. -/
theorem suffixAfterDash_iff (s suffix : List Char) :
    suffixAfterDash s = some suffix ↔
      ∃ pre, s = pre ++ '-' :: suffix ∧ g_ascii_isdigit suffix = false ∧
        ∀ p q, pre = p ++ '-' :: q → g_ascii_isdigit (q ++ '-' :: suffix) = true := by
  induction s with
  | nil =>
    simp [suffixAfterDash]
  | cons x xs ih =>
    rw [suffixAfterDash]
    by_cases hx : x = '-' ∧ g_ascii_isdigit xs = false
    · rw [if_pos hx]
      constructor
      · intro h
        simp only [Option.some.injEq] at h
        subst h
        refine ⟨[], by rw [hx.1]; rfl, hx.2, ?_⟩
        intro p q hpq
        simp at hpq
      · rintro ⟨pre, hs, hd, hall⟩
        cases pre with
        | nil =>
          simp only [List.nil_append, List.cons.injEq] at hs
          rw [hs.2]
        | cons a pre' =>
          simp only [List.cons_append, List.cons.injEq] at hs
          have := hall [] pre' (by rw [← hs.1, hx.1]; rfl)
          rw [← hs.2, hx.2] at this
          exact absurd this (by simp)
    · rw [if_neg hx, ih]
      constructor
      · rintro ⟨pre, hs, hd, hall⟩
        refine ⟨x :: pre, by simp [hs], hd, ?_⟩
        intro p q hpq
        cases p with
        | nil =>
          simp only [List.nil_append, List.cons.injEq] at hpq
          rw [← hpq.2, ← hs]
          by_contra hc
          exact hx ⟨hpq.1, by simpa using hc⟩
        | cons a p' =>
          simp only [List.cons_append, List.cons.injEq] at hpq
          exact hall p' q hpq.2
      · rintro ⟨pre, hs, hd, hall⟩
        cases pre with
        | nil =>
          simp only [List.nil_append, List.cons.injEq] at hs
          exact absurd ⟨hs.1, by rw [hs.2]; exact hd⟩ hx
        | cons a pre' =>
          simp only [List.cons_append, List.cons.injEq] at hs
          refine ⟨pre', hs.2, hd, ?_⟩
          intro p q hpq
          exact hall (a :: p) q (by simp [hpq])

theorem DisplayStatusCb_steps (m : DisplayPayload) (w : World) :
    DisplayStatusCb (some m) w =
      (true, displayLatchStep (displayBlockStep m.blockDisplay
        (displayEventStep m.event (displayStateStep m.state w)))) := rfl

theorem displayStateStep_fields (state : Option String) (w : World) :
    (displayStateStep state w).gDisplayIsOn = displayAfterState state w.gDisplayIsOn ∧
      (displayStateStep state w).isDNAST = w.isDNAST := by
  unfold displayStateStep displayAfterState
  cases state with
  | none => exact ⟨rfl, rfl⟩
  | some st => simp only []; split_ifs <;> exact ⟨rfl, rfl⟩

theorem displayEventStep_fields (event : Option String) (w : World) :
    (displayEventStep event w).gDisplayIsOn = displayAfterEvent event w.gDisplayIsOn ∧
      (displayEventStep event w).isDNAST = w.isDNAST := by
  unfold displayEventStep displayAfterEvent
  cases event with
  | none => exact ⟨rfl, rfl⟩
  | some e => simp only []; split_ifs <;> exact ⟨rfl, rfl⟩

theorem displayBlockStep_fields (blockDisplay : Option String) (w : World) :
    (displayBlockStep blockDisplay w).gDisplayIsOn = w.gDisplayIsOn ∧
      (displayBlockStep blockDisplay w).isDNAST = latchAfter blockDisplay w.isDNAST := by
  unfold displayBlockStep latchAfter
  cases blockDisplay with
  | none => exact ⟨rfl, rfl⟩
  | some b => simp only []; split_ifs <;> exact ⟨rfl, rfl⟩

theorem displayLatchStep_fields (w : World) :
    (displayLatchStep w).gDisplayIsOn = (if w.isDNAST = true then true else w.gDisplayIsOn) ∧
      (displayLatchStep w).isDNAST = w.isDNAST := by
  unfold displayLatchStep
  split_ifs <;> exact ⟨rfl, rfl⟩

/-- The latch and the flag after a parsed message, as one expression each. -/
theorem DisplayStatusCb_eq (m : DisplayPayload) (w : World) :
    (DisplayStatusCb (some m) w).2.isDNAST = latchAfter m.blockDisplay w.isDNAST ∧
    (DisplayStatusCb (some m) w).2.gDisplayIsOn =
      (if latchAfter m.blockDisplay w.isDNAST = true then true
       else displayAfterEvent m.event (displayAfterState m.state w.gDisplayIsOn)) := by
  rw [DisplayStatusCb_steps]
  simp only [(displayLatchStep_fields _).1, (displayLatchStep_fields _).2,
    (displayBlockStep_fields _ _).1, (displayBlockStep_fields _ _).2,
    (displayEventStep_fields _ _).1, (displayEventStep_fields _ _).2,
    (displayStateStep_fields _ _).1, (displayStateStep_fields _ _).2, and_self]

theorem DisplayStatusCb_latched (p : DisplayPayload) (w : World)
    (hl : w.isDNAST = true) (hp : p.blockDisplay = none) :
    (DisplayStatusCb (some p) w).2.isDNAST = true ∧
      (DisplayStatusCb (some p) w).2.gDisplayIsOn = true := by
  obtain ⟨h1, h2⟩ := DisplayStatusCb_eq p w
  rw [hp] at h1 h2
  have hk : latchAfter none w.isDNAST = true := hl
  rw [hk] at h1 h2
  exact ⟨h1, h2⟩

theorem displayMessages_latched (later : List (Option DisplayPayload)) :
    ∀ w : World, w.isDNAST = true → w.gDisplayIsOn = true →
      (∀ m ∈ later, ∀ p, m = some p → p.blockDisplay = none) →
      (displayMessages later w).isDNAST = true ∧
        (displayMessages later w).gDisplayIsOn = true := by
  induction later with
  | nil => intro w h1 h2 _; exact ⟨h1, h2⟩
  | cons m ms ih =>
    intro w h1 h2 hl
    rw [displayMessages]
    cases m with
    | none => exact ih w h1 h2 (fun m hm => hl m (List.mem_cons_of_mem _ hm))
    | some p =>
      obtain ⟨h3, h4⟩ := DisplayStatusCb_latched p w h1 (hl _ (List.mem_cons_self _ _) p rfl)
      exact ih _ h3 h4 (fun m hm => hl m (List.mem_cons_of_mem _ hm))

theorem MachineSupportsWakelocks_display (r : Responses) (w : World) :
    (MachineSupportsWakelocks r w).2.gDisplayIsOn = w.gDisplayIsOn ∧
      (MachineSupportsWakelocks r w).2.isDNAST = w.isDNAST := by
  unfold MachineSupportsWakelocks
  cases w.wakelocks_initialized <;> exact ⟨rfl, rfl⟩

theorem ScheduleIdleCheck_display (ms : Int) (b : Bool) (w : World) :
    (ScheduleIdleCheck ms b w).gDisplayIsOn = w.gDisplayIsOn ∧
      (ScheduleIdleCheck ms b w).isDNAST = w.isDNAST := by
  unfold ScheduleIdleCheck
  cases w.idle_scheduler <;> exact ⟨rfl, rfl⟩

theorem CheckActivitiesActive_display (now : timespec) (r : Responses) (w : World) :
    (CheckActivitiesActive now r w).2.1.gDisplayIsOn = w.gDisplayIsOn ∧
      (CheckActivitiesActive now r w).2.1.isDNAST = w.isDNAST := by
  have h := MachineSupportsWakelocks_display r w
  unfold CheckActivitiesActive
  simp only []
  split_ifs <;> exact h

/-- The display flag and the latch of `DisplayStatusCb` are touched by no state function. -/
theorem state_display (s : PowerState) (f : PowerStateProc) (h : kStateMachine s = some f)
    (r : Responses) (w : World) :
    (f r w).2.1.gDisplayIsOn = w.gDisplayIsOn ∧ (f r w).2.1.isDNAST = w.isDNAST := by
  cases s <;> simp only [kStateMachine, Option.some.injEq, reduceCtorEq] at h <;> subst h
  · exact ⟨rfl, rfl⟩
  · rw [StateOnIdle_world]; exact ⟨rfl, rfl⟩
  · unfold StateSuspendRequest
    simp only []
    split_ifs <;> exact ⟨rfl, rfl⟩
  · unfold StatePrepareSuspend
    simp only []
    split_ifs <;> exact ⟨rfl, rfl⟩
  · rw [StateSleep_eq]
    simp only []
    split_ifs
    · exact CheckActivitiesActive_display _ _ _
    · exact ⟨rfl, rfl⟩
  · have h := MachineSupportsWakelocks_display r w
    rw [StateKernelResume, _stateResume_eq]
    simp only [(ScheduleIdleCheck_display _ _ _).1, (ScheduleIdleCheck_display _ _ _).2]
    split_ifs <;> exact h
  · have h := MachineSupportsWakelocks_display r w
    rw [StateActivityResume, _stateResume_eq]
    simp only [(ScheduleIdleCheck_display _ _ _).1, (ScheduleIdleCheck_display _ _ _).2]
    split_ifs <;> exact h
  · have h := MachineSupportsWakelocks_display r w
    rw [StateAbortSuspend_eq]
    simp only []
    split_ifs <;> exact h

theorem IdleCheck_display (r : IdleResponses) (w : World) :
    (IdleCheck r w).1.gDisplayIsOn = w.gDisplayIsOn ∧ (IdleCheck r w).1.isDNAST = w.isDNAST := by
  unfold IdleCheck
  split_ifs
  · exact ⟨rfl, rfl⟩
  · exact ScheduleIdleCheck_display _ _ _

/-- C22, as stated: a parsed message with state `off`, or with event `displayOff`, does not set
the display flag off when an earlier message has set the `blockDisplay` latch: the flag stays
on. -/
theorem display_state_off_under_latch :
    s1World.gDisplayIsOn = false ∧
    (displayMessages [blockMessage "true"] s1World).gDisplayIsOn = true ∧
    (displayMessages [blockMessage "true", stateMessage "off"] s1World).gDisplayIsOn = true ∧
    (displayMessages [blockMessage "true", eventMessage "displayOff"] s1World).gDisplayIsOn
      = true := by
  decide

/-- C22, amended: display mapping.  A payload that does not parse leaves the globals unchanged.
For a parsed message: with `blockDisplay` = `true` in it, or with the latch `isDNAST` still
set after it, the display flag is on whatever state and event say; with the latch clear after
it, event `displayOn` sets the flag on and `displayOff` off, and without an event member state
`off` sets it off, `on` or `dimmed` on, and no state member leaves it unchanged.  The latch is
set after the message exactly when its `blockDisplay` starts with `true`, or the latch was set
before and `blockDisplay` is absent or does not start with `false`. -/
theorem DisplayStatusCb_mapping (m : DisplayPayload) (w : World) :
    DisplayStatusCb none w = (true, w) ∧
    (m.blockDisplay = some "true" → (DisplayStatusCb (some m) w).2.gDisplayIsOn = true) ∧
    ((DisplayStatusCb (some m) w).2.isDNAST = true →
      (DisplayStatusCb (some m) w).2.gDisplayIsOn = true) ∧
    ((DisplayStatusCb (some m) w).2.isDNAST = false →
      (m.event = some "displayOn" → (DisplayStatusCb (some m) w).2.gDisplayIsOn = true) ∧
      (m.event = some "displayOff" → (DisplayStatusCb (some m) w).2.gDisplayIsOn = false) ∧
      (m.event = none →
        (m.state = some "off" → (DisplayStatusCb (some m) w).2.gDisplayIsOn = false) ∧
        (m.state = some "on" ∨ m.state = some "dimmed" →
          (DisplayStatusCb (some m) w).2.gDisplayIsOn = true) ∧
        (m.state = none → (DisplayStatusCb (some m) w).2.gDisplayIsOn = w.gDisplayIsOn))) ∧
    ((DisplayStatusCb (some m) w).2.isDNAST = true ↔
      (∃ b, m.blockDisplay = some b ∧ strncmpZero b "true" 4 = true) ∨
      (w.isDNAST = true ∧
        ∀ b, m.blockDisplay = some b → strncmpZero b "false" 5 = false)) := by
  obtain ⟨h1, h2⟩ := DisplayStatusCb_eq m w
  have t1 : latchAfter (some "true") w.isDNAST = true := by
    have : strncmpZero "true" "true" 4 = true := by decide
    simp [latchAfter, this]
  have e1 : ∀ flag, displayAfterEvent (some "displayOn") flag = true := by
    intro flag
    have : strncmpZero "displayOn" "displayOn" 9 = true := by decide
    simp [displayAfterEvent, this]
  have e2 : ∀ flag, displayAfterEvent (some "displayOff") flag = false := by
    intro flag
    have h9 : strncmpZero "displayOff" "displayOn" 9 = false := by decide
    have h10 : strncmpZero "displayOff" "displayOff" 10 = true := by decide
    simp [displayAfterEvent, h9, h10]
  have s1 : ∀ flag, displayAfterState (some "off") flag = false := by
    intro flag
    have : strncmpZero "off" "off" 3 = true := by decide
    simp [displayAfterState, this]
  have s2 : ∀ flag, displayAfterState (some "on") flag = true := by
    intro flag
    have h3 : strncmpZero "on" "off" 3 = false := by decide
    have h2 : strncmpZero "on" "on" 2 = true := by decide
    simp [displayAfterState, h3, h2]
  have s3 : ∀ flag, displayAfterState (some "dimmed") flag = true := by
    intro flag
    have h3 : strncmpZero "dimmed" "off" 3 = false := by decide
    have h6 : strncmpZero "dimmed" "dimmed" 6 = true := by decide
    simp [displayAfterState, h3, h6]
  refine ⟨rfl, ?_, ?_, ?_, ?_⟩
  · intro hb
    rw [h2, hb, t1]; rfl
  · intro hl
    rw [h1] at hl
    rw [h2, hl]; rfl
  · intro hl
    rw [h1] at hl
    rw [hl] at h2
    simp only [Bool.false_eq_true, if_false] at h2
    refine ⟨fun he => ?_, fun he => ?_, fun he => ⟨fun hs => ?_, fun hs => ?_, fun hs => ?_⟩⟩
    · rw [h2, he, e1]
    · rw [h2, he, e2]
    · rw [h2, he, hs, s1]; rfl
    · rcases hs with hs | hs
      · rw [h2, he, hs, s2]; rfl
      · rw [h2, he, hs, s3]; rfl
    · rw [h2, he, hs]; rfl
  · rw [h1]
    unfold latchAfter
    cases hb : m.blockDisplay with
    | none => simp
    | some b =>
      simp only [Option.some.injEq, exists_eq_left', forall_eq']
      cases ht : strncmpZero b "true" 4 <;> cases hf : strncmpZero b "false" 5 <;> simp

/-- C28: the `blockDisplay` latch.  After a message with `blockDisplay` = `true`, followed by
any messages that fail to parse or carry no `blockDisplay` member, the display flag is on and
the latch set, whatever the states and events of those messages; a message
`{"blockDisplay": "false"}` with no state and no event then clears the latch and leaves the
flag on, after which state `off` sets the flag off again; no state function and no idle tick
touches the flag or the latch. -/
theorem blockDisplay_latch (w : World) (b : DisplayPayload)
    (later : List (Option DisplayPayload)) (hb : b.blockDisplay = some "true")
    (hl : ∀ m ∈ later, ∀ p, m = some p → p.blockDisplay = none) :
    (displayMessages (some b :: later) w).gDisplayIsOn = true ∧
    (displayMessages (some b :: later) w).isDNAST = true ∧
    (DisplayStatusCb (blockMessage "false")
      (displayMessages (some b :: later) w)).2.gDisplayIsOn = true ∧
    (DisplayStatusCb (blockMessage "false")
      (displayMessages (some b :: later) w)).2.isDNAST = false ∧
    (DisplayStatusCb (stateMessage "off") (DisplayStatusCb (blockMessage "false")
      (displayMessages (some b :: later) w)).2).2.gDisplayIsOn = false ∧
    (∀ (s : PowerState) (f : PowerStateProc), kStateMachine s = some f →
      ∀ (r : Responses) (x : World),
        (f r x).2.1.gDisplayIsOn = x.gDisplayIsOn ∧ (f r x).2.1.isDNAST = x.isDNAST) ∧
    (∀ (r : IdleResponses) (x : World),
      (IdleCheck r x).1.gDisplayIsOn = x.gDisplayIsOn ∧ (IdleCheck r x).1.isDNAST = x.isDNAST) := by
  have t1 : latchAfter (some "true") w.isDNAST = true := by
    have : strncmpZero "true" "true" 4 = true := by decide
    simp [latchAfter, this]
  obtain ⟨h1, h2⟩ := DisplayStatusCb_eq b w
  rw [hb, t1] at h1 h2
  simp only [if_true] at h2
  obtain ⟨h3, h4⟩ := displayMessages_latched later _ h1 h2 hl
  have h3' : (displayMessages (some b :: later) w).isDNAST = true := h3
  have h4' : (displayMessages (some b :: later) w).gDisplayIsOn = true := h4
  generalize displayMessages (some b :: later) w = w1 at h3' h4' ⊢
  obtain ⟨c1, c2⟩ := DisplayStatusCb_eq ⟨none, none, some "false"⟩ w1
  have f0 : latchAfter (some "false") w1.isDNAST = false := by
    have f1 : strncmpZero "false" "true" 4 = false := by decide
    have f2 : strncmpZero "false" "false" 5 = true := by decide
    simp [latchAfter, f1, f2]
  have c1' : (DisplayStatusCb (blockMessage "false") w1).2.isDNAST = false := c1.trans f0
  have c2' : (DisplayStatusCb (blockMessage "false") w1).2.gDisplayIsOn = w1.gDisplayIsOn := by
    refine c2.trans ?_
    show (if latchAfter (some "false") w1.isDNAST = true then true else w1.gDisplayIsOn) = _
    rw [f0]; rfl
  refine ⟨h4', h3', by rw [c2', h4'], c1', ?_, state_display, IdleCheck_display⟩
  generalize (DisplayStatusCb (blockMessage "false") w1).2 = w2 at c1' ⊢
  obtain ⟨-, d2⟩ := DisplayStatusCb_eq ⟨some "off", none, none⟩ w2
  refine d2.trans ?_
  have s1 : strncmpZero "off" "off" 3 = true := by decide
  show (if w2.isDNAST = true then true else displayAfterState (some "off") w2.gDisplayIsOn) = false
  rw [c1']
  simp [displayAfterState, s1]

/-- C23: the charger message of the doc comment does not set the charger flag.  For
`{"Charging": {"USBConnected": u, "DockPower": d}}`, `ChargerStatus` looks both flags up in the
root object, where they are absent: `usbconn`, `dockconn` and `chargerIsConnected` are all
false afterwards, which is `u OR d` only when both are false; with the two flags beside
`Charging` in the root object the result is `u OR d`. -/
theorem ChargerStatus_documented_message (c u d : Bool) (w : World) :
    (ChargerStatus (some (documentedChargerMessage u d)) w).2.usbconn = false ∧
    (ChargerStatus (some (documentedChargerMessage u d)) w).2.dockconn = false ∧
    (ChargerStatus (some (documentedChargerMessage u d)) w).2.chargerIsConnected = false ∧
    ((ChargerStatus (some (documentedChargerMessage u d)) w).2.chargerIsConnected = (u || d) ↔
      (u = false ∧ d = false)) ∧
    (ChargerStatus (some (flatChargerMessage c u d)) w).2.chargerIsConnected = (u || d) := by
  refine ⟨rfl, rfl, rfl, ?_, rfl⟩
  show (false = (u || d)) ↔ _
  cases u <;> cases d <;> simp

/-- C24: machine name.  On the first call (static unset) with release string `r`,
`MachineGetName` returns `expectedMachineName r`: the suffix of `r` right after the first `-`
whose following character is no ASCII digit, when there is one and the suffix is not empty,
and `unknown` otherwise; that suffix is characterised by positions; `unknown` is returned when
`uname` fails; the release `2.6.22.1-11-palm-joplin-2430` gives `palm-joplin-2430`; and every
later call returns the value of the first, whatever `uname` then answers. -/
theorem MachineGetName_spec (release : String) (uname later : Option String) :
    MachineGetName (some release) none =
      some (expectedMachineName release, some (expectedMachineName release)) ∧
    (∀ suffix, suffixAfterDash release.toList = some suffix ↔
      ∃ pre, release.toList = pre ++ '-' :: suffix ∧ g_ascii_isdigit suffix = false ∧
        ∀ p q, pre = p ++ '-' :: q → g_ascii_isdigit (q ++ '-' :: suffix) = true) ∧
    MachineGetName none none = some ("unknown", some "unknown") ∧
    MachineGetName (some "2.6.22.1-11-palm-joplin-2430") none =
      some ("palm-joplin-2430", some "palm-joplin-2430") ∧
    (∃ first, MachineGetName uname none = some (first, some first) ∧
      MachineGetName later (some first) = some (first, some first)) := by
  refine ⟨MachineGetName_first release, fun suffix => suffixAfterDash_iff _ suffix, rfl,
    by decide, ?_⟩
  cases uname with
  | none => exact ⟨"unknown", rfl, rfl⟩
  | some rel => exact ⟨expectedMachineName rel, MachineGetName_first rel, rfl⟩

/-- The first status message `{"state": "off"}` with the latch clear sets the flag off. -/
theorem DisplayStatusCb_mapping_witness :
    (DisplayStatusCb (stateMessage "off") s1DisplayOn).2.isDNAST = false ∧
    (DisplayStatusCb (stateMessage "off") s1DisplayOn).2.gDisplayIsOn = false :=
  ⟨by decide,
    (((DisplayStatusCb_mapping ⟨some "off", none, none⟩ s1DisplayOn).2.2.2.1
      (by decide)).2.2 rfl).1 rfl⟩

/-- The release string of the doc comment of `MachineGetName`. -/
theorem MachineGetName_spec_witness :
    MachineGetName (some "2.6.22.1-11-palm-joplin-2430") none =
      some ("palm-joplin-2430", some "palm-joplin-2430") :=
  (MachineGetName_spec "2.6.22.1-11-palm-joplin-2430" none none).2.2.2.1

/-- After `{"blockDisplay": "true"}` the messages `{"state": "off"}` and
`{"event": "displayOff"}` leave the display flag on. -/
theorem blockDisplay_latch_witness :
    (⟨none, none, some "true"⟩ : DisplayPayload).blockDisplay = some "true" ∧
    (displayMessages [blockMessage "true", stateMessage "off", eventMessage "displayOff"]
      s1World).gDisplayIsOn = true :=
  ⟨rfl,
    (blockDisplay_latch s1World ⟨none, none, some "true"⟩
      [stateMessage "off", eventMessage "displayOff"] rfl
      (by
        intro m hm p hp
        simp only [List.mem_cons, List.mem_singleton, List.not_mem_nil, or_false] at hm
        rcases hm with h | h <;>
          (rw [h] at hp; simp only [stateMessage, eventMessage, Option.some.injEq] at hp;
           rw [← hp]))).1⟩

/-! ## Lemmas on the invocations of a run -/

theorem loopInvocations_succ (n : Nat) (o : Nat → Responses) (w : World) (f : PowerStateProc)
    (h : kStateMachine w.gCurrentStateNode = some f) :
    loopInvocations (n + 1) o w =
      if (f (o w.ticks) w).1 = kPowerStateLast ∨ (f (o w.ticks) w).1 = kPowerStateKernelResume
      then [w]
      else w :: loopInvocations n o
        { (f (o w.ticks) w).2.1 with
            ticks := (f (o w.ticks) w).2.1.ticks + 1,
            gCurrentStateNode := (f (o w.ticks) w).1 } := by
  rw [loopInvocations]
  simp only [h]

theorem SuspendStateLoop_none (n : Nat) (o : Nat → Responses) (w : World)
    (h : kStateMachine w.gCurrentStateNode = none) : SuspendStateLoop n o w = none := by
  cases n with
  | zero => rfl
  | succ n => rw [SuspendStateLoop]; simp only [h]

/-- One more iteration allowed does not change what the loop returns. -/
theorem SuspendStateLoop_mono (o : Nat → Responses) :
    ∀ (n : Nat) (w : World) (q : World × List Effect),
      SuspendStateLoop n o w = some q → SuspendStateLoop (n + 1) o w = some q := by
  intro n
  induction n with
  | zero => intro w q h; simp [SuspendStateLoop] at h
  | succ n ih =>
    intro w q h
    cases hf : kStateMachine w.gCurrentStateNode with
    | none => rw [SuspendStateLoop_none _ o w hf] at h; exact absurd h (by simp)
    | some f =>
      rw [SuspendStateLoop_succ n o w f hf] at h
      rw [SuspendStateLoop_succ (n + 1) o w f hf]
      by_cases h1 : (f (o w.ticks) w).1 = kPowerStateLast
      · rw [if_pos h1] at h ⊢; exact h
      · rw [if_neg h1] at h ⊢
        by_cases h2 : (f (o w.ticks) w).1 = kPowerStateKernelResume
        · rw [if_pos h2] at h ⊢; exact h
        · rw [if_neg h2] at h ⊢
          cases hq : SuspendStateLoop n o
              { (f (o w.ticks) w).2.1 with
                  ticks := (f (o w.ticks) w).2.1.ticks + 1,
                  gCurrentStateNode := (f (o w.ticks) w).1 } with
          | none => rw [hq] at h; simp at h
          | some q2 =>
            rw [hq] at h
            rw [ih _ q2 hq]
            exact h

theorem SuspendStateLoop_mono_le (o : Nat → Responses) (n m : Nat) (hnm : n ≤ m) (w : World)
    (q : World × List Effect) (h : SuspendStateLoop n o w = some q) :
    SuspendStateLoop m o w = some q := by
  induction m with
  | zero =>
    have : n = 0 := by omega
    subst this; exact h
  | succ m ih =>
    by_cases hm : n ≤ m
    · exact SuspendStateLoop_mono o m w q (ih hm)
    · have : n = m + 1 := by omega
      subst this; exact h

/-- The result of the loop does not depend on the bound. -/
theorem SuspendStateLoop_det (o : Nat → Responses) (n m : Nat) (w : World)
    (q1 q2 : World × List Effect) (h1 : SuspendStateLoop n o w = some q1)
    (h2 : SuspendStateLoop m o w = some q2) : q1 = q2 := by
  have a := SuspendStateLoop_mono_le o n (max n m) (le_max_left _ _) w q1 h1
  have b := SuspendStateLoop_mono_le o m (max n m) (le_max_right _ _) w q2 h2
  rw [a] at b
  exact Option.some.inj b

/-- The pending event after a state function: `StateOn` clears it, the others keep it. -/
theorem state_event_eq (s : PowerState) (f : PowerStateProc) (h : kStateMachine s = some f)
    (r : Responses) (w : World) (hw : w.gCurrentStateNode = s) :
    (f r w).2.1.gSuspendEvent =
      (if s = kPowerStateOn then kPowerEventNone else w.gSuspendEvent) := by
  by_cases hs : s = kPowerStateOn
  · subst hs
    simp only [kStateMachine, Option.some.injEq] at h
    subst h
    simp [StateOn_world]
  · rw [(state_sameControl s f h hs r w).2.2.1]
    simp [hs]

/-- Whether the machine can sleep is not changed by a state function. -/
theorem state_MachineCanSleep (s : PowerState) (f : PowerStateProc) (h : kStateMachine s = some f)
    (r : Responses) (w : World) : MachineCanSleep (f r w).2.1 = MachineCanSleep w := by
  by_cases hs : s = kPowerStateOn
  · subst hs
    simp only [kStateMachine, Option.some.injEq] at h
    subst h
    rfl
  · exact MachineCanSleep_congr (state_sameControl s f h hs r w)

/-- Every invocation but a first one in `KernelResume` is made in `On` or with no event
pending, and with the charger condition of the start. -/
theorem loopInvocations_inv (o : Nat → Responses) :
    ∀ (n : Nat) (w : World),
      (w.gCurrentStateNode = kPowerStateOn ∨ w.gSuspendEvent = kPowerEventNone) →
      ∀ x ∈ loopInvocations n o w,
        (x.gCurrentStateNode = kPowerStateOn ∨ x.gSuspendEvent = kPowerEventNone) ∧
        MachineCanSleep x = MachineCanSleep w := by
  intro n
  induction n with
  | zero => intro w _ x hx; simp [loopInvocations] at hx
  | succ n ih =>
    intro w hP x hx
    cases hf : kStateMachine w.gCurrentStateNode with
    | none => rw [loopInvocations] at hx; simp [hf] at hx
    | some f =>
      rw [loopInvocations_succ n o w f hf] at hx
      have hev := state_event_eq _ f hf (o w.ticks) w rfl
      have hcs := state_MachineCanSleep _ f hf (o w.ticks) w
      split_ifs at hx with hc
      · simp only [List.mem_singleton] at hx
        subst hx; exact ⟨hP, rfl⟩
      · simp only [List.mem_cons] at hx
        rcases hx with hx | hx
        · subst hx; exact ⟨hP, rfl⟩
        · have hP2 : (f (o w.ticks) w).2.1.gSuspendEvent = kPowerEventNone := by
            rw [hev]
            split_ifs with hs
            · rfl
            · rcases hP with hP | hP
              · exact absurd hP hs
              · exact hP
          obtain ⟨h1, h2⟩ := ih
            { (f (o w.ticks) w).2.1 with
                ticks := (f (o w.ticks) w).2.1.ticks + 1,
                gCurrentStateNode := (f (o w.ticks) w).1 } (Or.inr hP2) x hx
          exact ⟨h1, h2.trans hcs⟩

/-- The number of invocations is the advance of the tick counter. -/
theorem loopInvocations_length (o : Nat → Responses) :
    ∀ (n : Nat) (w w' : World) (effs : List Effect),
      SuspendStateLoop n o w = some (w', effs) →
      w'.ticks = w.ticks + (loopInvocations n o w).length := by
  intro n
  induction n with
  | zero => intro w w' effs h; simp [SuspendStateLoop] at h
  | succ n ih =>
    intro w w' effs h
    cases hf : kStateMachine w.gCurrentStateNode with
    | none => rw [SuspendStateLoop_none _ o w hf] at h; exact absurd h (by simp)
    | some f =>
      have ht := state_ticks _ f hf (o w.ticks) w
      rw [SuspendStateLoop_succ n o w f hf] at h
      rw [loopInvocations_succ n o w f hf]
      by_cases h1 : (f (o w.ticks) w).1 = kPowerStateLast
      · rw [if_pos h1] at h
        rw [if_pos (Or.inl h1)]
        simp only [Option.some.injEq, Prod.mk.injEq] at h
        rw [← h.1]
        simp [ht]
      · rw [if_neg h1] at h
        by_cases h2 : (f (o w.ticks) w).1 = kPowerStateKernelResume
        · rw [if_pos h2] at h
          rw [if_pos (Or.inr h2)]
          simp only [Option.some.injEq, Prod.mk.injEq] at h
          rw [← h.1]
          simp [ht]
        · rw [if_neg h2] at h
          rw [if_neg (by simp [h1, h2])]
          cases hq : SuspendStateLoop n o
              { (f (o w.ticks) w).2.1 with
                  ticks := (f (o w.ticks) w).2.1.ticks + 1,
                  gCurrentStateNode := (f (o w.ticks) w).1 } with
          | none => rw [hq] at h; simp at h
          | some q2 =>
            rw [hq] at h
            simp only [Option.map_some', Option.some.injEq, Prod.mk.injEq] at h
            have := ih _ q2.1 q2.2 hq
            rw [← h.1, this]
            simp only [List.length_cons, ht]
            omega

/-- The run from an invocation on is the rest of the run, and the calls of the function invoked
are part of the trace. -/
theorem loopInvocations_suffix (o : Nat → Responses) :
    ∀ (n : Nat) (w w' : World) (effs : List Effect),
      SuspendStateLoop n o w = some (w', effs) →
      ∀ x ∈ loopInvocations n o w,
        ∃ pre suf, SuspendStateLoop n o x = some (w', suf) ∧ effs = pre ++ suf := by
  intro n
  induction n with
  | zero => intro w w' effs h; simp [SuspendStateLoop] at h
  | succ n ih =>
    intro w w' effs h x hx
    cases hf : kStateMachine w.gCurrentStateNode with
    | none => rw [SuspendStateLoop_none _ o w hf] at h; exact absurd h (by simp)
    | some f =>
      have h0 := h
      rw [SuspendStateLoop_succ n o w f hf] at h
      rw [loopInvocations_succ n o w f hf] at hx
      split_ifs at hx with hc
      · simp only [List.mem_singleton] at hx
        subst hx; exact ⟨[], effs, h0, rfl⟩
      · simp only [List.mem_cons] at hx
        rcases hx with hx | hx
        · subst hx; exact ⟨[], effs, h0, rfl⟩
        · rw [if_neg (fun hh => hc (Or.inl hh)), if_neg (fun hh => hc (Or.inr hh))] at h
          cases hq : SuspendStateLoop n o
              { (f (o w.ticks) w).2.1 with
                  ticks := (f (o w.ticks) w).2.1.ticks + 1,
                  gCurrentStateNode := (f (o w.ticks) w).1 } with
          | none => rw [hq] at h; simp at h
          | some q2 =>
            obtain ⟨q21, q22⟩ := q2
            rw [hq] at h
            simp only [Option.map_some', Option.some.injEq, Prod.mk.injEq] at h
            obtain ⟨pre, suf, h3, h4⟩ := ih _ q21 q22 hq x hx
            refine ⟨((f (o w.ticks) w).2.2 ++
              [Effect.StateChange w.gCurrentStateNode (f (o w.ticks) w).1]) ++ pre, suf, ?_, ?_⟩
            · rw [← h.1]; exact SuspendStateLoop_mono o n x _ h3
            · rw [← h.2, h4]; simp only [List.append_assoc]

/-- The calls of a function the loop invokes are in the trace of the run. -/
theorem loopInvocations_effects (o : Nat → Responses) (n : Nat) (w w' : World)
    (effs : List Effect) (h : SuspendStateLoop n o w = some (w', effs))
    (x : World) (hx : x ∈ loopInvocations n o w) (f : PowerStateProc)
    (hf : kStateMachine x.gCurrentStateNode = some f) :
    ∀ e ∈ (f (o x.ticks) x).2.2, e ∈ effs := by
  obtain ⟨pre, suf, h1, h2⟩ := loopInvocations_suffix o n w w' effs h x hx
  intro e he
  rw [h2]
  apply List.mem_append_of_mem_right
  cases n with
  | zero => simp [SuspendStateLoop] at h1
  | succ n =>
    rw [SuspendStateLoop_succ n o x f hf] at h1
    split_ifs at h1
    · simp only [Option.some.injEq, Prod.mk.injEq] at h1
      rw [← h1.2]; exact he
    · simp only [Option.some.injEq, Prod.mk.injEq] at h1
      rw [← h1.2]; exact List.mem_append_of_mem_left _ he
    · cases hq : SuspendStateLoop n o
          { (f (o x.ticks) x).2.1 with
              ticks := (f (o x.ticks) x).2.1.ticks + 1,
              gCurrentStateNode := (f (o x.ticks) x).1 } with
      | none => rw [hq] at h1; simp at h1
      | some q2 =>
        rw [hq] at h1
        simp only [Option.map_some', Option.some.injEq, Prod.mk.injEq] at h1
        rw [← h1.2]
        exact List.mem_append_of_mem_left _ (List.mem_append_of_mem_left _ he)

/-- The first iteration of a run entered in `KernelResume`: `StateKernelResume` is invoked and
the loop goes on in `On` with the same event. -/
theorem SuspendStateLoop_from_KernelResume (n : Nat) (o : Nat → Responses) (w : World)
    (hK : w.gCurrentStateNode = kPowerStateKernelResume) :
    ∃ w2, w2.gCurrentStateNode = kPowerStateOn ∧ w2.ticks = w.ticks + 1 ∧
      w2.gSuspendEvent = w.gSuspendEvent ∧ MachineCanSleep w2 = MachineCanSleep w ∧
      loopInvocations (n + 1) o w = w :: loopInvocations n o w2 ∧
      SuspendStateLoop (n + 1) o w =
        (SuspendStateLoop n o w2).map fun q =>
          (q.1, ((StateKernelResume (o w.ticks) w).2.2 ++
            [Effect.StateChange kPowerStateKernelResume kPowerStateOn]) ++ q.2) := by
  have hf : kStateMachine w.gCurrentStateNode = some StateKernelResume := by rw [hK]; rfl
  have hsc := state_sameControl _ StateKernelResume hf (by rw [hK]; simp) (o w.ticks) w
  have hn : (StateKernelResume (o w.ticks) w).1 = kPowerStateOn := rfl
  refine ⟨{ (StateKernelResume (o w.ticks) w).2.1 with
      ticks := (StateKernelResume (o w.ticks) w).2.1.ticks + 1,
      gCurrentStateNode := kPowerStateOn }, rfl, ?_, hsc.2.2.1, ?_, ?_, ?_⟩
  · simp only [hsc.2.1]
  · simp only [MachineCanSleep, hsc.2.2.2.1, hsc.2.2.2.2]
  · rw [loopInvocations_succ n o w StateKernelResume hf, if_neg (by rw [hn]; simp)]
    rfl
  · rw [SuspendStateLoop_succ n o w StateKernelResume hf, if_neg (by rw [hn]; simp),
      if_neg (by rw [hn]; simp), hK]
    rfl

/-- In a run started in `On` or `KernelResume`, `StateSleep` is invoked with no event pending
and under the charger condition of the start. -/
theorem loopInvocations_Sleep (o : Nat → Responses) (n : Nat) (w : World)
    (hw : w.gCurrentStateNode = kPowerStateOn ∨ w.gCurrentStateNode = kPowerStateKernelResume) :
    ∀ x ∈ loopInvocations n o w, x.gCurrentStateNode = kPowerStateSleep →
      x.gSuspendEvent = kPowerEventNone ∧ MachineCanSleep x = MachineCanSleep w := by
  intro x hx hs
  rcases hw with hw | hw
  · obtain ⟨h1, h2⟩ := loopInvocations_inv o n w (Or.inl hw) x hx
    rcases h1 with h1 | h1
    · rw [hs] at h1; exact absurd h1 (by simp)
    · exact ⟨h1, h2⟩
  · cases n with
    | zero => simp [loopInvocations] at hx
    | succ n =>
      obtain ⟨w2, h2s, -, -, h2c, hinv, -⟩ := SuspendStateLoop_from_KernelResume n o w hw
      rw [hinv, List.mem_cons] at hx
      rcases hx with hx | hx
      · rw [hx, hw] at hs; exact absurd hs (by simp)
      · obtain ⟨h1, h2⟩ := loopInvocations_inv o n w2 (Or.inl h2s) x hx
        rcases h1 with h1 | h1
        · rw [hs] at h1; exact absurd h1 (by simp)
        · exact ⟨h1, h2.trans h2c⟩

/-- A run that starts in `On` or with no event pending ends with no event pending. -/
theorem SuspendStateLoop_event (o : Nat → Responses) :
    ∀ (n : Nat) (w w' : World) (effs : List Effect),
      (w.gCurrentStateNode = kPowerStateOn ∨ w.gSuspendEvent = kPowerEventNone) →
      SuspendStateLoop n o w = some (w', effs) → w'.gSuspendEvent = kPowerEventNone := by
  intro n
  induction n with
  | zero => intro w w' effs _ h; simp [SuspendStateLoop] at h
  | succ n ih =>
    intro w w' effs hP h
    cases hf : kStateMachine w.gCurrentStateNode with
    | none => rw [SuspendStateLoop_none _ o w hf] at h; exact absurd h (by simp)
    | some f =>
      have hev := state_event_eq _ f hf (o w.ticks) w rfl
      have hP2 : (f (o w.ticks) w).2.1.gSuspendEvent = kPowerEventNone := by
        rw [hev]
        split_ifs with hs
        · rfl
        · rcases hP with hP | hP
          · exact absurd hP hs
          · exact hP
      rw [SuspendStateLoop_succ n o w f hf] at h
      by_cases h1 : (f (o w.ticks) w).1 = kPowerStateLast
      · rw [if_pos h1] at h
        simp only [Option.some.injEq, Prod.mk.injEq] at h
        rw [← h.1]; exact hP2
      · rw [if_neg h1] at h
        by_cases h2 : (f (o w.ticks) w).1 = kPowerStateKernelResume
        · rw [if_pos h2] at h
          simp only [Option.some.injEq, Prod.mk.injEq] at h
          rw [← h.1]; exact hP2
        · rw [if_neg h2] at h
          cases hq : SuspendStateLoop n o
              { (f (o w.ticks) w).2.1 with
                  ticks := (f (o w.ticks) w).2.1.ticks + 1,
                  gCurrentStateNode := (f (o w.ticks) w).1 } with
          | none => rw [hq] at h; simp at h
          | some q2 =>
            rw [hq] at h
            simp only [Option.map_some', Option.some.injEq, Prod.mk.injEq] at h
            rw [← h.1]
            exact ih { (f (o w.ticks) w).2.1 with
                  ticks := (f (o w.ticks) w).2.1.ticks + 1,
                  gCurrentStateNode := (f (o w.ticks) w).1 } q2.1 q2.2 (Or.inr hP2) hq

/-- The calls of a state function hold no state change. -/
theorem state_leavesOn (f : PowerStateProc) (t : PowerState) (r : Responses) (w : World)
    (hf : kStateMachine t = some f) : (f r w).2.2.filter leavesOn = [] := by
  rw [List.filter_eq_nil_iff]
  intro e he
  have := state_noChange t f hf r w e he
  cases e <;> simp [isStateChange, leavesOn] at this ⊢

/-- Once no event is pending, no state change of the trace leaves `On`. -/
theorem RunShape_leavesOn {s final : PowerState} {effs : List Effect}
    (h : RunShape s effs final) : effs.filter leavesOn = [] := by
  have key := state_leavesOn
  induction h with
  | done => rfl
  | kernel s f r w hf hin hk =>
    rw [List.filter_append, key f s r w hf]
    rcases state_edge _ f hf r w with ⟨hl, -, -⟩ | ⟨-, -, hact⟩
    · rw [hk] at hl; exact absurd hl (by simp)
    · have hs : s ≠ kPowerStateOn := by
        intro hs; have := hact hs; rw [hin] at this; exact absurd this (by simp)
      cases s <;> simp [leavesOn] at hs ⊢
  | step s f r w rest final hf hin hnl hk hrest ih =>
    rw [List.filter_append, List.filter_append, key f s r w hf, ih]
    rcases state_edge _ f hf r w with ⟨hl, -, -⟩ | ⟨-, -, hact⟩
    · exact absurd hl hnl
    · have hs : s ≠ kPowerStateOn := by
        intro hs; have := hact hs; rw [hin] at this; exact absurd this (by simp)
      cases s <;> simp [leavesOn] at hs ⊢

/-- A run entered in `On` makes at most one state change out of `On`. -/
theorem SuspendStateLoop_On_leavesOn (o : Nat → Responses) (n : Nat) (w w' : World)
    (effs : List Effect) (hOn : w.gCurrentStateNode = kPowerStateOn)
    (hrun : SuspendStateLoop n o w = some (w', effs)) :
    (effs.filter leavesOn).length ≤ 1 := by
  cases n with
  | zero => simp [SuspendStateLoop] at hrun
  | succ n =>
    have hf : kStateMachine w.gCurrentStateNode = some StateOn := by rw [hOn]; rfl
    rw [SuspendStateLoop_succ n o w StateOn hf] at hrun
    by_cases h1 : (StateOn (o w.ticks) w).1 = kPowerStateLast
    · rw [if_pos h1] at hrun
      simp only [Option.some.injEq, Prod.mk.injEq, StateOn_effects] at hrun
      rw [← hrun.2]; simp
    · rw [if_neg h1] at hrun
      have h2 : (StateOn (o w.ticks) w).1 ≠ kPowerStateKernelResume := by
        rw [StateOn_next]; split_ifs <;> simp
      rw [if_neg h2] at hrun
      cases hq : SuspendStateLoop n o
          { (StateOn (o w.ticks) w).2.1 with
              ticks := (StateOn (o w.ticks) w).2.1.ticks + 1,
              gCurrentStateNode := (StateOn (o w.ticks) w).1 } with
      | none => rw [hq] at hrun; simp at hrun
      | some q =>
        obtain ⟨q1, q2⟩ := q
        rw [hq] at hrun
        simp only [Option.map_some', Option.some.injEq, Prod.mk.injEq] at hrun
        have hsh := SuspendStateLoop_shape o n _ q1 q2 (by simp [eventActive, StateOn_world]) hq
        have := RunShape_leavesOn hsh
        rw [← hrun.2, List.filter_append, List.filter_append, this, StateOn_effects]
        simp only [List.filter_nil, List.nil_append, List.append_nil]
        exact List.length_filter_le _ _

/-- With the charger forbidding sleep, `StateSleep` neither queues the alarm nor calls the
platform. -/
theorem StateSleep_cannot_sleep (r : Responses) (w : World) (h : MachineCanSleep w = false) :
    Effect.queue_next_wakeup ∉ (StateSleep r w).2.2 ∧
      Effect.nyx_system_suspend_async ∉ (StateSleep r w).2.2 := by
  rw [StateSleep_eq]
  simp only [CheckActivitiesActive_effects, h]
  split_ifs <;> simp

/-- With the charger forbidding sleep at the start, no run queues the alarm or calls the
platform. -/
theorem SuspendStateLoop_noSuspendCalls (o : Nat → Responses) :
    ∀ (n : Nat) (w w' : World) (effs : List Effect), MachineCanSleep w = false →
      SuspendStateLoop n o w = some (w', effs) →
      Effect.queue_next_wakeup ∉ effs ∧ Effect.nyx_system_suspend_async ∉ effs := by
  intro n
  induction n with
  | zero => intro w w' effs _ h; simp [SuspendStateLoop] at h
  | succ n ih =>
    intro w w' effs hc h
    cases hf : kStateMachine w.gCurrentStateNode with
    | none => rw [SuspendStateLoop_none _ o w hf] at h; exact absurd h (by simp)
    | some f =>
      have hcs := state_MachineCanSleep _ f hf (o w.ticks) w
      have hfe : Effect.queue_next_wakeup ∉ (f (o w.ticks) w).2.2 ∧
          Effect.nyx_system_suspend_async ∉ (f (o w.ticks) w).2.2 := by
        by_cases hs : w.gCurrentStateNode = kPowerStateSleep
        · rw [hs] at hf
          simp only [kStateMachine, Option.some.injEq] at hf
          subst hf
          exact StateSleep_cannot_sleep _ w hc
        · exact state_noSuspendCalls _ f hf hs _ _
      rw [SuspendStateLoop_succ n o w f hf] at h
      by_cases h1 : (f (o w.ticks) w).1 = kPowerStateLast
      · rw [if_pos h1] at h
        simp only [Option.some.injEq, Prod.mk.injEq] at h
        rw [← h.2]; exact hfe
      · rw [if_neg h1] at h
        by_cases h2 : (f (o w.ticks) w).1 = kPowerStateKernelResume
        · rw [if_pos h2] at h
          simp only [Option.some.injEq, Prod.mk.injEq] at h
          rw [← h.2]
          simp [hfe.1, hfe.2]
        · rw [if_neg h2] at h
          cases hq : SuspendStateLoop n o
              { (f (o w.ticks) w).2.1 with
                  ticks := (f (o w.ticks) w).2.1.ticks + 1,
                  gCurrentStateNode := (f (o w.ticks) w).1 } with
          | none => rw [hq] at h; simp at h
          | some q2 =>
            rw [hq] at h
            simp only [Option.map_some', Option.some.injEq, Prod.mk.injEq] at h
            have hc2 : MachineCanSleep
                { (f (o w.ticks) w).2.1 with
                    ticks := (f (o w.ticks) w).2.1.ticks + 1,
                    gCurrentStateNode := (f (o w.ticks) w).1 } = false := by
              rw [← hc, ← hcs]; rfl
            obtain ⟨i1, i2⟩ := ih _ q2.1 q2.2 hc2 hq
            rw [← h.2]
            simp [hfe.1, hfe.2, i1, i2]

/-- The run from `Sleep` when the charger forbids sleep: one resume step, then `On`. -/
theorem SuspendStateLoop_Sleep_cannot_sleep (o : Nat → Responses) (n : Nat) (x w' : World)
    (suf : List Effect) (hs : x.gCurrentStateNode = kPowerStateSleep)
    (hev : x.gSuspendEvent = kPowerEventNone) (hc : MachineCanSleep x = false)
    (hrun : SuspendStateLoop n o x = some (w', suf)) :
    (StateSleep (o x.ticks) x).1 =
      (if (o x.ticks).activities_idle = false then kPowerStateActivityResume
       else kPowerStateAbortSuspend) ∧
    w'.gCurrentStateNode = kPowerStateOn ∧
    Effect.StateChange kPowerStateSleep (StateSleep (o x.ticks) x).1 ∈ suf ∧
    suf.filter isBroadcast =
      stateBroadcasts kPowerStateSleep ++ stateBroadcasts (StateSleep (o x.ticks) x).1 := by
  have hnext : (StateSleep (o x.ticks) x).1 =
      (if (o x.ticks).activities_idle = false then kPowerStateActivityResume
       else kPowerStateAbortSuspend) := by
    rw [StateSleep_next, hev, hc]
    simp
  refine ⟨hnext, ?_⟩
  have hX : (StateSleep (o x.ticks) x).1 = kPowerStateActivityResume ∨
      (StateSleep (o x.ticks) x).1 = kPowerStateAbortSuspend := by
    rw [hnext]; split_ifs <;> simp
  obtain ⟨w2, h2s, -, h2e, -, hrun2⟩ := SuspendStateLoop_step 2 o x StateSleep
    (by rw [hs]; rfl) (by rw [hs]; simp)
    (by rcases hX with h | h <;> rw [h] <;> simp) (by rcases hX with h | h <;> rw [h] <;> simp)
  obtain ⟨f2, hf2, hn2⟩ : ∃ f2, kStateMachine w2.gCurrentStateNode = some f2 ∧
      ∀ r y, (f2 r y).1 = kPowerStateOn := by
    rcases hX with h | h
    · exact ⟨StateActivityResume, by rw [h2s, h]; rfl, fun _ _ => rfl⟩
    · exact ⟨StateAbortSuspend, by rw [h2s, h]; rfl, fun _ _ => rfl⟩
  obtain ⟨w3, h3s, -, h3e, -, hrun3⟩ := SuspendStateLoop_step 1 o w2 f2 hf2
    (by rw [h2s]; rcases hX with h | h <;> rw [h] <;> simp)
    (by rw [hn2]; simp) (by rw [hn2]; simp)
  rw [hn2] at h3s
  have hlast : (StateOn (o w3.ticks) w3).1 = kPowerStateLast := by
    rw [StateOn_next, h3e, h2e, hev]; simp
  have hrun4 := SuspendStateLoop_succ 0 o w3 StateOn (by rw [h3s]; rfl)
  rw [if_pos hlast] at hrun4
  rw [hrun4] at hrun3
  rw [hrun3] at hrun2
  simp only [Option.map_some', StateOn_effects, List.append_nil] at hrun2
  have := SuspendStateLoop_det o n 3 x _ _ hrun hrun2
  simp only [Prod.mk.injEq] at this
  obtain ⟨e1, e2⟩ := this
  refine ⟨?_, ?_, ?_⟩
  · rw [e1]
    show (StateOn (o w3.ticks) w3).2.1.gCurrentStateNode = kPowerStateOn
    rw [StateOn_world]; exact h3s
  · rw [e2, hs]; simp
  · rw [e2]
    simp only [List.filter_append, state_broadcasts kPowerStateSleep StateSleep rfl, state_broadcasts _ f2 hf2,
      h2s, hs]
    simp [List.filter, isBroadcast]

/-- C25: event processing terminates in a resting state.  For every event and oracle,
`SuspendStateUpdate` started in `On` or `KernelResume` returns, already with a bound of 8
iterations, in `On` or `KernelResume`; the state functions it invokes are as many as the tick
counter advances and at most 8; no event is pending afterwards, and at most one state change
of the run leaves `On`. -/
theorem SuspendStateUpdate_terminates (o : Nat → Responses) (ev : PowerEvent) (w : World)
    (hw : w.gCurrentStateNode = kPowerStateOn ∨ w.gCurrentStateNode = kPowerStateKernelResume) :
    ∃ w' effs, SuspendStateUpdate o ev w = some (w', effs) ∧
      SuspendStateLoop 8 o { w with gSuspendEvent := ev } = some (w', effs) ∧
      (w'.gCurrentStateNode = kPowerStateOn ∨ w'.gCurrentStateNode = kPowerStateKernelResume) ∧
      w'.ticks = w.ticks + (loopInvocations 12 o { w with gSuspendEvent := ev }).length ∧
      (loopInvocations 12 o { w with gSuspendEvent := ev }).length ≤ 8 ∧
      w'.gSuspendEvent = kPowerEventNone ∧
      (effs.filter leavesOn).length ≤ 1 := by
  have hne : ({ w with gSuspendEvent := ev } : World).gCurrentStateNode ≠ kPowerStateLast := by
    rcases hw with h | h <;> simp [h]
  have hrank : loopRank ({ w with gSuspendEvent := ev } : World).gCurrentStateNode
      (eventActive ({ w with gSuspendEvent := ev } : World).gSuspendEvent) ≤ 8 := by
    rcases hw with h | h <;> simp only [h] <;> cases eventActive ev <;> simp [loopRank]
  obtain ⟨w', effs, hrun, hrest, -, -, hticks⟩ :=
    SuspendStateLoop_spec o 12 { w with gSuspendEvent := ev } hne (le_trans hrank (by omega))
  obtain ⟨w8, effs8, hrun8, -⟩ :=
    SuspendStateLoop_spec o 8 { w with gSuspendEvent := ev } hne hrank
  have hdet := SuspendStateLoop_det o 8 12 _ _ _ hrun8 hrun
  rw [hdet] at hrun8
  have hlen := loopInvocations_length o 12 _ w' effs hrun
  have hlen' : w'.ticks = w.ticks + (loopInvocations 12 o { w with gSuspendEvent := ev }).length :=
    hlen
  refine ⟨w', effs, hrun, hrun8, hrest, hlen', ?_, ?_, ?_⟩
  · have h1 : w'.ticks ≤ w.ticks + 8 := le_trans hticks (Nat.add_le_add_left hrank _)
    omega
  · rcases hw with h | h
    · exact SuspendStateLoop_event o 12 { w with gSuspendEvent := ev } w' effs (Or.inl h) hrun
    · obtain ⟨w2, h2s, -, -, -, -, hstep⟩ :=
        SuspendStateLoop_from_KernelResume 11 o { w with gSuspendEvent := ev } h
      rw [hstep] at hrun
      cases hq : SuspendStateLoop 11 o w2 with
      | none => rw [hq] at hrun; simp at hrun
      | some q =>
        rw [hq] at hrun
        simp only [Option.map_some', Option.some.injEq, Prod.mk.injEq] at hrun
        rw [← hrun.1]
        exact SuspendStateLoop_event o 11 w2 q.1 q.2 (Or.inl h2s) hq
  · rcases hw with h | h
    · exact SuspendStateLoop_On_leavesOn o 12 { w with gSuspendEvent := ev } w' effs h hrun
    · obtain ⟨w2, h2s, -, -, -, -, hstep⟩ :=
        SuspendStateLoop_from_KernelResume 11 o { w with gSuspendEvent := ev } h
      rw [hstep] at hrun
      cases hq : SuspendStateLoop 11 o w2 with
      | none => rw [hq] at hrun; simp at hrun
      | some q =>
        rw [hq] at hrun
        simp only [Option.map_some', Option.some.injEq, Prod.mk.injEq] at hrun
        rw [← hrun.2, List.filter_append, List.filter_append,
          state_leavesOn StateKernelResume kPowerStateKernelResume _ _ rfl]
        have := SuspendStateLoop_On_leavesOn o 11 w2 q.1 q.2 h2s hq
        simpa [List.filter, leavesOn] using this

/-- C26: `ForceSuspend` does not bypass the activity check.  In every run of
`SuspendStateUpdate` started in `On` or `KernelResume`, for every event, each invocation of
`StateSleep` finds no event pending, its activity check is in the trace of the run (the
registry query on a wakelock platform, the freeze otherwise), and it returns `ActivityResume`
exactly when the check fails. -/
theorem activity_check_on_every_sleep (o : Nat → Responses) (ev : PowerEvent) (w : World)
    (hw : w.gCurrentStateNode = kPowerStateOn ∨ w.gCurrentStateNode = kPowerStateKernelResume) :
    ∃ w' effs, SuspendStateUpdate o ev w = some (w', effs) ∧
      ∀ x ∈ loopInvocations 12 o { w with gSuspendEvent := ev },
        x.gCurrentStateNode = kPowerStateSleep →
        x.gSuspendEvent = kPowerEventNone ∧
        ((MachineSupportsWakelocks (o x.ticks) x).1 = true →
          Effect.PwrEventActivityCheckActivitiesActive (o x.ticks).clock ∈ effs) ∧
        ((MachineSupportsWakelocks (o x.ticks) x).1 = false →
          Effect.PwrEventFreezeActivities (o x.ticks).clock ∈ effs) ∧
        ((StateSleep (o x.ticks) x).1 = kPowerStateActivityResume ↔
          (o x.ticks).activities_idle = false) := by
  obtain ⟨w', effs, hrun, -⟩ := SuspendStateUpdate_spec o ev w (by
    rcases hw with h | h <;> simp [h])
  refine ⟨w', effs, hrun, fun x hx hs => ?_⟩
  obtain ⟨hev, -⟩ := loopInvocations_Sleep o 12 { w with gSuspendEvent := ev } hw x hx hs
  have hmem := loopInvocations_effects o 12 _ w' effs hrun x hx StateSleep (by rw [hs]; rfl)
  have hi : (MachineSupportsWakelocks (o x.ticks) (InstrumentOnSleep (o x.ticks) x).1).1 =
      (MachineSupportsWakelocks (o x.ticks) x).1 := by
    unfold MachineSupportsWakelocks InstrumentOnSleep
    cases h : x.wakelocks_initialized <;> simp [h]
  have heff : (StateSleep (o x.ticks) x).2.2 =
      _ := (congrArg (fun p => p.2.2) (StateSleep_eq (o x.ticks) x))
  simp only [hev, CheckActivitiesActive_effects, hi, ne_eq, reduceCtorEq, not_false_eq_true,
    if_true, true_and] at heff
  refine ⟨hev, fun hwl => ?_, fun hwl => ?_, ?_⟩
  · apply hmem
    rw [heff, hwl]
    simp
  · apply hmem
    rw [heff, hwl]
    simp
  · rw [StateSleep_next, hev]
    cases h1 : (o x.ticks).activities_idle <;> simp
    split_ifs <;> simp

/-- C27, as stated: on charger a run need not go through `AbortSuspend`.  A cycle forced from
`On` with the charger connected and `suspend_with_charger` false, in which an activity is
active when `StateSleep` checks, leaves `Sleep` by `ActivityResume`, broadcasts `Resume` of
kind activity and none of kind abort, and ends in `On`. -/
theorem charger_run_through_activity_resume :
    (s6World.chargerIsConnected = true ∧ s6World.gSleepConfig.suspend_with_charger = false) ∧
    (SuspendStateUpdate forceActivityOracle kPowerEventForceSuspend s6World).map
        (fun p => (p.1.gCurrentStateNode, p.2.filter isBroadcast,
          p.2.filter (fun e => decide (e = Effect.StateChange kPowerStateSleep
              kPowerStateAbortSuspend) ||
            decide (e = Effect.StateChange kPowerStateSleep kPowerStateActivityResume)))) =
      some (kPowerStateOn,
        [Effect.SendSuspendRequest "", Effect.SendPrepareSuspend "",
         Effect.SendSuspended "attempting to suspend (We are trying to sleep)",
         Effect.SendResume ResumeType.kResumeTypeActivity "resume (pwrevent_activity)"],
        [Effect.StateChange kPowerStateSleep kPowerStateActivityResume]) := by
  decide

/-- C27, amended: in every run of `SuspendStateUpdate` started in `On` or `KernelResume`, for
every event, if the charger is connected and `suspend_with_charger` is false when `StateSleep`
is invoked, the run makes no call of `queue_next_wakeup` or of the platform suspend and ends
in `On`; from `StateSleep` on it goes through `AbortSuspend` and broadcasts `Suspended`,
`Resume` (suspend aborted) when the activity check passes, and through `ActivityResume` with
`Suspended`, `Resume` (activity) when the check fails. -/
theorem no_platform_suspend_on_charger (o : Nat → Responses) (ev : PowerEvent) (w : World)
    (hw : w.gCurrentStateNode = kPowerStateOn ∨ w.gCurrentStateNode = kPowerStateKernelResume) :
    ∃ w' effs, SuspendStateUpdate o ev w = some (w', effs) ∧
      ∀ x ∈ loopInvocations 12 o { w with gSuspendEvent := ev },
        x.gCurrentStateNode = kPowerStateSleep →
        x.chargerIsConnected = true → x.gSleepConfig.suspend_with_charger = false →
        Effect.queue_next_wakeup ∉ effs ∧ Effect.nyx_system_suspend_async ∉ effs ∧
        w'.gCurrentStateNode = kPowerStateOn ∧
        ∃ pre suf, effs = pre ++ suf ∧
          (((o x.ticks).activities_idle = true ∧
              (StateSleep (o x.ticks) x).1 = kPowerStateAbortSuspend ∧
              Effect.StateChange kPowerStateSleep kPowerStateAbortSuspend ∈ suf ∧
              suf.filter isBroadcast =
                [Effect.SendSuspended "attempting to suspend (We are trying to sleep)",
                 Effect.SendResume ResumeType.kResumeAbortSuspend "resume (suspend aborted)"]) ∨
           ((o x.ticks).activities_idle = false ∧
              (StateSleep (o x.ticks) x).1 = kPowerStateActivityResume ∧
              Effect.StateChange kPowerStateSleep kPowerStateActivityResume ∈ suf ∧
              suf.filter isBroadcast =
                [Effect.SendSuspended "attempting to suspend (We are trying to sleep)",
                 Effect.SendResume ResumeType.kResumeTypeActivity
                   "resume (pwrevent_activity)"])) := by
  obtain ⟨w', effs, hrun, -⟩ := SuspendStateUpdate_spec o ev w (by
    rcases hw with h | h <;> simp [h])
  refine ⟨w', effs, hrun, fun x hx hs hch hcfg => ?_⟩
  have hcx : MachineCanSleep x = false := by simp [MachineCanSleep, hch, hcfg]
  obtain ⟨hev, hcw⟩ := loopInvocations_Sleep o 12 { w with gSuspendEvent := ev } hw x hx hs
  have hc0 : MachineCanSleep ({ w with gSuspendEvent := ev } : World) = false := by
    rw [← hcw]; exact hcx
  obtain ⟨n1, n2⟩ := SuspendStateLoop_noSuspendCalls o 12 _ w' effs hc0 hrun
  obtain ⟨pre, suf, hsuf, happ⟩ := loopInvocations_suffix o 12 _ w' effs hrun x hx
  obtain ⟨hnext, hfin, hchg, hbr⟩ :=
    SuspendStateLoop_Sleep_cannot_sleep o 12 x w' suf hs hev hcx hsuf
  refine ⟨n1, n2, hfin, pre, suf, happ, ?_⟩
  cases hidle : (o x.ticks).activities_idle
  · right
    rw [hidle] at hnext
    simp only [if_true] at hnext
    rw [hnext] at hchg hbr
    exact ⟨rfl, hnext, hchg, hbr⟩
  · left
    rw [hidle] at hnext
    simp only [Bool.true_eq_false, if_false] at hnext
    rw [hnext] at hchg hbr
    exact ⟨rfl, hnext, hchg, hbr⟩

/-- Scenario S1: the idle event is processed by five state functions and the run rests in
`KernelResume`. -/
theorem SuspendStateUpdate_terminates_witness :
    s1World.gCurrentStateNode = kPowerStateOn ∧
    ∃ w' effs, SuspendStateUpdate s1Oracle kPowerEventIdleEvent s1World = some (w', effs) ∧
      w'.ticks = s1World.ticks +
        (loopInvocations 12 s1Oracle
          { s1World with gSuspendEvent := kPowerEventIdleEvent }).length ∧
      (loopInvocations 12 s1Oracle
        { s1World with gSuspendEvent := kPowerEventIdleEvent }).length = 5 :=
  ⟨by decide,
    let ⟨w', effs, h, _, _, ht, _⟩ :=
      SuspendStateUpdate_terminates s1Oracle kPowerEventIdleEvent s1World (Or.inl (by decide))
    ⟨w', effs, h, ht, by decide⟩⟩

/-- A cycle forced from `On`: `StateSleep` is the fourth function invoked, with no event
pending. -/
theorem activity_check_on_every_sleep_witness :
    s1World.gCurrentStateNode = kPowerStateOn ∧
    ((loopInvocations 12 forceOracle
      { s1World with gSuspendEvent := kPowerEventForceSuspend }).map
        fun x => x.gCurrentStateNode) =
      [kPowerStateOn, kPowerStateSuspendRequest, kPowerStatePrepareSuspend, kPowerStateSleep] ∧
    ∃ w' effs, SuspendStateUpdate forceOracle kPowerEventForceSuspend s1World = some (w', effs) ∧
      ∀ x ∈ loopInvocations 12 forceOracle
          { s1World with gSuspendEvent := kPowerEventForceSuspend },
        x.gCurrentStateNode = kPowerStateSleep → x.gSuspendEvent = kPowerEventNone :=
  ⟨by decide, by decide,
    let ⟨w', effs, h, hx⟩ :=
      activity_check_on_every_sleep forceOracle kPowerEventForceSuspend s1World
        (Or.inl (by decide))
    ⟨w', effs, h, fun x hm hs => (hx x hm hs).1⟩⟩

/-- A cycle forced from `On` on charger with no activity active: no platform call. -/
theorem no_platform_suspend_on_charger_witness :
    s6World.gCurrentStateNode = kPowerStateOn ∧
    ((loopInvocations 12 forceOracle
      { s6World with gSuspendEvent := kPowerEventForceSuspend }).map
        fun x => (x.gCurrentStateNode, x.chargerIsConnected,
          x.gSleepConfig.suspend_with_charger)) =
      [(kPowerStateOn, true, false), (kPowerStateSuspendRequest, true, false),
       (kPowerStatePrepareSuspend, true, false), (kPowerStateSleep, true, false),
       (kPowerStateAbortSuspend, true, false), (kPowerStateOn, true, false)] ∧
    ∃ w' effs, SuspendStateUpdate forceOracle kPowerEventForceSuspend s6World = some (w', effs) :=
  ⟨by decide, by decide,
    let ⟨w', effs, h, _⟩ :=
      no_platform_suspend_on_charger forceOracle kPowerEventForceSuspend s6World
        (Or.inl (by decide))
    ⟨w', effs, h⟩⟩

end Sleepd
